import Mathlib

/-! The news-app: post entity, service, repository and handlers.

A shallow embedding of `internal/domain/post.go`, `internal/services/post/service.go`,
`internal/repository/post/mongo.go` and of `Index`, `Create` and `Update` of
`internal/handlers/post/handlers.go`, followed by the properties proved about them.

Conventions of the embedding

* A Go `string` holding text is a Lean `String`; Go's `len(s)` is the number of
  bytes of the UTF-8 encoding (`String.utf8ByteSize`), while the number of
  characters is `String.length`.
* `time.Time` is a natural number of clock ticks; every `time.Now()` in the
  source becomes an explicit argument `now`.
* `primitive.ObjectID` is the 12-byte identifier read as a natural number;
  `primitive.NewObjectID()` becomes an explicit argument `newID`.
* A Go `error` is a value of `Error`; `nil` is `none`.
* A method with a pointer receiver, or taking a `*Post`, returns the post as
  it is after the call.
* Go's `int` is a Lean `Int`; where the source computes with it the result is
  wrapped to 64 bits (`wrapInt`).
* The MongoDB collection is the list of its documents; the errors of the driver
  calls and the store's regular expression engine are arguments.
-/

/-! ## Errors -/

/-- Go `error` values that occur in the program: the two sentinels of package
`domain`, the driver's `mongo.ErrNoDocuments`, errors made by `errors.New` or by
`fmt.Errorf` without `%w`, and errors made by `fmt.Errorf("<msg>: %w", err)`. -/
inductive Error where
  | ErrInvalidTitle
  | ErrInvalidContent
  | ErrNoDocuments
  | errorString (msg : String)
  | wrapError (msg : String) (err : Error)
  deriving DecidableEq, Repr

/-- The `Unwrap()` method: only an error built with `%w` has an inner error. -/
def Error.Unwrap : Error → Option Error
  | .wrapError _ err => some err
  | _ => none

namespace errors

/-- Go's `errors.Is(err, target)`: `target` occurs in the unwrap chain of `err`. -/
def Is : Error → Error → Bool
  | .wrapError msg err, target => decide (Error.wrapError msg err = target) || Is err target
  | e, target => decide (e = target)

end errors

namespace fmt

/-- The call `fmt.Errorf("<msg>: %w", err)` of the source. -/
def Errorf (msg : String) (err : Error) : Error := Error.wrapError msg err

end fmt

/-! ## Panics -/

/-- How a call ends: it returns a value, or it panics (a nil pointer is
dereferenced). -/
inductive Outcome (α : Type) where
  | returned (value : α)
  | panicked
  deriving DecidableEq, Repr

/-! ## Package domain -/

/-- Go's builtin `len` on a string: the number of bytes. -/
def len (s : String) : Nat := s.utf8ByteSize

abbrev Time := Nat

abbrev ObjectID := Nat

namespace domain

/-- Post represents a blog post with a title, content, and timestamps. -/
structure Post where
  ID : ObjectID
  Title : String
  Content : String
  CreatedAt : Time
  UpdatedAt : Time
  deriving DecidableEq, Repr

/-- PostList is a paginated list of posts. -/
structure PostList where
  Posts : List Post
  TotalCount : Int
  Page : Int
  PageSize : Int
  deriving DecidableEq, Repr

/-- The function `validatePostData`: validates the title and content according to
length rules. -/
def validatePostData (title content : String) : Option Error :=
  if len title < 3 ∨ len title > 200 then
    some Error.ErrInvalidTitle
  else if len content < 10 then
    some Error.ErrInvalidContent
  else
    none

/-- The function `NewPost`: `now` is the reading of `time.Now()` and `newID` the
value of `primitive.NewObjectID()`; `Except.error err` is the return `nil, err`
and `Except.ok p` the return `&Post{...}, nil`. -/
def NewPost (now : Time) (newID : ObjectID) (title content : String) : Except Error Post :=
  match validatePostData title content with
  | some err => Except.error err
  | none =>
    Except.ok
      { ID := newID
        Title := title
        Content := content
        CreatedAt := now
        UpdatedAt := now }

/-- The method `Post.Validate`. -/
def Post.Validate (p : Post) : Option Error :=
  validatePostData p.Title p.Content

/-- The method `Post.Update`: returns the post after the call and the error. -/
def Post.Update (p : Post) (now : Time) (title content : String) : Post × Option Error :=
  match validatePostData title content with
  | some err => (p, some err)
  | none => ({ p with Title := title, Content := content, UpdatedAt := now }, none)

end domain

namespace domain

/-- Repository defines the interface for post storage operations. A value of
`σ` is everything an implementation works on (the stored documents, its clock,
the health of the connection); a method that receives a `*Post` returns the post
as the implementation leaves it. -/
structure Repository (σ : Type) where
  Create : σ → Post → σ × Post × Option Error
  GetAll : σ → σ × Option (List Post) × Option Error
  GetByID : σ → String → σ × Option Post × Option Error
  Update : σ → Post → σ × Post × Option Error
  Delete : σ → String → σ × Option Error
  GetPaginated : σ → Int → Int → String → σ × Option PostList × Option Error
  GetRecent : σ → Int → σ × Option (List Post) × Option Error

/-- One call of a `Repository` method, with its arguments. -/
inductive Call where
  | Create (post : Post)
  | GetAll
  | GetByID (id : String)
  | Update (post : Post)
  | Delete (id : String)
  | GetPaginated (page pageSize : Int) (search : String)
  | GetRecent (limit : Int)
  deriving DecidableEq, Repr

/-- A repository that behaves as `r` and also appends every call it receives to
a log, the way the `MockRepository` of the tests observes its calls. -/
def Repository.recording {σ : Type} (r : Repository σ) : Repository (σ × List Call) where
  Create := fun st post =>
    let out := r.Create st.1 post
    ((out.1, st.2 ++ [Call.Create post]), out.2)
  GetAll := fun st =>
    let out := r.GetAll st.1
    ((out.1, st.2 ++ [Call.GetAll]), out.2)
  GetByID := fun st id =>
    let out := r.GetByID st.1 id
    ((out.1, st.2 ++ [Call.GetByID id]), out.2)
  Update := fun st post =>
    let out := r.Update st.1 post
    ((out.1, st.2 ++ [Call.Update post]), out.2)
  Delete := fun st id =>
    let out := r.Delete st.1 id
    ((out.1, st.2 ++ [Call.Delete id]), out.2)
  GetPaginated := fun st page pageSize search =>
    let out := r.GetPaginated st.1 page pageSize search
    ((out.1, st.2 ++ [Call.GetPaginated page pageSize search]), out.2)
  GetRecent := fun st limit =>
    let out := r.GetRecent st.1 limit
    ((out.1, st.2 ++ [Call.GetRecent limit]), out.2)

end domain

open domain

/-! ## Package post (the service) -/

namespace post

/-- The type `Service`: it holds the repository. -/
structure Service (σ : Type) where
  repo : Repository σ

/-- The function `NewService`. -/
def NewService {σ : Type} (repo : Repository σ) : Service σ := ⟨repo⟩

/-- The method `Service.Create`: `st` is the state behind the repository before
the call; the result is that state after the call and the returned pair
`(*domain.Post, error)`. -/
def Service.Create {σ : Type} (s : Service σ) (now : Time) (newID : ObjectID) (st : σ)
    (title content : String) : σ × Option Post × Option Error :=
  match NewPost now newID title content with
  | Except.error err => (st, none, some (fmt.Errorf "failed to create post" err))
  | Except.ok post =>
    match s.repo.Create st post with
    | (st1, _, some err) => (st1, none, some (fmt.Errorf "failed to save post" err))
    | (st1, post1, none) => (st1, some post1, none)

/-- The method `Service.GetAll`. -/
def Service.GetAll {σ : Type} (s : Service σ) (st : σ) :
    σ × Option (List Post) × Option Error :=
  match s.repo.GetAll st with
  | (st1, _, some err) => (st1, none, some (fmt.Errorf "failed to get posts" err))
  | (st1, posts, none) => (st1, posts, none)

/-- The method `Service.GetByID`. -/
def Service.GetByID {σ : Type} (s : Service σ) (st : σ) (id : String) :
    σ × Option Post × Option Error :=
  match s.repo.GetByID st id with
  | (st1, _, some err) => (st1, none, some (fmt.Errorf "failed to get post" err))
  | (st1, post, none) => (st1, post, none)

/-- The method `Service.Update`: `now` is the reading of `time.Now()` inside
`Post.Update`. When the repository hands back a nil post with a nil error,
`post.Update` still validates its arguments (that reads nothing of the receiver)
and then dereferences the nil receiver. -/
def Service.Update {σ : Type} (s : Service σ) (now : Time) (st : σ)
    (id title content : String) : σ × Outcome (Option Error) :=
  match s.repo.GetByID st id with
  | (st1, _, some err) =>
    (st1, Outcome.returned (some (fmt.Errorf "failed to get post for update" err)))
  | (st1, none, none) =>
    match validatePostData title content with
    | some err => (st1, Outcome.returned (some (fmt.Errorf "failed to update post" err)))
    | none => (st1, Outcome.panicked)
  | (st1, some post, none) =>
    match post.Update now title content with
    | (_, some err) => (st1, Outcome.returned (some (fmt.Errorf "failed to update post" err)))
    | (post1, none) =>
      match s.repo.Update st1 post1 with
      | (st2, _, some err) =>
        (st2, Outcome.returned (some (fmt.Errorf "failed to save updated post" err)))
      | (st2, _, none) => (st2, Outcome.returned none)

/-- The method `Service.Delete`. -/
def Service.Delete {σ : Type} (s : Service σ) (st : σ) (id : String) : σ × Option Error :=
  match s.repo.Delete st id with
  | (st1, some err) => (st1, some (fmt.Errorf "failed to delete post" err))
  | (st1, none) => (st1, none)

/-- The method `Service.GetPaginated`. -/
def Service.GetPaginated {σ : Type} (s : Service σ) (st : σ) (page pageSize : Int)
    (search : String) : σ × Option PostList × Option Error :=
  let page1 := if page < 1 then 1 else page
  let pageSize1 := if pageSize < 1 then 9 else pageSize
  match s.repo.GetPaginated st page1 pageSize1 search with
  | (st1, _, some err) => (st1, none, some (fmt.Errorf "failed to get paginated posts" err))
  | (st1, posts, none) => (st1, posts, none)

/-- The method `Service.GetRecent`. -/
def Service.GetRecent {σ : Type} (s : Service σ) (st : σ) (limit : Int) :
    σ × Option (List Post) × Option Error :=
  let limit1 := if limit < 1 then 5 else limit
  match s.repo.GetRecent st limit1 with
  | (st1, _, some err) => (st1, none, some (fmt.Errorf "failed to get recent posts" err))
  | (st1, posts, none) => (st1, posts, none)

/-- The type `MockRepository` of `mock_repository.go`: one optional function per
method (`none` is a `nil` func field). -/
structure MockRepository (σ : Type) where
  CreateFunc : Option (σ → Post → σ × Post × Option Error)
  GetAllFunc : Option (σ → σ × Option (List Post) × Option Error)
  GetByIDFunc : Option (σ → String → σ × Option Post × Option Error)
  UpdateFunc : Option (σ → Post → σ × Post × Option Error)
  DeleteFunc : Option (σ → String → σ × Option Error)
  GetPaginatedFunc : Option (σ → Int → Int → String → σ × Option PostList × Option Error)
  GetRecentFunc : Option (σ → Int → σ × Option (List Post) × Option Error)

/-- The methods of `MockRepository`: each calls its func field when it is set
and returns zero values otherwise. -/
def MockRepository.toRepository {σ : Type} (m : MockRepository σ) : Repository σ where
  Create := fun st post =>
    match m.CreateFunc with
    | some f => f st post
    | none => (st, post, none)
  GetAll := fun st =>
    match m.GetAllFunc with
    | some f => f st
    | none => (st, none, none)
  GetByID := fun st id =>
    match m.GetByIDFunc with
    | some f => f st id
    | none => (st, none, none)
  Update := fun st post =>
    match m.UpdateFunc with
    | some f => f st post
    | none => (st, post, none)
  Delete := fun st id =>
    match m.DeleteFunc with
    | some f => f st id
    | none => (st, none)
  GetPaginated := fun st page pageSize search =>
    match m.GetPaginatedFunc with
    | some f => f st page pageSize search
    | none => (st, none, none)
  GetRecent := fun st limit =>
    match m.GetRecentFunc with
    | some f => f st limit
    | none => (st, none, none)

/-- A mock whose `CreateFunc` overwrites the title of the post it is handed and
reports success; every other func field is `nil`. -/
def retitlingMock : MockRepository Unit where
  CreateFunc := some (fun st post => (st, { post with Title := "Changed" }, none))
  GetAllFunc := none
  GetByIDFunc := none
  UpdateFunc := none
  DeleteFunc := none
  GetPaginatedFunc := none
  GetRecentFunc := none

/-- A mock whose `CreateFunc` is the one of the test case "repository error". -/
def failingMock : MockRepository Unit where
  CreateFunc := some (fun st post => (st, post, some (Error.errorString "repository error")))
  GetAllFunc := none
  GetByIDFunc := none
  UpdateFunc := none
  DeleteFunc := none
  GetPaginatedFunc := none
  GetRecentFunc := none

/-- A mock with every func field `nil`. -/
def emptyMock : MockRepository Unit where
  CreateFunc := none
  GetAllFunc := none
  GetByIDFunc := none
  UpdateFunc := none
  DeleteFunc := none
  GetPaginatedFunc := none
  GetRecentFunc := none

/-- A mock set up as the test case "successful update": `GetByIDFunc` returns a
stored post, `UpdateFunc` returns nil. -/
def fetchingMock : MockRepository Unit where
  CreateFunc := none
  GetAllFunc := none
  GetByIDFunc :=
    some (fun st _ => (st, some ⟨7, "Original Title", "Original content", 1, 1⟩, none))
  UpdateFunc := some (fun st post => (st, post, none))
  DeleteFunc := none
  GetPaginatedFunc := none
  GetRecentFunc := none

/-- A mock set up as the test case "update error": `GetByIDFunc` returns a
stored post, `UpdateFunc` returns an error. -/
def updateFailingMock : MockRepository Unit where
  CreateFunc := none
  GetAllFunc := none
  GetByIDFunc :=
    some (fun st _ => (st, some ⟨7, "Original Title", "Original content", 1, 1⟩, none))
  UpdateFunc := some (fun st post => (st, post, some (Error.errorString "update error")))
  DeleteFunc := none
  GetPaginatedFunc := none
  GetRecentFunc := none

/-- A mock whose read methods echo their arguments: `GetPaginatedFunc` returns a
list carrying the page and page size it was called with, `GetRecentFunc` returns
as many empty posts as the limit it was called with. -/
def echoingMock : MockRepository Unit where
  CreateFunc := none
  GetAllFunc := none
  GetByIDFunc := none
  UpdateFunc := none
  DeleteFunc := none
  GetPaginatedFunc :=
    some (fun st page pageSize _ => (st, some ⟨[], 0, page, pageSize⟩, none))
  GetRecentFunc :=
    some (fun st limit => (st, some (List.replicate limit.toNat ⟨0, "", "", 0, 0⟩), none))

end post

/-! ## Identifiers in hexadecimal (package primitive of the driver) -/

namespace primitive

/-- The sentinel `primitive.ErrInvalidHex`. -/
def ErrInvalidHex : Error :=
  Error.errorString "the provided hex string is not a valid ObjectID"

/-- The error `encoding/hex` reports for a byte that is no hexadecimal digit. -/
def InvalidByteError : Error := Error.errorString "encoding/hex: invalid byte"

/-- The lower-case hexadecimal digit of a value below 16. -/
def hexDigit (n : Nat) : Char :=
  if n < 10 then Char.ofNat (48 + n) else Char.ofNat (87 + n)

/-- The value of a hexadecimal digit, upper or lower case. -/
def hexValue (c : Char) : Option Nat :=
  if '0' ≤ c ∧ c ≤ '9' then some (c.toNat - 48)
  else if 'a' ≤ c ∧ c ≤ 'f' then some (c.toNat - 87)
  else if 'A' ≤ c ∧ c ≤ 'F' then some (c.toNat - 55)
  else none

/-- The `width` low hexadecimal digits of `n`, most significant first. -/
def hexDigits : Nat → Nat → List Char
  | 0, _ => []
  | width + 1, n => hexDigits width (n / 16) ++ [hexDigit (n % 16)]

/-- The number a list of hexadecimal digits stands for, or `none` when a
character is no hexadecimal digit. -/
def hexDecode (cs : List Char) : Option Nat :=
  cs.foldl (fun acc c => acc.bind (fun a => (hexValue c).map (fun v => a * 16 + v))) (some 0)

/-- The method `ObjectID.Hex`: the 12 bytes as 24 lower-case hexadecimal
digits. -/
def Hex (id : ObjectID) : String := String.mk (hexDigits 24 id)

/-- The function `primitive.ObjectIDFromHex`: a string of other than 24 bytes
gives `ErrInvalidHex`, a byte that is no hexadecimal digit gives the error of
`encoding/hex`. -/
def ObjectIDFromHex (s : String) : Except Error ObjectID :=
  if len s ≠ 24 then Except.error ErrInvalidHex
  else
    match hexDecode s.toList with
    | none => Except.error InvalidByteError
    | some id => Except.ok id

/-- The method `ObjectID.IsZero`. -/
def IsZero (id : ObjectID) : Bool := id == 0

/-- Whether a character is a hexadecimal digit, upper or lower case. -/
def isHexDigit (c : Char) : Bool :=
  (decide ('0' ≤ c) && decide (c ≤ '9')) || (decide ('a' ≤ c) && decide (c ≤ 'f')) ||
    (decide ('A' ≤ c) && decide (c ≤ 'F'))

/-- An identifier in the format the store expects, as the specification words
it: 24 hexadecimal characters. -/
def wellFormedID (id : String) : Bool :=
  id.length == 24 && id.toList.all isHexDigit

end primitive

/-! ## Package postrepo (the MongoDB repository) -/

namespace postrepo

/-- The documents of the collection `posts`, in the order the store keeps them. -/
abbrev Collection := List Post

/-- The effect of a `$set` of `title`, `content` and `updated_at` on the first
document whose `_id` is `id`, with the number of documents matched. -/
def setFirst (id : ObjectID) (title content : String) (updatedAt : Time) :
    Collection → Collection × Int
  | [] => ([], 0)
  | d :: ds =>
    if d.ID = id then
      ({ d with Title := title, Content := content, UpdatedAt := updatedAt } :: ds, 1)
    else
      let rest := setFirst id title content updatedAt ds
      (d :: rest.1, rest.2)

/-- The driver call `collection.UpdateOne(ctx, {_id: id}, {$set: ...})`: when the
driver reports `fault` (store unreachable, context cancelled or expired) nothing
is written; otherwise the result carries `MatchedCount`. -/
def UpdateOne (fault : Option Error) (docs : Collection) (id : ObjectID)
    (title content : String) (updatedAt : Time) : Collection × Int × Option Error :=
  match fault with
  | some err => (docs, 0, some err)
  | none =>
    let out := setFirst id title content updatedAt docs
    (out.1, out.2, none)

/-- The method `MongoRepository.Update`: returns the collection and the post `p`
after the call, and the error. -/
def MongoRepository.Update (now : Time) (fault : Option Error) (docs : Collection) (p : Post) :
    Collection × Post × Option Error :=
  match p.Validate with
  | some err => (docs, p, some (fmt.Errorf "invalid post" err))
  | none =>
    let p1 := { p with UpdatedAt := now }
    match UpdateOne fault docs p1.ID p1.Title p1.Content p1.UpdatedAt with
    | (docs1, _, some err) => (docs1, p1, some (fmt.Errorf "failed to update post" err))
    | (docs1, matchedCount, none) =>
      if matchedCount = 0 then
        (docs1, p1, some (Error.errorString "post not found"))
      else
        (docs1, p1, none)

/-! ### Reading from the collection -/

/-- Go's `int` on a 64-bit platform: an arithmetic result is its mathematical
value wrapped into the range from `-2^63` to `2^63 - 1`. -/
def wrapInt (x : Int) : Int := (x + 2 ^ 63) % 2 ^ 64 - 2 ^ 63

/-- The regular expression engine of the store with option `i`: for a pattern
it gives the test the pattern stands for, or `none` when the store rejects the
pattern. -/
abbrev RegexEngine := String → Option (String → Bool)

/-- The filter documents the repository builds: `bson.M{}`, and the `$or` of a
`$regex` with `$options: "i"` on `title` and one on `content`. -/
inductive Filter where
  | all
  | titleOrContent (pattern : String)
  deriving DecidableEq, Repr

/-- The posts a filter keeps, or `none` when the store rejects its pattern. -/
def Filter.compile (engine : RegexEngine) : Filter → Option (Post → Bool)
  | Filter.all => some (fun _ => true)
  | Filter.titleOrContent pattern =>
    match engine pattern with
    | none => none
    | some test => some (fun p => test p.Title || test p.Content)

/-- The options of a `Find`: `SetSkip`, `SetLimit` and `SetSort` with
`created_at: -1`; an option that was not set is `none` or `false`. -/
structure FindOptions where
  Skip : Option Int
  Limit : Option Int
  SortCreatedAtDesc : Bool
  deriving DecidableEq, Repr

/-- The order the store gives documents under `{created_at: -1}`: newest first,
documents of equal `created_at` in the order the collection keeps them. -/
def sortCreatedAtDesc (docs : Collection) : Collection :=
  docs.insertionSort (fun a b => b.CreatedAt ≤ a.CreatedAt)

/-- The effect of a limit on a result: `0` is no limit, any other value keeps
that many documents (a negative value counts by its magnitude). -/
def applyLimit (limit : Int) (docs : Collection) : Collection :=
  if limit = 0 then docs else docs.take limit.natAbs

/-- The errors of the driver calls a read goes through (`none` when the call
goes through): store unreachable, context cancelled or expired, a document that
does not decode. -/
structure Faults where
  CountDocuments : Option Error
  Find : Option Error
  All : Option Error
  deriving DecidableEq, Repr

/-- Every driver call goes through. -/
def Faults.healthy : Faults := ⟨none, none, none⟩

/-- The driver call `collection.CountDocuments(ctx, filter)`. -/
def CountDocuments (fault : Option Error) (engine : RegexEngine) (docs : Collection)
    (filter : Filter) : Except Error Int :=
  match fault with
  | some err => Except.error err
  | none =>
    match filter.compile engine with
    | none => Except.error (Error.errorString "Regular expression is invalid")
    | some keep => Except.ok ((docs.filter keep).length : Int)

/-- The driver call `collection.Find(ctx, filter, findOptions)`: the documents
the cursor will yield. The store rejects a negative skip. -/
def Find (fault : Option Error) (engine : RegexEngine) (docs : Collection)
    (filter : Filter) (opts : FindOptions) : Except Error Collection :=
  match fault with
  | some err => Except.error err
  | none =>
    match filter.compile engine with
    | none => Except.error (Error.errorString "Regular expression is invalid")
    | some keep =>
      if opts.Skip.getD 0 < 0 then
        Except.error (Error.errorString "Skip value must be non-negative")
      else
        let matching := docs.filter keep
        let ordered := if opts.SortCreatedAtDesc then sortCreatedAtDesc matching else matching
        Except.ok (applyLimit (opts.Limit.getD 0) (ordered.drop (opts.Skip.getD 0).toNat))

/-- The driver call `cursor.All(ctx, &posts)`. -/
def All (fault : Option Error) (cursor : Collection) : Except Error (List Post) :=
  match fault with
  | some err => Except.error err
  | none => Except.ok cursor

/-- The method `MongoRepository.GetAll`. -/
def MongoRepository.GetAll (faults : Faults) (engine : RegexEngine) (docs : Collection) :
    Option (List Post) × Option Error :=
  match Find faults.Find engine docs Filter.all ⟨none, none, false⟩ with
  | Except.error err => (none, some (fmt.Errorf "failed to find posts" err))
  | Except.ok cursor =>
    match All faults.All cursor with
    | Except.error err => (none, some (fmt.Errorf "failed to decode posts" err))
    | Except.ok posts => (some posts, none)

/-- The method `MongoRepository.GetPaginated`. -/
def MongoRepository.GetPaginated (faults : Faults) (engine : RegexEngine) (docs : Collection)
    (page pageSize : Int) (search : String) : Option PostList × Option Error :=
  let page1 := if page < 1 then 1 else page
  let pageSize1 := if pageSize < 1 then 9 else pageSize
  let skip := wrapInt ((page1 - 1) * pageSize1)
  let filter := if search ≠ "" then Filter.titleOrContent search else Filter.all
  match CountDocuments faults.CountDocuments engine docs filter with
  | Except.error err => (none, some (fmt.Errorf "failed to count documents" err))
  | Except.ok total =>
    match Find faults.Find engine docs filter ⟨some skip, some pageSize1, true⟩ with
    | Except.error err => (none, some (fmt.Errorf "failed to find posts" err))
    | Except.ok cursor =>
      match All faults.All cursor with
      | Except.error err => (none, some (fmt.Errorf "failed to decode posts" err))
      | Except.ok posts => (some ⟨posts, total, page1, pageSize1⟩, none)

/-- The method `MongoRepository.GetRecent`. -/
def MongoRepository.GetRecent (faults : Faults) (engine : RegexEngine) (docs : Collection)
    (limit : Int) : Option (List Post) × Option Error :=
  let limit1 := if limit < 1 then 5 else limit
  match Find faults.Find engine docs Filter.all ⟨none, some limit1, true⟩ with
  | Except.error err => (none, some (fmt.Errorf "failed to find recent posts" err))
  | Except.ok cursor =>
    match All faults.All cursor with
    | Except.error err => (none, some (fmt.Errorf "failed to decode recent posts" err))
    | Except.ok posts => (some posts, none)

/-! ### Creating, fetching and deleting one document -/

/-- The driver call `collection.InsertOne(ctx, p)`. The `_id` field is
`omitempty`: a post with the zero identifier is stored under the identifier
`generated` that the driver makes up. A document with the same `_id` makes the
store refuse the insert. On success the result carries `InsertedID`. -/
def InsertOne (fault : Option Error) (generated : ObjectID) (docs : Collection) (p : Post) :
    Except Error (Collection × ObjectID) :=
  match fault with
  | some err => Except.error err
  | none =>
    let id := if primitive.IsZero p.ID then generated else p.ID
    if docs.any (fun d => d.ID == id) then
      Except.error (Error.errorString "E11000 duplicate key error")
    else
      Except.ok (docs ++ [{ p with ID := id }], id)

/-- The driver call `collection.FindOne(ctx, {_id: id}).Decode(&p)`. -/
def FindOne (fault : Option Error) (docs : Collection) (id : ObjectID) : Except Error Post :=
  match fault with
  | some err => Except.error err
  | none =>
    match docs.find? (fun d => d.ID == id) with
    | none => Except.error Error.ErrNoDocuments
    | some d => Except.ok d

/-- The effect of deleting the first document whose `_id` is `id`, with the
number of documents deleted. -/
def deleteFirst (id : ObjectID) : Collection → Collection × Int
  | [] => ([], 0)
  | d :: ds =>
    if d.ID = id then (ds, 1)
    else
      let rest := deleteFirst id ds
      (d :: rest.1, rest.2)

/-- The driver call `collection.DeleteOne(ctx, {_id: id})`: the collection after
the call and `DeletedCount`. -/
def DeleteOne (fault : Option Error) (docs : Collection) (id : ObjectID) :
    Except Error (Collection × Int) :=
  match fault with
  | some err => Except.error err
  | none => Except.ok (deleteFirst id docs)

/-- The method `MongoRepository.Create`: returns the collection and the post
after the call, and the error. The `InsertedID` of this collection is always an
`ObjectID`, so the type assertion of the source holds. -/
def MongoRepository.Create (fault : Option Error) (generated : ObjectID) (docs : Collection)
    (p : Post) : Collection × Post × Option Error :=
  match p.Validate with
  | some err => (docs, p, some (fmt.Errorf "invalid post" err))
  | none =>
    match InsertOne fault generated docs p with
    | Except.error err => (docs, p, some (fmt.Errorf "failed to insert post" err))
    | Except.ok (docs1, objID) => (docs1, { p with ID := objID }, none)

/-- The method `MongoRepository.GetByID`. -/
def MongoRepository.GetByID (fault : Option Error) (docs : Collection) (id : String) :
    Option Post × Option Error :=
  match primitive.ObjectIDFromHex id with
  | Except.error err => (none, some (fmt.Errorf "invalid id format" err))
  | Except.ok objID =>
    match FindOne fault docs objID with
    | Except.error err =>
      if err = Error.ErrNoDocuments then (none, some (Error.errorString "post not found"))
      else (none, some (fmt.Errorf "failed to find post" err))
    | Except.ok p => (some p, none)

/-- The method `MongoRepository.Delete`: returns the collection after the call
and the error. -/
def MongoRepository.Delete (fault : Option Error) (docs : Collection) (id : String) :
    Collection × Option Error :=
  match primitive.ObjectIDFromHex id with
  | Except.error err => (docs, some (fmt.Errorf "invalid id format" err))
  | Except.ok objID =>
    match DeleteOne fault docs objID with
    | Except.error err => (docs, some (fmt.Errorf "failed to delete post" err))
    | Except.ok (docs1, deletedCount) =>
      if deletedCount = 0 then (docs1, some (Error.errorString "post not found"))
      else (docs1, none)

/-! ### The repository behind the interface -/

/-- What the repository finds outside the collection during one call: the
reading of its clock, the identifier the driver would generate, the store's
regular expression engine, and the error of each driver call (`none` when the
call goes through). -/
structure Driver where
  now : Time
  generated : ObjectID
  engine : RegexEngine
  InsertOne : Option Error
  FindOne : Option Error
  UpdateOne : Option Error
  DeleteOne : Option Error
  reads : Faults

/-- The error `context.DeadlineExceeded`. -/
def DeadlineExceeded : Error := Error.errorString "context deadline exceeded"

/-- An error of the timeout kind: `context.DeadlineExceeded` is in its unwrap
chain. -/
def timedOut (e : Option Error) : Prop :=
  ∃ r, e = some r ∧ errors.Is r DeadlineExceeded = true

/-- A driver whose every call goes through. -/
def Driver.healthy (now : Time) (generated : ObjectID) (engine : RegexEngine) : Driver :=
  ⟨now, generated, engine, none, none, none, none, Faults.healthy⟩

/-- The driver under a context whose deadline has already expired: every call
returns `context.DeadlineExceeded` and reaches nothing in the store. -/
def Driver.expired (now : Time) (generated : ObjectID) (engine : RegexEngine) : Driver :=
  ⟨now, generated, engine, some DeadlineExceeded, some DeadlineExceeded,
    some DeadlineExceeded, some DeadlineExceeded,
    ⟨some DeadlineExceeded, some DeadlineExceeded, some DeadlineExceeded⟩⟩

/-- The type `MongoRepository` as an implementation of `domain.Repository`; the
state is the collection. -/
def MongoRepository.toRepository (d : Driver) : Repository Collection where
  Create := fun docs p => MongoRepository.Create d.InsertOne d.generated docs p
  GetAll := fun docs => (docs, MongoRepository.GetAll d.reads d.engine docs)
  GetByID := fun docs id => (docs, MongoRepository.GetByID d.FindOne docs id)
  Update := fun docs p => MongoRepository.Update d.now d.UpdateOne docs p
  Delete := fun docs id => MongoRepository.Delete d.DeleteOne docs id
  GetPaginated := fun docs page pageSize search =>
    (docs, MongoRepository.GetPaginated d.reads d.engine docs page pageSize search)
  GetRecent := fun docs limit => (docs, MongoRepository.GetRecent d.reads d.engine docs limit)

/-- The MongoDB repository called with a context whose deadline has expired. -/
def expiredRepository (now : Time) (generated : ObjectID) (engine : RegexEngine) :
    Repository Collection :=
  MongoRepository.toRepository (Driver.expired now generated engine)

/-- The service over the MongoDB repository, called with a context whose
deadline has expired. -/
def expiredService (now : Time) (generated : ObjectID) (engine : RegexEngine) :
    post.Service Collection :=
  post.NewService (expiredRepository now generated engine)

/-! ### The normalised arguments as the specification words them -/

/-- The page after normalisation: `page` when `page ≥ 1`, otherwise 1. -/
def normalPage (page : Int) : Int := if page ≥ 1 then page else 1

/-- The page size after normalisation: `pageSize` when `pageSize ≥ 1`,
otherwise 9. -/
def normalPageSize (pageSize : Int) : Int := if pageSize ≥ 1 then pageSize else 9

/-- The filter of a search: every post for the empty search, otherwise the
pattern on title or content. -/
def searchFilter (search : String) : Filter :=
  if search ≠ "" then Filter.titleOrContent search else Filter.all

/-- The window of a page: the posts the filter keeps, newest first, without the
first `skip` and cut to at most `size`. -/
def pageWindow (keep : Post → Bool) (docs : Collection) (skip size : Int) : List Post :=
  ((sortCreatedAtDesc (docs.filter keep)).drop skip.toNat).take size.toNat

/-- A store of fifteen posts created at fifteen successive clock readings, as
the pagination test sets up. -/
def fifteenPosts : Collection :=
  (List.range 15).map (fun i => ⟨i + 1, "Test Title", "Test content", i, i⟩)

/-- The skip offset `GetPaginated` hands to `Find`: `(page - 1) * pageSize` on
the normalised values, computed in Go `int` arithmetic. -/
def skipOffset (page pageSize : Int) : Int :=
  wrapInt (((if page < 1 then 1 else page) - 1) * (if pageSize < 1 then 9 else pageSize))

/-! ### A fragment of the store's regular expressions -/

/-- What one pattern position accepts: a literal character compared without
regard to ASCII case, or, for `.`, any character but a line feed. -/
inductive Atom where
  | lit (c : Char)
  | any
  deriving DecidableEq, Repr

/-- Whether an atom accepts a character of the subject. -/
def Atom.accepts : Atom → Char → Bool
  | Atom.lit c, t => c.toLower == t.toLower
  | Atom.any, t => t != '\n'

/-- The tokens of a pattern: an atom or the repetition sign `*`. -/
inductive Token where
  | atom (a : Atom)
  | star
  deriving DecidableEq, Repr

/-- An atom, repeated zero or more times when `star` is set. -/
structure Piece where
  atom : Atom
  star : Bool
  deriving DecidableEq, Repr

/-- The characters with a meaning of their own in a pattern. -/
def metacharacters : List Char :=
  ['.', '*', '+', '?', '(', ')', '[', ']', '{', '}', '|', '^', '$', '\\']

/-- Read a pattern into tokens. The fragment has literal characters, `.`, `*`
and a backslash before a character that is neither letter nor digit; any other
use of a metacharacter gives `none`. -/
def tokens : List Char → Option (List Token)
  | [] => some []
  | c :: rest =>
    if c = '\\' then
      match rest with
      | [] => none
      | d :: rest1 =>
        if d.isAlphanum then none
        else (tokens rest1).map (fun ts => Token.atom (Atom.lit d) :: ts)
    else if c = '.' then
      (tokens rest).map (fun ts => Token.atom Atom.any :: ts)
    else if c = '*' then
      (tokens rest).map (fun ts => Token.star :: ts)
    else if c ∈ metacharacters then none
    else (tokens rest).map (fun ts => Token.atom (Atom.lit c) :: ts)

/-- Group tokens into pieces; a `*` with no atom before it gives `none`. -/
def pieces : List Token → Option (List Piece)
  | [] => some []
  | Token.star :: _ => none
  | Token.atom a :: Token.star :: rest => (pieces rest).map (fun ps => ⟨a, true⟩ :: ps)
  | Token.atom a :: rest => (pieces rest).map (fun ps => ⟨a, false⟩ :: ps)

/-- Whether the subject, after zero or more characters accepted by `a`, goes on
as `next` requires. -/
def matchStar (a : Atom) (next : List Char → Bool) : List Char → Bool
  | [] => next []
  | t :: ts => next (t :: ts) || (a.accepts t && matchStar a next ts)

/-- Whether the pieces match at the start of the subject. -/
def matchHere : List Piece → List Char → Bool
  | [] => fun _ => true
  | ⟨a, false⟩ :: ps => fun subject =>
    match subject with
    | [] => false
    | t :: ts => a.accepts t && matchHere ps ts
  | ⟨a, true⟩ :: ps => matchStar a (matchHere ps)

/-- Whether the pieces match somewhere in the subject. -/
def matchAnywhere (ps : List Piece) : List Char → Bool
  | [] => matchHere ps []
  | t :: ts => matchHere ps (t :: ts) || matchAnywhere ps ts

/-- The engine on the fragment read by `tokens` and `pieces`; it stands for the
store on the patterns of that fragment only, every other pattern is rejected. -/
def fragmentEngine : RegexEngine := fun pattern =>
  match (tokens pattern.toList).bind pieces with
  | none => none
  | some ps => some (fun subject => matchAnywhere ps subject.toList)

/-! ### Substring search as the specification words it -/

/-- Whether `s` is a prefix of the text, letters compared without regard to
ASCII case. -/
def hasPrefixFold : List Char → List Char → Bool
  | [], _ => true
  | _ :: _, [] => false
  | c :: cs, t :: ts => c.toLower == t.toLower && hasPrefixFold cs ts

/-- Whether `s` occurs somewhere in the text, without regard to ASCII case. -/
def containsFoldList (s : List Char) : List Char → Bool
  | [] => hasPrefixFold s []
  | t :: ts => hasPrefixFold s (t :: ts) || containsFoldList s ts

/-- Whether the text contains `s` as a case-insensitive substring. -/
def containsFold (s text : String) : Bool :=
  containsFoldList s.toList text.toList

end postrepo

/-! ## Package post of the handlers -/

/-- The `Error()` method: the message of an error. -/
def Error.text : Error → String
  | Error.ErrInvalidTitle => "title must be between 3 and 200 characters"
  | Error.ErrInvalidContent => "content must be at least 10 characters"
  | Error.ErrNoDocuments => "mongo: no documents in result"
  | Error.errorString msg => msg
  | Error.wrapError msg err => msg ++ ": " ++ err.text

namespace strconv

/-- The function `strconv.Atoi`: an optional sign and decimal digits, within the
range of a 64-bit `int`; `none` is a non-nil error. -/
def Atoi (s : String) : Option Int :=
  let cs := s.toList
  let negative := cs.head? = some '-'
  let digits := if cs.head? = some '-' ∨ cs.head? = some '+' then cs.tail else cs
  if digits = [] ∨ ¬ digits.all Char.isDigit then none
  else
    let n : Int := digits.foldl (fun acc d => acc * 10 + ((d.toNat - 48 : Nat) : Int)) 0
    let v := if negative then -n else n
    if v < -(2 ^ 63) ∨ 2 ^ 63 ≤ v then none else some v

end strconv

namespace posthandler

/-- The interface `PostService`; a value of `σ` is the state behind the service.
`Update` may end in a panic, as `Service.Update` can. -/
structure PostService (σ : Type) where
  Create : σ → String → String → σ × Option Post × Option Error
  GetAll : σ → σ × Option (List Post) × Option Error
  GetByID : σ → String → σ × Option Post × Option Error
  Update : σ → String → String → String → σ × Outcome (Option Error)
  Delete : σ → String → σ × Option Error
  GetPaginated : σ → Int → Int → String → σ × Option PostList × Option Error
  GetRecent : σ → Int → σ × Option (List Post) × Option Error

/-- The type `*Service` as an implementation of `PostService`: `now` and `newID`
are the readings of `time.Now()` and `primitive.NewObjectID()` inside the
entity. -/
def ofService {σ : Type} (s : post.Service σ) (now : Time) (newID : ObjectID) :
    PostService σ where
  Create := fun st title content => s.Create now newID st title content
  GetAll := fun st => s.GetAll st
  GetByID := fun st id => s.GetByID st id
  Update := fun st id title content => s.Update now st id title content
  Delete := fun st id => s.Delete st id
  GetPaginated := fun st page pageSize search => s.GetPaginated st page pageSize search
  GetRecent := fun st limit => s.GetRecent st limit

/-- One call of a `PostService` method, with its arguments. -/
inductive ServiceCall where
  | Create (title content : String)
  | GetAll
  | GetByID (id : String)
  | Update (id title content : String)
  | Delete (id : String)
  | GetPaginated (page pageSize : Int) (search : String)
  | GetRecent (limit : Int)
  deriving DecidableEq, Repr

/-- A service that behaves as `svc` and also appends every call it receives to
a log, the way the `MockService` of the tests observes its calls. -/
def PostService.recording {σ : Type} (svc : PostService σ) :
    PostService (σ × List ServiceCall) where
  Create := fun st title content =>
    let out := svc.Create st.1 title content
    ((out.1, st.2 ++ [ServiceCall.Create title content]), out.2)
  GetAll := fun st =>
    let out := svc.GetAll st.1
    ((out.1, st.2 ++ [ServiceCall.GetAll]), out.2)
  GetByID := fun st id =>
    let out := svc.GetByID st.1 id
    ((out.1, st.2 ++ [ServiceCall.GetByID id]), out.2)
  Update := fun st id title content =>
    let out := svc.Update st.1 id title content
    ((out.1, st.2 ++ [ServiceCall.Update id title content]), out.2)
  Delete := fun st id =>
    let out := svc.Delete st.1 id
    ((out.1, st.2 ++ [ServiceCall.Delete id]), out.2)
  GetPaginated := fun st page pageSize search =>
    let out := svc.GetPaginated st.1 page pageSize search
    ((out.1, st.2 ++ [ServiceCall.GetPaginated page pageSize search]), out.2)
  GetRecent := fun st limit =>
    let out := svc.GetRecent st.1 limit
    ((out.1, st.2 ++ [ServiceCall.GetRecent limit]), out.2)

/-- The type `MockService` of `mock_service.go`: one optional function per
method (`none` is a `nil` func field). -/
structure MockService (σ : Type) where
  CreateFunc : Option (σ → String → String → σ × Option Post × Option Error)
  GetAllFunc : Option (σ → σ × Option (List Post) × Option Error)
  GetByIDFunc : Option (σ → String → σ × Option Post × Option Error)
  UpdateFunc : Option (σ → String → String → String → σ × Outcome (Option Error))
  DeleteFunc : Option (σ → String → σ × Option Error)
  GetPaginatedFunc : Option (σ → Int → Int → String → σ × Option PostList × Option Error)
  GetRecentFunc : Option (σ → Int → σ × Option (List Post) × Option Error)

/-- The methods of `MockService`: each calls its func field when it is set and
returns zero values otherwise. -/
def MockService.toPostService {σ : Type} (m : MockService σ) : PostService σ where
  Create := fun st title content =>
    match m.CreateFunc with
    | some f => f st title content
    | none => (st, none, none)
  GetAll := fun st =>
    match m.GetAllFunc with
    | some f => f st
    | none => (st, none, none)
  GetByID := fun st id =>
    match m.GetByIDFunc with
    | some f => f st id
    | none => (st, none, none)
  Update := fun st id title content =>
    match m.UpdateFunc with
    | some f => f st id title content
    | none => (st, Outcome.returned none)
  Delete := fun st id =>
    match m.DeleteFunc with
    | some f => f st id
    | none => (st, none)
  GetPaginated := fun st page pageSize search =>
    match m.GetPaginatedFunc with
    | some f => f st page pageSize search
    | none => (st, none, none)
  GetRecent := fun st limit =>
    match m.GetRecentFunc with
    | some f => f st limit
    | none => (st, none, none)

/-- What a handler reads of a request: `r.URL.Query().Get`, `r.Header.Get`,
`chi.URLParam`, the error of `r.ParseForm()` and `r.FormValue`. -/
structure Request where
  Query : String → String
  Header : String → String
  URLParam : String → String
  ParseForm : Option Error
  FormValue : String → String

/-- What a handler writes: the status, the headers in the order they were set,
and the body. -/
structure Response where
  Status : Nat
  Header : List (String × String)
  Body : String
  deriving DecidableEq, Repr

/-- The value `w.Header().Get(key)` of a response, empty when the header was
not set. -/
def Response.Get (w : Response) (key : String) : String :=
  match w.Header.find? (fun kv => kv.1 == key) with
  | some kv => kv.2
  | none => ""

def ErrInvalidFormData : String := "Invalid form data"

def ErrEmptyFields : String := "Title and content are required"

def ErrFailedToLoadPosts : String := "Failed to load posts"

def HXErrorHeader : String := "HX-Error-Message"

def HXTriggerHeader : String := "HX-Trigger"

def TriggerPostCreated : String := "postCreated"

def TriggerPostUpdated : String := "postUpdated"

/-- The helper `handleError`: it sets the `HX-Error-Message` header and calls
`http.Error`, which sets two headers of its own, the status and the body. -/
def handleError (message : String) (status : Nat) : Response :=
  ⟨status,
    [(HXErrorHeader, message), ("Content-Type", "text/plain; charset=utf-8"),
      ("X-Content-Type-Options", "nosniff")],
    message ++ "\n"⟩

/-- The helper `handleHTMXSuccess`: the `HX-Trigger` header and status 204. -/
def handleHTMXSuccess (trigger : String) : Response :=
  ⟨204, [(HXTriggerHeader, trigger)], ""⟩

/-- The page `Index` asks for: the `page` query value when `strconv.Atoi` reads
it as a positive number, otherwise 1. -/
def queryPage (r : Request) : Int :=
  if r.Query "page" ≠ "" then
    match strconv.Atoi (r.Query "page") with
    | some p => if p > 0 then p else 1
    | none => 1
  else 1

/-- The page size `Index` asks for: the `page_size` query value when
`strconv.Atoi` reads it as a positive number, otherwise 9. -/
def queryPageSize (r : Request) : Int :=
  if r.Query "page_size" ≠ "" then
    match strconv.Atoi (r.Query "page_size") with
    | some s => if s > 0 then s else 9
    | none => 9
  else 9

/-- The data `Index` hands to the template. -/
structure IndexData where
  Posts : List Post
  TotalCount : Int
  Page : Int
  PageSize : Int
  TotalPages : Int
  Search : String
  RecentPosts : Option (List Post)
  deriving DecidableEq, Repr

/-- How `Index` goes on after its service calls: it answers with an error, or
it executes the named template on the data. -/
inductive IndexResult where
  | failed (w : Response)
  | executed (template : String) (data : IndexData)
  deriving DecidableEq, Repr

/-- The method `Handler.Index` up to the call of `ExecuteTemplate`. An integer
division by zero and the use of a nil `response` panic. -/
def Handler.Index {σ : Type} (service : PostService σ) (st : σ) (r : Request) :
    σ × Outcome IndexResult :=
  let page := queryPage r
  let pageSize := queryPageSize r
  let search := r.Query "search"
  match service.GetPaginated st page pageSize search with
  | (st1, _, some _) =>
    (st1, Outcome.returned (IndexResult.failed (handleError ErrFailedToLoadPosts 500)))
  | (st1, response, none) =>
    match service.GetRecent st1 5 with
    | (st2, recentPosts, _) =>
      match response with
      | none => (st2, Outcome.panicked)
      | some response =>
        if pageSize = 0 then (st2, Outcome.panicked)
        else
          let totalPages := Int.tdiv response.TotalCount pageSize
          let totalPages1 :=
            if Int.tmod response.TotalCount pageSize > 0 then postrepo.wrapInt (totalPages + 1)
            else totalPages
          let data : IndexData :=
            ⟨response.Posts, response.TotalCount, response.Page, response.PageSize,
              totalPages1, search, recentPosts⟩
          if r.Header "HX-Request" = "true" then
            (st2, Outcome.returned (IndexResult.executed "post/posts-list" data))
          else
            (st2, Outcome.returned (IndexResult.executed "index" data))

/-- The method `Handler.Create`. -/
def Handler.Create {σ : Type} (service : PostService σ) (st : σ) (r : Request) :
    σ × Response :=
  match r.ParseForm with
  | some _ => (st, handleError ErrInvalidFormData 400)
  | none =>
    let title := r.FormValue "title"
    let content := r.FormValue "content"
    if title = "" ∨ content = "" then (st, handleError ErrEmptyFields 400)
    else
      match service.Create st title content with
      | (st1, _, some err) => (st1, handleError err.text 400)
      | (st1, _, none) => (st1, handleHTMXSuccess TriggerPostCreated)

/-- The method `Handler.Update`; it panics when the service does. -/
def Handler.Update {σ : Type} (service : PostService σ) (st : σ) (r : Request) :
    σ × Outcome Response :=
  let id := r.URLParam "id"
  match r.ParseForm with
  | some _ => (st, Outcome.returned (handleError ErrInvalidFormData 400))
  | none =>
    let title := r.FormValue "title"
    let content := r.FormValue "content"
    if title = "" ∨ content = "" then (st, Outcome.returned (handleError ErrEmptyFields 400))
    else
      match service.Update st id title content with
      | (st1, Outcome.panicked) => (st1, Outcome.panicked)
      | (st1, Outcome.returned (some err)) =>
        (st1, Outcome.returned (handleError err.text 400))
      | (st1, Outcome.returned none) =>
        (st1, Outcome.returned (handleHTMXSuccess TriggerPostUpdated))

/-- A request with the given query string values and nothing else. -/
def getRequest (page pageSize search : String) : Request where
  Query := fun key =>
    if key = "page" then page
    else if key = "page_size" then pageSize
    else if key = "search" then search
    else ""
  Header := fun _ => ""
  URLParam := fun _ => ""
  ParseForm := none
  FormValue := fun _ => ""

/-- A request for the post `id` whose form parsed to the given title and
content. -/
def formRequest (id title content : String) : Request where
  Query := fun _ => ""
  Header := fun _ => ""
  URLParam := fun key => if key = "id" then id else ""
  ParseForm := none
  FormValue := fun key =>
    if key = "title" then title
    else if key = "content" then content
    else ""

/-- The mock of the test "successful get paginated": whatever it is asked, it
returns one post, `TotalCount` 10 and `PageSize` 10. -/
def tenPerPageMock : MockService Unit where
  CreateFunc := none
  GetAllFunc := none
  GetByIDFunc := none
  UpdateFunc := none
  DeleteFunc := none
  GetPaginatedFunc :=
    some (fun st _ _ _ => (st, some ⟨[⟨1, "Test Post", "Test content", 0, 0⟩], 10, 1, 10⟩, none))
  GetRecentFunc := none

/-- A mock whose `CreateFunc` and `UpdateFunc` fail with "service error". -/
def failingService : MockService Unit where
  CreateFunc := some (fun st _ _ => (st, none, some (Error.errorString "service error")))
  GetAllFunc := none
  GetByIDFunc := none
  UpdateFunc :=
    some (fun st _ _ _ => (st, Outcome.returned (some (Error.errorString "service error"))))
  DeleteFunc := none
  GetPaginatedFunc := none
  GetRecentFunc := none

/-- A mock with every func field `nil`. -/
def emptyService : MockService Unit where
  CreateFunc := none
  GetAllFunc := none
  GetByIDFunc := none
  UpdateFunc := none
  DeleteFunc := none
  GetPaginatedFunc := none
  GetRecentFunc := none

/-- The service of the running server, `Service` over the MongoDB repository,
with a healthy driver, clock reading 20 and next identifier 99. -/
def healthyStack : PostService postrepo.Collection :=
  ofService (post.NewService (postrepo.MongoRepository.toRepository
    (postrepo.Driver.healthy 20 99 postrepo.fragmentEngine))) 20 99

/-- The data of page 2 at page size 10 over the store of fifteen posts. -/
def secondPageData : IndexData :=
  ⟨postrepo.pageWindow (fun _ => true) postrepo.fifteenPosts 10 10, 15, 2, 10, 2, "",
    some (postrepo.pageWindow (fun _ => true) postrepo.fifteenPosts 0 5)⟩

end posthandler

/-! ## Observing the calls a service makes -/

/-- Whether a logged call is `Repository.Update`. -/
def domain.Call.isUpdate : Call → Bool
  | Call.Update _ => true
  | _ => false

/-- Whether a logged call writes to the store: `Create`, `Update` or `Delete`. -/
def domain.Call.isWrite : Call → Bool
  | Call.Create _ => true
  | Call.Update _ => true
  | Call.Delete _ => true
  | _ => false

/-- A lower-layer error is kept by the layer above: when the lower layer returned
`e`, the result is an error with `e` in its unwrap chain, and the result is nil
only when the lower layer returned nil. -/
def keepsKind (lower result : Option Error) : Prop :=
  (∀ e, lower = some e → ∃ r, result = some r ∧ errors.Is r e = true) ∧
  (result = none → lower = none)

/-! ## Histories of one post -/

/-- A step that may stamp `UpdatedAt` of a post held in memory: a call of
`Post.Update` or a call of `MongoRepository.Update`, each with the reading its
`time.Now()` would give. -/
inductive Stamp where
  | entityUpdate (now : Time) (title content : String)
  | repositoryUpdate (now : Time) (fault : Option Error)
  deriving DecidableEq, Repr

/-- The clock reading of a step. -/
def Stamp.now : Stamp → Time
  | Stamp.entityUpdate now _ _ => now
  | Stamp.repositoryUpdate now _ => now

/-- Run one step on the collection and the post. -/
def applyStamp (st : postrepo.Collection × Post) : Stamp → postrepo.Collection × Post
  | Stamp.entityUpdate now title content => (st.1, (st.2.Update now title content).1)
  | Stamp.repositoryUpdate now fault =>
    let out := postrepo.MongoRepository.Update now fault st.1 st.2
    (out.1, out.2.1)

/-- Run the steps in order. -/
def applyStamps (st : postrepo.Collection × Post) (ops : List Stamp) :
    postrepo.Collection × Post :=
  ops.foldl applyStamp st


/-! ## Properties of the post entity -/

theorem len_ge_length (s : String) : s.length ≤ len s := by
  obtain ⟨cs⟩ := s
  show cs.length ≤ String.utf8ByteSize.go cs
  induction cs with
  | nil => simp [String.utf8ByteSize.go]
  | cons c cs ih =>
    have hc := Char.utf8Size_pos c
    simp only [String.utf8ByteSize.go, List.length_cons]
    omega

theorem len_le_four_mul_length (s : String) : len s ≤ 4 * s.length := by
  obtain ⟨cs⟩ := s
  show String.utf8ByteSize.go cs ≤ 4 * cs.length
  induction cs with
  | nil => simp [String.utf8ByteSize.go]
  | cons c cs ih =>
    have hc := Char.utf8Size_le_four c
    simp only [String.utf8ByteSize.go, List.length_cons]
    omega

theorem validatePostData_invalid_title (title content : String)
    (h : len title < 3 ∨ len title > 200) :
    validatePostData title content = some Error.ErrInvalidTitle := by
  simp [validatePostData, h]

theorem validatePostData_long_title_characters (title content : String)
    (h : 200 < title.length) :
    validatePostData title content = some Error.ErrInvalidTitle :=
  validatePostData_invalid_title title content
    (Or.inr (lt_of_lt_of_le h (len_ge_length title)))

theorem validatePostData_invalid_content (title content : String)
    (ht : 3 ≤ len title ∧ len title ≤ 200) (hc : len content < 10) :
    validatePostData title content = some Error.ErrInvalidContent := by
  have h1 : ¬ (len title < 3 ∨ len title > 200) := by omega
  simp [validatePostData, h1, hc]

theorem validatePostData_valid (title content : String)
    (ht : 3 ≤ len title ∧ len title ≤ 200) (hc : 10 ≤ len content) :
    validatePostData title content = none := by
  have h1 : ¬ (len title < 3 ∨ len title > 200) := by omega
  have h2 : ¬ len content < 10 := by omega
  simp [validatePostData, h1, h2]

theorem validatePostData_ascii_lengths_valid (title content : String)
    (ht : len title = title.length) (hc : 10 ≤ content.length)
    (h3 : 3 ≤ title.length) (h200 : title.length ≤ 200) :
    validatePostData title content = none :=
  validatePostData_valid title content ⟨by rw [ht]; exact h3, by rw [ht]; exact h200⟩
    (le_trans hc (len_ge_length content))

theorem validatePostData_eq_none_iff (title content : String) :
    validatePostData title content = none ↔
      (3 ≤ len title ∧ len title ≤ 200) ∧ 10 ≤ len content := by
  unfold validatePostData
  split_ifs with h1 h2 <;> simp <;> omega

theorem validatePostData_cases (title content : String) :
    validatePostData title content = none ∨
    validatePostData title content = some Error.ErrInvalidTitle ∨
    validatePostData title content = some Error.ErrInvalidContent := by
  unfold validatePostData
  split_ifs <;> simp

theorem NewPost_eq_of_valid (now : Time) (newID : ObjectID) (title content : String)
    (h : validatePostData title content = none) :
    NewPost now newID title content = Except.ok ⟨newID, title, content, now, now⟩ := by
  simp [NewPost, h]

theorem NewPost_eq_of_invalid (now : Time) (newID : ObjectID) (title content : String)
    (err : Error) (h : validatePostData title content = some err) :
    NewPost now newID title content = Except.error err := by
  simp [NewPost, h]

theorem Update_eq_of_valid (p : Post) (now : Time) (title content : String)
    (h : validatePostData title content = none) :
    p.Update now title content = (⟨p.ID, title, content, p.CreatedAt, now⟩, none) := by
  simp [Post.Update, h]

theorem Update_eq_of_invalid (p : Post) (now : Time) (title content : String)
    (err : Error) (h : validatePostData title content = some err) :
    p.Update now title content = (p, some err) := by
  simp [Post.Update, h]

/-- C1, the code at a failing input: the title "éé" has two characters, fewer
than three, but four bytes; with a valid content `NewPost` returns a post and
`Post.Update` replaces the title, and neither reports `ErrInvalidTitle`. -/
theorem short_title_in_characters_is_accepted :
    "éé".length = 2 ∧ len "éé" = 4 ∧
    NewPost 5 7 "éé" "Valid content" = Except.ok ⟨7, "éé", "Valid content", 5, 5⟩ ∧
    Post.Update ⟨7, "Old title", "Old content", 1, 1⟩ 5 "éé" "Valid content" =
      (⟨7, "éé", "Valid content", 1, 5⟩, none) :=
  ⟨by decide, by decide, rfl, rfl⟩

/-- C2, the code at a failing input: with the valid title "Valid Title", the
content "ééééé" has five characters, fewer than ten, but ten bytes; `NewPost`
returns a post and `Post.Update` replaces the content, and neither reports
`ErrInvalidContent`. -/
theorem short_content_in_characters_is_accepted :
    "ééééé".length = 5 ∧ len "ééééé" = 10 ∧
    NewPost 5 7 "Valid Title" "ééééé" = Except.ok ⟨7, "Valid Title", "ééééé", 5, 5⟩ ∧
    Post.Update ⟨7, "Old title", "Old content", 1, 1⟩ 5 "Valid Title" "ééééé" =
      (⟨7, "Valid Title", "ééééé", 1, 5⟩, none) :=
  ⟨by decide, by decide, rfl, rfl⟩

/-- C3, the code at a failing input: a title of 101 letters "é" has between 3
and 200 characters but 202 bytes; with a content of 13 characters `NewPost`
returns `ErrInvalidTitle` and no post. -/
theorem long_title_in_bytes_is_rejected :
    (String.mk (List.replicate 101 'é')).length = 101 ∧
    len (String.mk (List.replicate 101 'é')) = 202 ∧
    "Valid content".length = 13 ∧
    NewPost 5 7 (String.mk (List.replicate 101 'é')) "Valid content" =
      Except.error Error.ErrInvalidTitle :=
  ⟨by decide, by decide, by decide, rfl⟩

/-- C4: when `Post.Update` returns an error, the post after the call is the post
before the call: ID, Title, Content, CreatedAt and UpdatedAt are all unchanged. -/
theorem Update_failure_leaves_post_unchanged (p : Post) (now : Time) (title content : String)
    (h : (p.Update now title content).2 ≠ none) :
    (p.Update now title content).1 = p := by
  unfold Post.Update at h ⊢
  cases hv : validatePostData title content with
  | none => simp [hv] at h
  | some err => simp

theorem Update_failure_leaves_post_unchanged_witness :
    (Post.Update ⟨7, "Old title", "Old content", 1, 1⟩ 5 "A" "Valid content").1 =
      ⟨7, "Old title", "Old content", 1, 1⟩ :=
  Update_failure_leaves_post_unchanged ⟨7, "Old title", "Old content", 1, 1⟩ 5 "A"
    "Valid content" (by decide)

/-- For a pair whose lengths in bytes pass the rules (title of 3 to 200 bytes,
content of at least 10 bytes), `Post.Update` returns no error, sets Title, Content
and UpdatedAt (to the clock reading), keeps ID and CreatedAt, and the new
UpdatedAt is strictly greater than the old one when the clock reading is later
than the old one. -/
theorem Update_success_sets_fields (p : Post) (now : Time) (title content : String)
    (ht : 3 ≤ len title ∧ len title ≤ 200) (hc : 10 ≤ len content) :
    (p.Update now title content).2 = none ∧
    (p.Update now title content).1.Title = title ∧
    (p.Update now title content).1.Content = content ∧
    (p.Update now title content).1.UpdatedAt = now ∧
    (p.Update now title content).1.ID = p.ID ∧
    (p.Update now title content).1.CreatedAt = p.CreatedAt ∧
    (p.UpdatedAt < now → p.UpdatedAt < (p.Update now title content).1.UpdatedAt) := by
  rw [Update_eq_of_valid p now title content (validatePostData_valid title content ht hc)]
  simp

theorem Update_success_sets_fields_witness :
    (Post.Update ⟨7, "Old title", "Old content", 1, 1⟩ 5 "New title" "New content").2 = none ∧
    (Post.Update ⟨7, "Old title", "Old content", 1, 1⟩ 5 "New title" "New content").1.Title
      = "New title" ∧
    (Post.Update ⟨7, "Old title", "Old content", 1, 1⟩ 5 "New title" "New content").1.Content
      = "New content" ∧
    (Post.Update ⟨7, "Old title", "Old content", 1, 1⟩ 5 "New title" "New content").1.UpdatedAt
      = 5 ∧
    (Post.Update ⟨7, "Old title", "Old content", 1, 1⟩ 5 "New title" "New content").1.ID = 7 ∧
    (Post.Update ⟨7, "Old title", "Old content", 1, 1⟩ 5 "New title" "New content").1.CreatedAt
      = 1 ∧
    1 < (Post.Update ⟨7, "Old title", "Old content", 1, 1⟩ 5 "New title" "New content").1.UpdatedAt :=
  have h := Update_success_sets_fields ⟨7, "Old title", "Old content", 1, 1⟩ 5 "New title"
    "New content" (by decide) (by decide)
  ⟨h.1, h.2.1, h.2.2.1, h.2.2.2.1, h.2.2.2.2.1, h.2.2.2.2.2.1, h.2.2.2.2.2.2 (by decide)⟩

/-- C5, the code at a failing input: a title of 101 letters "é" has between 3
and 200 characters but 202 bytes; with a content of 13 characters `Post.Update`
returns `ErrInvalidTitle` and leaves the post as it was, Title, Content and
UpdatedAt included. -/
theorem Update_rejects_title_valid_in_characters :
    (String.mk (List.replicate 101 'é')).length = 101 ∧
    len (String.mk (List.replicate 101 'é')) = 202 ∧
    "Valid content".length = 13 ∧
    Post.Update ⟨7, "Old title", "Old content", 1, 1⟩ 5
        (String.mk (List.replicate 101 'é')) "Valid content" =
      (⟨7, "Old title", "Old content", 1, 1⟩, some Error.ErrInvalidTitle) :=
  ⟨by decide, by decide, by decide, rfl⟩

/-- When the title has fewer than 3 or more than 200 bytes and the content
fewer than 10 bytes, `NewPost`, `Post.Update` and `Post.Validate` all report
`ErrInvalidTitle`: the title check comes first. -/
theorem title_error_takes_precedence (p : Post) (now : Time) (newID : ObjectID)
    (title content : String)
    (ht : len title < 3 ∨ len title > 200) (hc : len content < 10) :
    NewPost now newID title content = Except.error Error.ErrInvalidTitle ∧
    (p.Update now title content).2 = some Error.ErrInvalidTitle ∧
    Post.Validate ⟨p.ID, title, content, p.CreatedAt, p.UpdatedAt⟩
      = some Error.ErrInvalidTitle := by
  have hv := validatePostData_invalid_title title content ht
  have _ := hc
  refine ⟨NewPost_eq_of_invalid now newID title content _ hv, ?_, ?_⟩
  · rw [Update_eq_of_invalid p now title content _ hv]
  · simpa [Post.Validate] using hv

theorem title_error_takes_precedence_witness :
    NewPost 5 7 "A" "Short" = Except.error Error.ErrInvalidTitle ∧
    (Post.Update ⟨7, "Old title", "Old content", 1, 1⟩ 5 "A" "Short").2
      = some Error.ErrInvalidTitle ∧
    Post.Validate ⟨7, "A", "Short", 1, 1⟩ = some Error.ErrInvalidTitle :=
  title_error_takes_precedence ⟨7, "Old title", "Old content", 1, 1⟩ 5 7 "A" "Short"
    (by decide) (by decide)

/-- C6, the code at a failing input: the title "éé" has two characters, fewer
than three, but four bytes, and the content "Short" has five characters, fewer
than ten; `NewPost`, `Post.Update` and `Post.Validate` all report
`ErrInvalidContent`, not `ErrInvalidTitle`. -/
theorem short_title_in_characters_gives_content_error :
    "éé".length = 2 ∧ len "éé" = 4 ∧ "Short".length = 5 ∧ len "Short" = 5 ∧
    NewPost 5 7 "éé" "Short" = Except.error Error.ErrInvalidContent ∧
    Post.Update ⟨7, "Old title", "Old content", 1, 1⟩ 5 "éé" "Short" =
      (⟨7, "Old title", "Old content", 1, 1⟩, some Error.ErrInvalidContent) ∧
    Post.Validate ⟨7, "éé", "Short", 1, 1⟩ = some Error.ErrInvalidContent :=
  ⟨by decide, by decide, by decide, by decide, rfl, rfl, rfl⟩

/-! ## The invariant `CreatedAt ≤ UpdatedAt` -/

theorem MongoRepository_Update_post (now : Time) (fault : Option Error)
    (docs : postrepo.Collection) (p : Post) :
    (postrepo.MongoRepository.Update now fault docs p).2.1 = p ∨
    (postrepo.MongoRepository.Update now fault docs p).2.1
      = ⟨p.ID, p.Title, p.Content, p.CreatedAt, now⟩ := by
  unfold postrepo.MongoRepository.Update
  cases p.Validate with
  | some err => left; rfl
  | none =>
    right
    simp only
    split
    · rfl
    · split <;> rfl

theorem applyStamp_post (st : postrepo.Collection × Post) (op : Stamp) :
    (applyStamp st op).2.CreatedAt = st.2.CreatedAt ∧
    ((applyStamp st op).2.UpdatedAt = st.2.UpdatedAt ∨
      (applyStamp st op).2.UpdatedAt = op.now) := by
  cases op with
  | entityUpdate now title content =>
    simp only [applyStamp, Stamp.now]
    cases hv : validatePostData title content with
    | none => rw [Update_eq_of_valid _ _ _ _ hv]; simp
    | some err => rw [Update_eq_of_invalid _ _ _ _ err hv]; simp
  | repositoryUpdate now fault =>
    simp only [applyStamp, Stamp.now]
    rcases MongoRepository_Update_post now fault st.1 st.2 with h | h <;> rw [h] <;> simp

theorem applyStamps_invariant (ops : List Stamp) :
    ∀ (st : postrepo.Collection × Post) (t : Time),
      st.2.CreatedAt ≤ st.2.UpdatedAt → st.2.UpdatedAt ≤ t →
      List.Chain (fun a b => a ≤ b) t (ops.map Stamp.now) →
      (applyStamps st ops).2.CreatedAt = st.2.CreatedAt ∧
      (applyStamps st ops).2.CreatedAt ≤ (applyStamps st ops).2.UpdatedAt := by
  induction ops with
  | nil =>
    intro st t h _ _
    exact ⟨rfl, h⟩
  | cons op ops ih =>
    intro st t h1 h2 hch
    simp only [List.map_cons, List.chain_cons] at hch
    obtain ⟨hle, hrest⟩ := hch
    obtain ⟨hc, hu⟩ := applyStamp_post st op
    have hstep : applyStamps st (op :: ops) = applyStamps (applyStamp st op) ops := rfl
    rw [hstep]
    have h1n : (applyStamp st op).2.CreatedAt ≤ (applyStamp st op).2.UpdatedAt := by
      rcases hu with hu | hu <;> rw [hu, hc]
      · exact h1
      · exact le_trans h1 (le_trans h2 hle)
    have h2n : (applyStamp st op).2.UpdatedAt ≤ op.now := by
      rcases hu with hu | hu <;> rw [hu]
      exact le_trans h2 hle
    obtain ⟨ih1, ih2⟩ := ih (applyStamp st op) op.now h1n h2n hrest
    exact ⟨ih1.trans hc, ih2⟩

/-- C7: a post returned by `NewPost` has `CreatedAt ≤ UpdatedAt`, and so has the
post after any sequence of `Post.Update` and `MongoRepository.Update` calls whose
clock readings, starting from the reading at creation, never decrease; its
`CreatedAt` is still the reading at creation. -/
theorem updatedAt_ge_createdAt (t0 : Time) (newID : ObjectID) (title content : String)
    (p : Post) (docs : postrepo.Collection) (ops : List Stamp)
    (hnew : NewPost t0 newID title content = Except.ok p)
    (hclock : List.Chain (fun a b => a ≤ b) t0 (ops.map Stamp.now)) :
    p.CreatedAt ≤ p.UpdatedAt ∧
    (applyStamps (docs, p) ops).2.CreatedAt ≤ (applyStamps (docs, p) ops).2.UpdatedAt ∧
    (applyStamps (docs, p) ops).2.CreatedAt = t0 := by
  have hp : p = ⟨newID, title, content, t0, t0⟩ := by
    unfold NewPost at hnew
    cases hv : validatePostData title content with
    | none => simp [hv] at hnew; exact hnew.symm
    | some err => simp [hv] at hnew
  have hc : p.CreatedAt = t0 := by rw [hp]
  have hu : p.UpdatedAt = t0 := by rw [hp]
  obtain ⟨h1, h2⟩ := applyStamps_invariant ops (docs, p) t0 (by simp [hc, hu]) (by simp [hu]) hclock
  exact ⟨by rw [hc, hu], h2, h1.trans hc⟩

theorem updatedAt_ge_createdAt_witness :
    (1 : Nat) ≤ 1 ∧
    (applyStamps ([⟨7, "Valid Title", "Valid content", 1, 1⟩],
        ⟨7, "Valid Title", "Valid content", 1, 1⟩)
      [Stamp.entityUpdate 2 "New title" "New content", Stamp.repositoryUpdate 3 none,
       Stamp.entityUpdate 3 "A" "New content"]).2.CreatedAt ≤
    (applyStamps ([⟨7, "Valid Title", "Valid content", 1, 1⟩],
        ⟨7, "Valid Title", "Valid content", 1, 1⟩)
      [Stamp.entityUpdate 2 "New title" "New content", Stamp.repositoryUpdate 3 none,
       Stamp.entityUpdate 3 "A" "New content"]).2.UpdatedAt ∧
    (applyStamps ([⟨7, "Valid Title", "Valid content", 1, 1⟩],
        ⟨7, "Valid Title", "Valid content", 1, 1⟩)
      [Stamp.entityUpdate 2 "New title" "New content", Stamp.repositoryUpdate 3 none,
       Stamp.entityUpdate 3 "A" "New content"]).2.CreatedAt = 1 :=
  updatedAt_ge_createdAt 1 7 "Valid Title" "Valid content"
    ⟨7, "Valid Title", "Valid content", 1, 1⟩ [⟨7, "Valid Title", "Valid content", 1, 1⟩]
    [Stamp.entityUpdate 2 "New title" "New content", Stamp.repositoryUpdate 3 none,
     Stamp.entityUpdate 3 "A" "New content"]
    rfl (by simp [Stamp.now])

/-! ## Validate and construction -/

/-- C8: `Post.Validate` applies the rules of construction: it returns nil exactly
when `NewPost` on the stored title and content returns a post, otherwise it
returns the error `NewPost` returns; every post returned by `NewPost`, and every
post after a `Post.Update` that returned nil, passes `Validate`. -/
theorem Validate_agrees_with_NewPost (p : Post) (now : Time) (newID : ObjectID) :
    (p.Validate = none ↔
      NewPost now newID p.Title p.Content
        = Except.ok ⟨newID, p.Title, p.Content, now, now⟩) ∧
    (∀ err, p.Validate = some err ↔
      NewPost now newID p.Title p.Content = Except.error err) ∧
    (∀ title content q, NewPost now newID title content = Except.ok q → q.Validate = none) ∧
    (∀ title content, (p.Update now title content).2 = none →
      (p.Update now title content).1.Validate = none) := by
  refine ⟨?_, ?_, ?_, ?_⟩
  · unfold Post.Validate NewPost
    cases validatePostData p.Title p.Content <;> simp
  · intro err
    unfold Post.Validate NewPost
    cases validatePostData p.Title p.Content <;> simp
  · intro title content q hq
    unfold NewPost at hq
    cases hv : validatePostData title content with
    | none =>
      simp only [hv, Except.ok.injEq] at hq
      rw [← hq]
      exact hv
    | some err => simp [hv] at hq
  · intro title content h
    cases hv : validatePostData title content with
    | none =>
      rw [Update_eq_of_valid p now title content hv]
      exact hv
    | some err =>
      rw [Update_eq_of_invalid p now title content err hv] at h
      simp at h

theorem Validate_agrees_with_NewPost_witness :
    Post.Validate ⟨7, "Valid Title", "Valid content", 1, 1⟩ = none ∧
    NewPost 5 9 "A" "Valid content" = Except.error Error.ErrInvalidTitle ∧
    Post.Validate ⟨9, "New title", "New content", 5, 5⟩ = none ∧
    (Post.Update ⟨7, "A", "Valid content", 1, 1⟩ 5 "New title" "New content").1.Validate
      = none :=
  ⟨(Validate_agrees_with_NewPost ⟨7, "Valid Title", "Valid content", 1, 1⟩ 5 9).1.2 rfl,
   ((Validate_agrees_with_NewPost ⟨7, "A", "Valid content", 1, 1⟩ 5 9).2.1
      Error.ErrInvalidTitle).1 rfl,
   (Validate_agrees_with_NewPost ⟨7, "A", "Valid content", 1, 1⟩ 5 9).2.2.1
      "New title" "New content" ⟨9, "New title", "New content", 5, 5⟩ rfl,
   (Validate_agrees_with_NewPost ⟨7, "A", "Valid content", 1, 1⟩ 5 9).2.2.2
      "New title" "New content" rfl⟩

/-! ## Service.Create -/

theorem errors_Is_self (e : Error) : errors.Is e e = true := by
  cases e <;> simp [errors.Is]

theorem errors_Is_Errorf (msg : String) (err : Error) :
    errors.Is (fmt.Errorf msg err) err = true := by
  simp [fmt.Errorf, errors.Is, errors_Is_self]

theorem Service_Create_eq_of_invalid {σ : Type} (s : post.Service σ) (now : Time)
    (newID : ObjectID) (st : σ) (title content : String) (err : Error)
    (h : NewPost now newID title content = Except.error err) :
    s.Create now newID st title content
      = (st, none, some (fmt.Errorf "failed to create post" err)) := by
  simp [post.Service.Create, h]

/-- C9: when `NewPost` fails with `err` on the supplied title and content,
`Service.Create` returns a nil post and the error `err` wrapped, `err` is
`ErrInvalidTitle` or `ErrInvalidContent` and `errors.Is` finds it in the returned
error, the state behind the repository is untouched, and a repository that logs
its calls has logged nothing. -/
theorem Service_Create_validation_failure {σ : Type} (s : post.Service σ) (now : Time)
    (newID : ObjectID) (st : σ) (log : List Call) (title content : String) (err : Error)
    (h : NewPost now newID title content = Except.error err) :
    (s.Create now newID st title content).2.1 = none ∧
    (s.Create now newID st title content).2.2
      = some (fmt.Errorf "failed to create post" err) ∧
    (err = Error.ErrInvalidTitle ∨ err = Error.ErrInvalidContent) ∧
    errors.Is (fmt.Errorf "failed to create post" err) err = true ∧
    (s.Create now newID st title content).1 = st ∧
    ((post.NewService s.repo.recording).Create now newID (st, log) title content).1
      = (st, log) := by
  rw [Service_Create_eq_of_invalid s now newID st title content err h,
    Service_Create_eq_of_invalid _ now newID (st, log) title content err h]
  refine ⟨rfl, rfl, ?_, errors_Is_Errorf _ _, rfl, rfl⟩
  unfold NewPost at h
  rcases validatePostData_cases title content with hv | hv | hv
  · simp [hv] at h
  · simp only [hv, Except.error.injEq] at h
    exact Or.inl h.symm
  · simp only [hv, Except.error.injEq] at h
    exact Or.inr h.symm

theorem Service_Create_validation_failure_witness :
    ((post.NewService post.emptyMock.toRepository).Create 5 7 () "Test Post" "Short").2.1
      = none ∧
    ((post.NewService post.emptyMock.toRepository).Create 5 7 () "Test Post" "Short").2.2
      = some (fmt.Errorf "failed to create post" Error.ErrInvalidContent) ∧
    (Error.ErrInvalidContent = Error.ErrInvalidTitle ∨
      Error.ErrInvalidContent = Error.ErrInvalidContent) ∧
    errors.Is (fmt.Errorf "failed to create post" Error.ErrInvalidContent)
      Error.ErrInvalidContent = true ∧
    ((post.NewService post.emptyMock.toRepository).Create 5 7 () "Test Post" "Short").1
      = () ∧
    ((post.NewService (post.NewService post.emptyMock.toRepository).repo.recording).Create
      5 7 ((), []) "Test Post" "Short").1 = ((), []) :=
  Service_Create_validation_failure (post.NewService post.emptyMock.toRepository) 5 7 () []
    "Test Post" "Short" Error.ErrInvalidContent rfl

theorem Service_Create_eq_of_repo_failure {σ : Type} (s : post.Service σ) (now : Time)
    (newID : ObjectID) (st : σ) (title content : String) (p : Post) (err : Error)
    (h : NewPost now newID title content = Except.ok p)
    (hr : (s.repo.Create st p).2.2 = some err) :
    s.Create now newID st title content
      = ((s.repo.Create st p).1, none, some (fmt.Errorf "failed to save post" err)) := by
  rcases hc : s.repo.Create st p with ⟨st1, post1, _ | e⟩
  · simp [hc] at hr
  · simp only [hc, Option.some.injEq] at hr
    simp [post.Service.Create, h, hc, hr]

theorem Service_Create_eq_of_repo_success {σ : Type} (s : post.Service σ) (now : Time)
    (newID : ObjectID) (st : σ) (title content : String) (p : Post)
    (h : NewPost now newID title content = Except.ok p)
    (hr : (s.repo.Create st p).2.2 = none) :
    s.Create now newID st title content
      = ((s.repo.Create st p).1, some (s.repo.Create st p).2.1, none) := by
  rcases hc : s.repo.Create st p with ⟨st1, post1, _ | e⟩
  · simp [post.Service.Create, h, hc]
  · simp [hc] at hr

theorem Service_Create_records_one_call {σ : Type} (s : post.Service σ) (now : Time)
    (newID : ObjectID) (st : σ) (log : List Call) (title content : String) (p : Post)
    (h : NewPost now newID title content = Except.ok p) :
    ((post.NewService s.repo.recording).Create now newID (st, log) title content).1.2
      = log ++ [Call.Create p] := by
  rcases hc : s.repo.Create st p with ⟨st1, post1, _ | e⟩ <;>
    simp [post.Service.Create, post.NewService, Repository.recording, h, hc]

/-- C10, counterexample: with a repository whose `Create` overwrites the title
of the post it is handed and returns nil, validation and `Repository.Create` both
succeed on ("Test Post", "Test content"), and the post `Service.Create` returns
has the title "Changed", not the supplied title. -/
theorem Service_Create_returns_post_as_repository_left_it :
    NewPost 5 7 "Test Post" "Test content"
      = Except.ok ⟨7, "Test Post", "Test content", 5, 5⟩ ∧
    (post.retitlingMock.toRepository.Create () ⟨7, "Test Post", "Test content", 5, 5⟩).2.2
      = none ∧
    (post.NewService post.retitlingMock.toRepository).Create 5 7 () "Test Post" "Test content"
      = ((), some ⟨7, "Changed", "Test content", 5, 5⟩, none) ∧
    "Changed" ≠ "Test Post" :=
  ⟨rfl, rfl, rfl, by decide⟩

/-- C10, amended: for every input and every repository, `Service.Create` returns
a non-nil post exactly when it returns a nil error; when `Repository.Create`
fails with `err` the result is nil and `err` wrapped; when validation and
`Repository.Create` both succeed the result is the post built by `NewPost` as
`Repository.Create` left it, which carries the supplied title and content
whenever `Repository.Create` left those two fields as they were. -/
theorem Service_Create_no_partial_success {σ : Type} (s : post.Service σ) (now : Time)
    (newID : ObjectID) (st : σ) (title content : String) :
    ((s.Create now newID st title content).2.1 ≠ none ↔
      (s.Create now newID st title content).2.2 = none) ∧
    (∀ p err, NewPost now newID title content = Except.ok p →
      (s.repo.Create st p).2.2 = some err →
      (s.Create now newID st title content).2
        = (none, some (fmt.Errorf "failed to save post" err)) ∧
      errors.Is (fmt.Errorf "failed to save post" err) err = true) ∧
    (∀ p, NewPost now newID title content = Except.ok p →
      (s.repo.Create st p).2.2 = none →
      (s.Create now newID st title content).2 = (some (s.repo.Create st p).2.1, none) ∧
      ((s.repo.Create st p).2.1.Title = p.Title →
        (s.repo.Create st p).2.1.Content = p.Content →
        ∃ q, (s.Create now newID st title content).2.1 = some q ∧
          q.Title = title ∧ q.Content = content)) := by
  refine ⟨?_, ?_, ?_⟩
  · cases h : NewPost now newID title content with
    | error err => simp [Service_Create_eq_of_invalid s now newID st title content err h]
    | ok p =>
      cases hr : (s.repo.Create st p).2.2 with
      | none => simp [Service_Create_eq_of_repo_success s now newID st title content p h hr]
      | some err =>
        simp [Service_Create_eq_of_repo_failure s now newID st title content p err h hr]
  · intro p err h hr
    rw [Service_Create_eq_of_repo_failure s now newID st title content p err h hr]
    exact ⟨rfl, errors_Is_Errorf _ _⟩
  · intro p h hr
    rw [Service_Create_eq_of_repo_success s now newID st title content p h hr]
    refine ⟨rfl, fun ht hc => ⟨_, rfl, ?_, ?_⟩⟩
    · rw [ht]
      unfold NewPost at h
      cases hv : validatePostData title content with
      | none => simp only [hv, Except.ok.injEq] at h; rw [← h]
      | some e => simp [hv] at h
    · rw [hc]
      unfold NewPost at h
      cases hv : validatePostData title content with
      | none => simp only [hv, Except.ok.injEq] at h; rw [← h]
      | some e => simp [hv] at h

theorem Service_Create_no_partial_success_witness :
    ((post.NewService post.failingMock.toRepository).Create 5 7 () "Test Post"
        "Test content").2
      = (none, some (fmt.Errorf "failed to save post" (Error.errorString "repository error"))) ∧
    (∃ q, ((post.NewService post.emptyMock.toRepository).Create 5 7 () "Test Post"
        "Test content").2.1 = some q ∧ q.Title = "Test Post" ∧ q.Content = "Test content") :=
  ⟨((Service_Create_no_partial_success (post.NewService post.failingMock.toRepository) 5 7 ()
      "Test Post" "Test content").2.1 ⟨7, "Test Post", "Test content", 5, 5⟩
      (Error.errorString "repository error") rfl rfl).1,
   ((Service_Create_no_partial_success (post.NewService post.emptyMock.toRepository) 5 7 ()
      "Test Post" "Test content").2.2 ⟨7, "Test Post", "Test content", 5, 5⟩ rfl rfl).2
      rfl rfl⟩

/-! ## Service.Update -/

theorem Service_Update_eq_of_get_failure {σ : Type} (s : post.Service σ) (now : Time) (st : σ)
    (id title content : String) (err : Error)
    (h : (s.repo.GetByID st id).2.2 = some err) :
    s.Update now st id title content
      = ((s.repo.GetByID st id).1,
         Outcome.returned (some (fmt.Errorf "failed to get post for update" err))) := by
  rcases hg : s.repo.GetByID st id with ⟨st1, p, _ | e⟩
  · simp [hg] at h
  · simp only [hg, Option.some.injEq] at h
    cases p <;> simp [post.Service.Update, hg, h]

theorem Service_Update_eq_of_invalid {σ : Type} (s : post.Service σ) (now : Time) (st : σ)
    (id title content : String) (err : Error)
    (hg : (s.repo.GetByID st id).2.2 = none)
    (hv : validatePostData title content = some err) :
    s.Update now st id title content
      = ((s.repo.GetByID st id).1,
         Outcome.returned (some (fmt.Errorf "failed to update post" err))) := by
  rcases hr : s.repo.GetByID st id with ⟨st1, p, _ | e⟩
  · cases p with
    | none => simp [post.Service.Update, hr, hv]
    | some q => simp [post.Service.Update, hr, Update_eq_of_invalid q now title content err hv]
  · simp [hr] at hg

theorem Service_Update_eq_of_nil_post {σ : Type} (s : post.Service σ) (now : Time) (st : σ)
    (id title content : String)
    (hg : (s.repo.GetByID st id).2 = (none, none))
    (hv : validatePostData title content = none) :
    s.Update now st id title content = ((s.repo.GetByID st id).1, Outcome.panicked) := by
  rcases hr : s.repo.GetByID st id with ⟨st1, p, e⟩
  simp only [hr, Prod.mk.injEq] at hg
  obtain ⟨rfl, rfl⟩ := hg
  simp [post.Service.Update, hr, hv]

theorem Service_Update_eq_of_valid {σ : Type} (s : post.Service σ) (now : Time) (st : σ)
    (id title content : String) (p : Post)
    (hg : (s.repo.GetByID st id).2 = (some p, none))
    (hv : validatePostData title content = none) :
    s.Update now st id title content
      = ((s.repo.Update (s.repo.GetByID st id).1 ⟨p.ID, title, content, p.CreatedAt, now⟩).1,
         Outcome.returned
          (((s.repo.Update (s.repo.GetByID st id).1
              ⟨p.ID, title, content, p.CreatedAt, now⟩).2.2).map
            (fmt.Errorf "failed to save updated post"))) := by
  rcases hr : s.repo.GetByID st id with ⟨st1, q, e⟩
  simp only [hr, Prod.mk.injEq] at hg
  obtain ⟨rfl, rfl⟩ := hg
  rcases hu : s.repo.Update st1 ⟨p.ID, title, content, p.CreatedAt, now⟩ with ⟨st2, q2, _ | e2⟩
  · simp [post.Service.Update, hr, Update_eq_of_valid p now title content hv, hu]
  · simp [post.Service.Update, hr, Update_eq_of_valid p now title content hv, hu]

theorem Service_Update_calls_of_get_failure {σ : Type} (s : post.Service σ) (now : Time)
    (st : σ) (id title content : String) (err : Error)
    (h : (s.repo.GetByID st id).2.2 = some err) :
    ((post.NewService s.repo.recording).Update now (st, []) id title content).1.2
      = [Call.GetByID id] := by
  rw [Service_Update_eq_of_get_failure (post.NewService s.repo.recording) now (st, []) id
    title content err (by simpa [post.NewService, Repository.recording] using h)]
  simp [post.NewService, Repository.recording]

theorem Service_Update_calls_of_invalid {σ : Type} (s : post.Service σ) (now : Time)
    (st : σ) (id title content : String) (err : Error)
    (hg : (s.repo.GetByID st id).2.2 = none)
    (hv : validatePostData title content = some err) :
    ((post.NewService s.repo.recording).Update now (st, []) id title content).1.2
      = [Call.GetByID id] := by
  rw [Service_Update_eq_of_invalid (post.NewService s.repo.recording) now (st, []) id
    title content err (by simpa [post.NewService, Repository.recording] using hg) hv]
  simp [post.NewService, Repository.recording]

theorem Service_Update_calls_of_nil_post {σ : Type} (s : post.Service σ) (now : Time)
    (st : σ) (id title content : String)
    (hg : (s.repo.GetByID st id).2 = (none, none))
    (hv : validatePostData title content = none) :
    ((post.NewService s.repo.recording).Update now (st, []) id title content).1.2
      = [Call.GetByID id] := by
  rw [Service_Update_eq_of_nil_post (post.NewService s.repo.recording) now (st, []) id
    title content (by simpa [post.NewService, Repository.recording] using hg) hv]
  simp [post.NewService, Repository.recording]

theorem Service_Update_calls_of_valid {σ : Type} (s : post.Service σ) (now : Time)
    (st : σ) (id title content : String) (p : Post)
    (hg : (s.repo.GetByID st id).2 = (some p, none))
    (hv : validatePostData title content = none) :
    ((post.NewService s.repo.recording).Update now (st, []) id title content).1.2
      = [Call.GetByID id, Call.Update ⟨p.ID, title, content, p.CreatedAt, now⟩] := by
  rw [Service_Update_eq_of_valid (post.NewService s.repo.recording) now (st, []) id
    title content p (by simpa [post.NewService, Repository.recording] using hg) hv]
  simp [post.NewService, Repository.recording]

/-- C11: `Service.Update` calls `Repository.Update` exactly when
`Repository.GetByID` returned a post with a nil error and the new title and
content pass `validatePostData`; when `GetByID` returns an error, or the new
pair is invalid, `Service.Update` returns an error and calls none of `Create`,
`Update` and `Delete`. The calls are those a logging repository records. -/
theorem Service_Update_writes_only_after_fetch_and_validation {σ : Type}
    (s : post.Service σ) (now : Time) (st : σ) (id title content : String) :
    ((((post.NewService s.repo.recording).Update now (st, []) id title content).1.2.any
        Call.isUpdate = true) ↔
      ((∃ p, (s.repo.GetByID st id).2 = (some p, none)) ∧
        validatePostData title content = none)) ∧
    (((s.repo.GetByID st id).2.2 ≠ none ∨ validatePostData title content ≠ none) →
      (∃ err, (s.Update now st id title content).2 = Outcome.returned (some err)) ∧
      ((post.NewService s.repo.recording).Update now (st, []) id title content).1.2.any
        Call.isWrite = false) := by
  rcases hr : s.repo.GetByID st id with ⟨st1, p, e⟩
  have h2 : (s.repo.GetByID st id).2 = (p, e) := by rw [hr]
  have h22 : (s.repo.GetByID st id).2.2 = e := by rw [hr]
  cases e with
  | some err =>
    rw [Service_Update_calls_of_get_failure s now st id title content err h22,
      Service_Update_eq_of_get_failure s now st id title content err h22]
    simp [Call.isUpdate, Call.isWrite]
  | none =>
    cases hv : validatePostData title content with
    | some verr =>
      rw [Service_Update_calls_of_invalid s now st id title content verr h22 hv,
        Service_Update_eq_of_invalid s now st id title content verr h22 hv]
      simp [Call.isUpdate, Call.isWrite]
    | none =>
      cases p with
      | none =>
        rw [Service_Update_calls_of_nil_post s now st id title content h2 hv]
        simp [Call.isUpdate]
      | some q =>
        rw [Service_Update_calls_of_valid s now st id title content q h2 hv]
        simp [Call.isUpdate]

theorem Service_Update_writes_only_after_fetch_and_validation_witness :
    (((post.NewService (post.NewService post.fetchingMock.toRepository).repo.recording).Update 5
        ((), []) "07" "Updated Title" "Updated content").1.2.any Call.isUpdate = true) ∧
    (∃ err, ((post.NewService post.fetchingMock.toRepository).Update 5 () "07" "A"
        "Updated content").2 = Outcome.returned (some err)) ∧
    ((post.NewService (post.NewService post.fetchingMock.toRepository).repo.recording).Update 5
        ((), []) "07" "A" "Updated content").1.2.any Call.isWrite = false :=
  ⟨(Service_Update_writes_only_after_fetch_and_validation
      (post.NewService post.fetchingMock.toRepository) 5 () "07" "Updated Title"
      "Updated content").1.2 ⟨⟨_, rfl⟩, by decide⟩,
   (Service_Update_writes_only_after_fetch_and_validation
      (post.NewService post.fetchingMock.toRepository) 5 () "07" "A"
      "Updated content").2 (Or.inr (by decide))⟩

/-- C12: when `GetByID` returns the post `p` with a nil error and the new title
and content pass `validatePostData`, `Service.Update` calls `GetByID` and then
`Repository.Update`, once each, with a post that has the ID and CreatedAt of `p`
and the supplied title and content; `Service.Update` returns, and it returns nil
exactly when that `Repository.Update` call returns nil. -/
theorem Service_Update_passes_updated_post {σ : Type} (s : post.Service σ) (now : Time)
    (st : σ) (id title content : String) (p : Post)
    (hg : (s.repo.GetByID st id).2 = (some p, none))
    (hv : validatePostData title content = none) :
    ∃ q : Post,
      ((post.NewService s.repo.recording).Update now (st, []) id title content).1.2
        = [Call.GetByID id, Call.Update q] ∧
      q.ID = p.ID ∧ q.CreatedAt = p.CreatedAt ∧ q.Title = title ∧ q.Content = content ∧
      (∃ r, (s.Update now st id title content).2 = Outcome.returned r) ∧
      ((s.Update now st id title content).2 = Outcome.returned none ↔
        (s.repo.Update (s.repo.GetByID st id).1 q).2.2 = none) := by
  refine ⟨⟨p.ID, title, content, p.CreatedAt, now⟩,
    Service_Update_calls_of_valid s now st id title content p hg hv, rfl, rfl, rfl, rfl, ?_, ?_⟩
  · rw [Service_Update_eq_of_valid s now st id title content p hg hv]
    exact ⟨_, rfl⟩
  · rw [Service_Update_eq_of_valid s now st id title content p hg hv]
    cases (s.repo.Update (s.repo.GetByID st id).1 ⟨p.ID, title, content, p.CreatedAt, now⟩).2.2
      <;> simp

theorem Service_Update_passes_updated_post_witness :
    ∃ q : Post,
      ((post.NewService (post.NewService post.updateFailingMock.toRepository).repo.recording).Update
          5 ((), []) "07" "Updated Title" "Updated content").1.2
        = [Call.GetByID "07", Call.Update q] ∧
      q.ID = 7 ∧ q.CreatedAt = 1 ∧ q.Title = "Updated Title" ∧ q.Content = "Updated content" ∧
      (∃ r, ((post.NewService post.updateFailingMock.toRepository).Update 5 () "07"
          "Updated Title" "Updated content").2 = Outcome.returned r) ∧
      (((post.NewService post.updateFailingMock.toRepository).Update 5 () "07"
          "Updated Title" "Updated content").2 = Outcome.returned none ↔
        ((post.NewService post.updateFailingMock.toRepository).repo.Update
          ((post.NewService post.updateFailingMock.toRepository).repo.GetByID () "07").1 q).2.2
          = none) :=
  Service_Update_passes_updated_post (post.NewService post.updateFailingMock.toRepository) 5 ()
    "07" "Updated Title" "Updated content" ⟨7, "Original Title", "Original content", 1, 1⟩
    rfl (by decide)

/-! ## Error kinds through the service -/

theorem keepsKind_map_Errorf (msg : String) (lower : Option Error) :
    keepsKind lower (lower.map (fmt.Errorf msg)) := by
  cases lower with
  | none => exact ⟨fun e h => by simp at h, fun _ => rfl⟩
  | some e =>
    refine ⟨fun e1 h => ?_, fun h => by simp at h⟩
    simp only [Option.some.injEq] at h
    subst h
    exact ⟨_, rfl, errors_Is_Errorf msg e⟩

theorem Service_GetAll_err {σ : Type} (s : post.Service σ) (st : σ) :
    (s.GetAll st).2.2 = ((s.repo.GetAll st).2.2).map (fmt.Errorf "failed to get posts") := by
  rcases h : s.repo.GetAll st with ⟨st1, posts, _ | e⟩ <;> simp [post.Service.GetAll, h]

theorem Service_GetByID_err {σ : Type} (s : post.Service σ) (st : σ) (id : String) :
    (s.GetByID st id).2.2 = ((s.repo.GetByID st id).2.2).map (fmt.Errorf "failed to get post") := by
  rcases h : s.repo.GetByID st id with ⟨st1, p, _ | e⟩ <;> simp [post.Service.GetByID, h]

theorem Service_Delete_err {σ : Type} (s : post.Service σ) (st : σ) (id : String) :
    (s.Delete st id).2 = ((s.repo.Delete st id).2).map (fmt.Errorf "failed to delete post") := by
  rcases h : s.repo.Delete st id with ⟨st1, _ | e⟩ <;> simp [post.Service.Delete, h]

theorem Service_GetPaginated_err {σ : Type} (s : post.Service σ) (st : σ)
    (page pageSize : Int) (search : String) :
    (s.GetPaginated st page pageSize search).2.2
      = ((s.repo.GetPaginated st (if page < 1 then 1 else page)
          (if pageSize < 1 then 9 else pageSize) search).2.2).map
            (fmt.Errorf "failed to get paginated posts") := by
  rcases h : s.repo.GetPaginated st (if page < 1 then 1 else page)
      (if pageSize < 1 then 9 else pageSize) search with ⟨st1, l, _ | e⟩ <;>
    simp [post.Service.GetPaginated, h]

theorem Service_GetRecent_err {σ : Type} (s : post.Service σ) (st : σ) (limit : Int) :
    (s.GetRecent st limit).2.2
      = ((s.repo.GetRecent st (if limit < 1 then 5 else limit)).2.2).map
          (fmt.Errorf "failed to get recent posts") := by
  rcases h : s.repo.GetRecent st (if limit < 1 then 5 else limit) with ⟨st1, l, _ | e⟩ <;>
    simp [post.Service.GetRecent, h]

/-- C13: every `Service` method keeps the kind of a lower-layer error. For
`Create`, `GetAll`, `GetByID`, `Update`, `Delete`, `GetPaginated` and `GetRecent`:
when `NewPost`, `Post.Update` (through `validatePostData`) or the repository
method returns the error `e`, the service returns an error `r` with
`errors.Is r e`, and the service returns nil only when every lower-layer call it
made returned nil. -/
theorem Service_keeps_error_kind {σ : Type} (s : post.Service σ) (now : Time)
    (newID : ObjectID) (st : σ) (id title content search : String)
    (page pageSize limit : Int) :
    ((∀ e, NewPost now newID title content = Except.error e →
        ∃ r, (s.Create now newID st title content).2.2 = some r ∧ errors.Is r e = true) ∧
      (∀ p, NewPost now newID title content = Except.ok p →
        keepsKind (s.repo.Create st p).2.2 (s.Create now newID st title content).2.2) ∧
      ((s.Create now newID st title content).2.2 = none →
        ∃ p, NewPost now newID title content = Except.ok p)) ∧
    keepsKind (s.repo.GetAll st).2.2 (s.GetAll st).2.2 ∧
    keepsKind (s.repo.GetByID st id).2.2 (s.GetByID st id).2.2 ∧
    ((∀ e, (s.repo.GetByID st id).2.2 = some e →
        ∃ r, (s.Update now st id title content).2 = Outcome.returned (some r) ∧
          errors.Is r e = true) ∧
      ((s.repo.GetByID st id).2.2 = none → ∀ e, validatePostData title content = some e →
        ∃ r, (s.Update now st id title content).2 = Outcome.returned (some r) ∧
          errors.Is r e = true) ∧
      (∀ p, (s.repo.GetByID st id).2 = (some p, none) →
        validatePostData title content = none →
        ∃ res, (s.Update now st id title content).2 = Outcome.returned res ∧
          keepsKind
            (s.repo.Update (s.repo.GetByID st id).1 ⟨p.ID, title, content, p.CreatedAt, now⟩).2.2
            res) ∧
      ((s.Update now st id title content).2 = Outcome.returned none →
        (s.repo.GetByID st id).2.2 = none ∧ validatePostData title content = none)) ∧
    keepsKind (s.repo.Delete st id).2 (s.Delete st id).2 ∧
    keepsKind
      (s.repo.GetPaginated st (if page < 1 then 1 else page)
        (if pageSize < 1 then 9 else pageSize) search).2.2
      (s.GetPaginated st page pageSize search).2.2 ∧
    keepsKind (s.repo.GetRecent st (if limit < 1 then 5 else limit)).2.2
      (s.GetRecent st limit).2.2 := by
  refine ⟨⟨?_, ?_, ?_⟩, ?_, ?_, ⟨?_, ?_, ?_, ?_⟩, ?_, ?_, ?_⟩
  · intro e h
    rw [Service_Create_eq_of_invalid s now newID st title content e h]
    exact ⟨_, rfl, errors_Is_Errorf _ _⟩
  · intro p h
    cases hr : (s.repo.Create st p).2.2 with
    | none =>
      rw [Service_Create_eq_of_repo_success s now newID st title content p h hr]
      exact ⟨fun e he => by simp at he, fun _ => rfl⟩
    | some err =>
      rw [Service_Create_eq_of_repo_failure s now newID st title content p err h hr]
      exact keepsKind_map_Errorf "failed to save post" (some err)
  · intro h
    cases hn : NewPost now newID title content with
    | ok p => exact ⟨p, rfl⟩
    | error e =>
      rw [Service_Create_eq_of_invalid s now newID st title content e hn] at h
      simp at h
  · rw [Service_GetAll_err]
    exact keepsKind_map_Errorf _ _
  · rw [Service_GetByID_err]
    exact keepsKind_map_Errorf _ _
  · intro e h
    rw [Service_Update_eq_of_get_failure s now st id title content e h]
    exact ⟨_, rfl, errors_Is_Errorf _ _⟩
  · intro hg e hv
    rw [Service_Update_eq_of_invalid s now st id title content e hg hv]
    exact ⟨_, rfl, errors_Is_Errorf _ _⟩
  · intro p hg hv
    rw [Service_Update_eq_of_valid s now st id title content p hg hv]
    exact ⟨_, rfl, keepsKind_map_Errorf _ _⟩
  · intro h
    cases hg : (s.repo.GetByID st id).2.2 with
    | some e =>
      rw [Service_Update_eq_of_get_failure s now st id title content e hg] at h
      simp at h
    | none =>
      cases hv : validatePostData title content with
      | some e =>
        rw [Service_Update_eq_of_invalid s now st id title content e hg hv] at h
        simp at h
      | none => exact ⟨rfl, rfl⟩
  · rw [Service_Delete_err]
    exact keepsKind_map_Errorf _ _
  · rw [Service_GetPaginated_err]
    exact keepsKind_map_Errorf _ _
  · rw [Service_GetRecent_err]
    exact keepsKind_map_Errorf _ _

theorem Service_keeps_error_kind_witness :
    (∃ r, ((post.NewService post.updateFailingMock.toRepository).Create 5 7 () "A"
        "Updated content").2.2 = some r ∧ errors.Is r Error.ErrInvalidTitle = true) ∧
    (∃ r, ((post.NewService post.updateFailingMock.toRepository).Update 5 () "07" "A"
        "Updated content").2 = Outcome.returned (some r) ∧
      errors.Is r Error.ErrInvalidTitle = true) ∧
    (∃ res, ((post.NewService post.updateFailingMock.toRepository).Update 5 () "07"
        "Updated Title" "Updated content").2 = Outcome.returned res ∧
      keepsKind
        ((post.NewService post.updateFailingMock.toRepository).repo.Update
          ((post.NewService post.updateFailingMock.toRepository).repo.GetByID () "07").1
          ⟨7, "Updated Title", "Updated content", 1, 5⟩).2.2 res) :=
  have h := Service_keeps_error_kind (post.NewService post.updateFailingMock.toRepository) 5 7 ()
    "07" "A" "Updated content" "" 1 10 5
  have h2 := Service_keeps_error_kind (post.NewService post.updateFailingMock.toRepository) 5 7 ()
    "07" "Updated Title" "Updated content" "" 1 10 5
  ⟨h.1.1 Error.ErrInvalidTitle rfl, h.2.2.2.1.2.1 rfl Error.ErrInvalidTitle (by decide),
   h2.2.2.2.1.2.2.1 ⟨7, "Original Title", "Original content", 1, 1⟩ rfl (by decide)⟩

/-! ## Normalisation in the service -/

/-- C14: `Service.GetPaginated` makes exactly one repository call, namely
`GetPaginated` with `page` (1 when `page < 1`), `pageSize` (9 when
`pageSize < 1`) and `search` as given, and when that call returns a nil error the
service returns the list the repository returned, with a nil error. -/
theorem Service_GetPaginated_normalizes_and_delegates {σ : Type} (s : post.Service σ)
    (st : σ) (page pageSize : Int) (search : String) :
    ((post.NewService s.repo.recording).GetPaginated (st, []) page pageSize search).1.2
      = [Call.GetPaginated (if page ≥ 1 then page else 1)
          (if pageSize ≥ 1 then pageSize else 9) search] ∧
    (∀ l, (s.repo.GetPaginated st (if page ≥ 1 then page else 1)
          (if pageSize ≥ 1 then pageSize else 9) search).2 = (l, none) →
      (s.GetPaginated st page pageSize search).2 = (l, none)) := by
  have hp : (if page ≥ 1 then page else 1) = (if page < 1 then 1 else page) := by
    split_ifs <;> omega
  have hs : (if pageSize ≥ 1 then pageSize else 9) = (if pageSize < 1 then 9 else pageSize) := by
    split_ifs <;> omega
  rw [hp, hs]
  constructor
  · rcases h : s.repo.GetPaginated st (if page < 1 then 1 else page)
        (if pageSize < 1 then 9 else pageSize) search with ⟨st1, l, _ | e⟩ <;>
      simp [post.Service.GetPaginated, post.NewService, Repository.recording, h]
  · intro l h
    rcases hr : s.repo.GetPaginated st (if page < 1 then 1 else page)
        (if pageSize < 1 then 9 else pageSize) search with ⟨st1, l1, e⟩
    simp only [hr, Prod.mk.injEq] at h
    obtain ⟨rfl, rfl⟩ := h
    simp [post.Service.GetPaginated, hr]

theorem Service_GetPaginated_normalizes_and_delegates_witness :
    ((post.NewService (post.NewService post.echoingMock.toRepository).repo.recording).GetPaginated
        ((), []) 0 (-3) "news").1.2 = [Call.GetPaginated 1 9 "news"] ∧
    ((post.NewService post.echoingMock.toRepository).GetPaginated () 0 (-3) "news").2
      = (some ⟨[], 0, 1, 9⟩, none) :=
  ⟨(Service_GetPaginated_normalizes_and_delegates
      (post.NewService post.echoingMock.toRepository) () 0 (-3) "news").1,
   (Service_GetPaginated_normalizes_and_delegates
      (post.NewService post.echoingMock.toRepository) () 0 (-3) "news").2 _ rfl⟩

theorem Service_GetRecent_calls {σ : Type} (s : post.Service σ) (st : σ) (limit : Int) :
    ((post.NewService s.repo.recording).GetRecent (st, []) limit).1.2
      = [Call.GetRecent (if limit < 1 then 5 else limit)] := by
  rcases h : s.repo.GetRecent st (if limit < 1 then 5 else limit) with ⟨st1, l, _ | e⟩ <;>
    simp [post.Service.GetRecent, post.NewService, Repository.recording, h]

theorem Service_GetRecent_nonpositive {σ : Type} (s : post.Service σ) (st : σ) (limit : Int)
    (h : limit ≤ 0) : s.GetRecent st limit = s.GetRecent st 5 := by
  have h1 : limit < 1 := by omega
  simp [post.Service.GetRecent, h1]

/-! ## MongoRepository.GetPaginated -/

theorem wrapInt_of_range (x : Int) (h0 : 0 ≤ x) (h1 : x < 2 ^ 63) : postrepo.wrapInt x = x := by
  unfold postrepo.wrapInt
  omega

theorem normalPage_eq (page : Int) :
    (if page < 1 then 1 else page) = postrepo.normalPage page := by
  unfold postrepo.normalPage
  split_ifs <;> omega

theorem normalPageSize_eq (pageSize : Int) :
    (if pageSize < 1 then 9 else pageSize) = postrepo.normalPageSize pageSize := by
  unfold postrepo.normalPageSize
  split_ifs <;> omega

theorem normalPage_pos (page : Int) : 1 ≤ postrepo.normalPage page := by
  unfold postrepo.normalPage
  split_ifs <;> omega

theorem normalPageSize_pos (pageSize : Int) : 1 ≤ postrepo.normalPageSize pageSize := by
  unfold postrepo.normalPageSize
  split_ifs <;> omega

theorem applyLimit_of_pos (limit : Int) (docs : postrepo.Collection) (h : 1 ≤ limit) :
    postrepo.applyLimit limit docs = docs.take limit.toNat := by
  have h0 : limit ≠ 0 := by omega
  have h1 : limit.natAbs = limit.toNat := by omega
  simp [postrepo.applyLimit, h0, h1]

theorem GetPaginated_returned (faults : postrepo.Faults) (engine : postrepo.RegexEngine)
    (docs : postrepo.Collection) (page pageSize : Int) (search : String) (l : PostList)
    (h : postrepo.MongoRepository.GetPaginated faults engine docs page pageSize search
      = (some l, none)) :
    ∃ keep, (postrepo.searchFilter search).compile engine = some keep ∧
      0 ≤ postrepo.wrapInt ((postrepo.normalPage page - 1) * postrepo.normalPageSize pageSize) ∧
      l = ⟨postrepo.pageWindow keep docs
            (postrepo.wrapInt ((postrepo.normalPage page - 1) * postrepo.normalPageSize pageSize))
            (postrepo.normalPageSize pageSize),
          ((docs.filter keep).length : Int), postrepo.normalPage page,
          postrepo.normalPageSize pageSize⟩ := by
  obtain ⟨fc, ff, fa⟩ := faults
  unfold postrepo.MongoRepository.GetPaginated at h
  simp only [normalPage_eq, normalPageSize_eq] at h
  unfold postrepo.CountDocuments postrepo.Find postrepo.All at h
  cases hk : (postrepo.searchFilter search).compile engine with
  | none =>
    have hk2 := hk
    simp only [postrepo.searchFilter, ne_eq, ite_not] at hk2
    cases fc <;> simp [hk2] at h
  | some keep =>
    have hk2 := hk
    simp only [postrepo.searchFilter, ne_eq, ite_not] at hk2
    refine ⟨keep, rfl, ?_⟩
    cases fc with
    | some e => simp at h
    | none =>
      cases ff with
      | some e => simp [hk2] at h
      | none =>
        by_cases hs : postrepo.wrapInt
            ((postrepo.normalPage page - 1) * postrepo.normalPageSize pageSize) < 0
        · simp [hk2, hs] at h
        · cases fa with
          | some e => simp [hk2, hs] at h
          | none =>
            simp only [ne_eq, ite_not, hk2, Option.getD_some, hs, if_false, if_true] at h
            simp only [Prod.mk.injEq, Option.some.injEq, and_true] at h
            refine ⟨by omega, ?_⟩
            rw [← h, applyLimit_of_pos _ _ (normalPageSize_pos pageSize)]
            rfl

theorem GetPaginated_healthy (engine : postrepo.RegexEngine) (docs : postrepo.Collection)
    (page pageSize : Int) (search : String) (keep : Post → Bool)
    (hk : (postrepo.searchFilter search).compile engine = some keep)
    (hs : 0 ≤ postrepo.wrapInt
      ((postrepo.normalPage page - 1) * postrepo.normalPageSize pageSize)) :
    postrepo.MongoRepository.GetPaginated postrepo.Faults.healthy engine docs page pageSize search
      = (some ⟨postrepo.pageWindow keep docs
            (postrepo.wrapInt ((postrepo.normalPage page - 1) * postrepo.normalPageSize pageSize))
            (postrepo.normalPageSize pageSize),
          ((docs.filter keep).length : Int), postrepo.normalPage page,
          postrepo.normalPageSize pageSize⟩, none) := by
  have hk2 := hk
  simp only [postrepo.searchFilter, ne_eq, ite_not] at hk2
  have hs2 : ¬ postrepo.wrapInt
      ((postrepo.normalPage page - 1) * postrepo.normalPageSize pageSize) < 0 := by omega
  unfold postrepo.MongoRepository.GetPaginated
  simp only [normalPage_eq, normalPageSize_eq]
  unfold postrepo.CountDocuments postrepo.Find postrepo.All
  simp only [postrepo.Faults.healthy, ne_eq, ite_not, hk2, Option.getD_some, hs2, if_false,
    if_true]
  rw [applyLimit_of_pos _ _ (normalPageSize_pos pageSize)]
  rfl

theorem pageWindow_length (keep : Post → Bool) (docs : postrepo.Collection) (skip size : Int)
    (h0 : 0 ≤ skip) (h1 : 1 ≤ size) :
    ((postrepo.pageWindow keep docs skip size).length : Int)
      = min size (max 0 (((docs.filter keep).length : Int) - skip)) := by
  unfold postrepo.pageWindow postrepo.sortCreatedAtDesc
  rw [List.length_take, List.length_drop, List.length_insertionSort]
  omega

/-- C15: every `PostList` that `MongoRepository.GetPaginated` returns has
`Page = page` when `page ≥ 1` and 1 otherwise, `PageSize = pageSize` when
`pageSize ≥ 1` and 9 otherwise, and so `Page ≥ 1` and `PageSize ≥ 1`. -/
theorem GetPaginated_page_and_size_normalized (faults : postrepo.Faults)
    (engine : postrepo.RegexEngine) (docs : postrepo.Collection) (page pageSize : Int)
    (search : String) (l : PostList)
    (h : postrepo.MongoRepository.GetPaginated faults engine docs page pageSize search
      = (some l, none)) :
    l.Page = (if page ≥ 1 then page else 1) ∧
    l.PageSize = (if pageSize ≥ 1 then pageSize else 9) ∧
    1 ≤ l.Page ∧ 1 ≤ l.PageSize := by
  obtain ⟨keep, _, _, hl⟩ := GetPaginated_returned faults engine docs page pageSize search l h
  rw [hl]
  exact ⟨rfl, rfl, normalPage_pos page, normalPageSize_pos pageSize⟩

theorem GetPaginated_page_and_size_normalized_witness :
    postrepo.MongoRepository.GetPaginated postrepo.Faults.healthy postrepo.fragmentEngine
        [⟨1, "Test Title", "Test content", 1, 1⟩] 1 0 ""
      = (some ⟨[⟨1, "Test Title", "Test content", 1, 1⟩], 1, 1, 9⟩, none) ∧
    ((1 : Int) = (if (1 : Int) ≥ 1 then 1 else 1) ∧
      (9 : Int) = (if (0 : Int) ≥ 1 then 0 else 9) ∧ (1 : Int) ≤ 1 ∧ (1 : Int) ≤ 9) :=
  ⟨rfl, GetPaginated_page_and_size_normalized postrepo.Faults.healthy postrepo.fragmentEngine
    [⟨1, "Test Title", "Test content", 1, 1⟩] 1 0 ""
    ⟨[⟨1, "Test Title", "Test content", 1, 1⟩], 1, 1, 9⟩ rfl⟩

/-- C16, counterexample: with page 2^62 + 1 and page size 4 the product
(page - 1) * pageSize is 2^64, which wraps to 0 in a Go `int`; on a store of one
post `GetPaginated` returns that post, while the window that skips 2^64 posts is
empty and the count the claim gives is 0. -/
theorem GetPaginated_skip_wraps_around :
    postrepo.wrapInt ((postrepo.normalPage (2 ^ 62 + 1) - 1) * postrepo.normalPageSize 4) = 0 ∧
    postrepo.MongoRepository.GetPaginated postrepo.Faults.healthy postrepo.fragmentEngine
        [⟨1, "Test Title", "Test content", 1, 1⟩] (2 ^ 62 + 1) 4 ""
      = (some ⟨[⟨1, "Test Title", "Test content", 1, 1⟩], 1, 2 ^ 62 + 1, 4⟩, none) ∧
    postrepo.pageWindow (fun _ => true) [⟨1, "Test Title", "Test content", 1, 1⟩]
        ((postrepo.normalPage (2 ^ 62 + 1) - 1) * postrepo.normalPageSize 4)
        (postrepo.normalPageSize 4) = [] ∧
    min (postrepo.normalPageSize 4)
        (max 0 ((1 : Int) - (postrepo.normalPage (2 ^ 62 + 1) - 1) * postrepo.normalPageSize 4))
      = 0 :=
  ⟨by decide, rfl, by decide, by decide⟩

/-- C16, amended: when (page' - 1) * pageSize' is below 2^63 (page', pageSize'
the normalised values) and the store accepts the filter, `GetPaginated` on a
healthy store returns as Posts the window of the filter-matching posts sorted by
created_at descending that skips the first (page' - 1) * pageSize' and keeps at
most pageSize'; every list it returns, whatever the driver faults, has these
Posts; their number is min(pageSize', max(0, M - (page' - 1) * pageSize')) for M
matching posts. -/
theorem GetPaginated_returns_window (engine : postrepo.RegexEngine)
    (docs : postrepo.Collection) (page pageSize : Int) (search : String) (keep : Post → Bool)
    (hk : (postrepo.searchFilter search).compile engine = some keep)
    (hrange : (postrepo.normalPage page - 1) * postrepo.normalPageSize pageSize < 2 ^ 63) :
    postrepo.MongoRepository.GetPaginated postrepo.Faults.healthy engine docs page pageSize search
      = (some ⟨postrepo.pageWindow keep docs
            ((postrepo.normalPage page - 1) * postrepo.normalPageSize pageSize)
            (postrepo.normalPageSize pageSize),
          ((docs.filter keep).length : Int), postrepo.normalPage page,
          postrepo.normalPageSize pageSize⟩, none) ∧
    (∀ faults l,
      postrepo.MongoRepository.GetPaginated faults engine docs page pageSize search
        = (some l, none) →
      l.Posts = postrepo.pageWindow keep docs
        ((postrepo.normalPage page - 1) * postrepo.normalPageSize pageSize)
        (postrepo.normalPageSize pageSize)) ∧
    ((postrepo.pageWindow keep docs
        ((postrepo.normalPage page - 1) * postrepo.normalPageSize pageSize)
        (postrepo.normalPageSize pageSize)).length : Int)
      = min (postrepo.normalPageSize pageSize)
          (max 0 (((docs.filter keep).length : Int)
            - (postrepo.normalPage page - 1) * postrepo.normalPageSize pageSize)) := by
  have hp := normalPage_pos page
  have hz := normalPageSize_pos pageSize
  have h0 : 0 ≤ (postrepo.normalPage page - 1) * postrepo.normalPageSize pageSize :=
    mul_nonneg (by omega) (by omega)
  have hw := wrapInt_of_range _ h0 hrange
  refine ⟨?_, ?_, pageWindow_length keep docs _ _ h0 hz⟩
  · have h := GetPaginated_healthy engine docs page pageSize search keep hk (by rw [hw]; exact h0)
    rw [hw] at h
    exact h
  · intro faults l hl
    obtain ⟨keep2, hk2, _, hl2⟩ :=
      GetPaginated_returned faults engine docs page pageSize search l hl
    rw [hk] at hk2
    simp only [Option.some.injEq] at hk2
    subst hk2
    rw [hl2, hw]

theorem GetPaginated_returns_window_witness :
    ((postrepo.MongoRepository.GetPaginated postrepo.Faults.healthy postrepo.fragmentEngine
        postrepo.fifteenPosts 1 10 "").1.map (fun l => (l.Posts.length, l.TotalCount)))
      = some (10, 15) ∧
    ((postrepo.MongoRepository.GetPaginated postrepo.Faults.healthy postrepo.fragmentEngine
        postrepo.fifteenPosts 2 10 "").1.map (fun l => (l.Posts.map (fun p => p.CreatedAt))))
      = some [4, 3, 2, 1, 0] := by
  rw [(GetPaginated_returns_window postrepo.fragmentEngine postrepo.fifteenPosts 1 10 ""
      (fun _ => true) rfl (by decide)).1,
    (GetPaginated_returns_window postrepo.fragmentEngine postrepo.fifteenPosts 2 10 ""
      (fun _ => true) rfl (by decide)).1]
  exact ⟨by decide, by decide⟩

/-! ## TotalCount -/

/-- C17: the `TotalCount` of every list `GetPaginated` returns is the number of
stored posts the search filter keeps; two calls on the same store with the same
search return the same `TotalCount`, whatever their pages and page sizes. -/
theorem GetPaginated_total_count (engine : postrepo.RegexEngine) (docs : postrepo.Collection)
    (search : String) (faults1 faults2 : postrepo.Faults) (page1 pageSize1 page2 pageSize2 : Int)
    (l1 l2 : PostList)
    (h1 : postrepo.MongoRepository.GetPaginated faults1 engine docs page1 pageSize1 search
      = (some l1, none))
    (h2 : postrepo.MongoRepository.GetPaginated faults2 engine docs page2 pageSize2 search
      = (some l2, none)) :
    (∃ keep, (postrepo.searchFilter search).compile engine = some keep ∧
      l1.TotalCount = ((docs.filter keep).length : Int)) ∧
    l1.TotalCount = l2.TotalCount := by
  obtain ⟨keep1, hk1, _, hl1⟩ :=
    GetPaginated_returned faults1 engine docs page1 pageSize1 search l1 h1
  obtain ⟨keep2, hk2, _, hl2⟩ :=
    GetPaginated_returned faults2 engine docs page2 pageSize2 search l2 h2
  rw [hk1] at hk2
  simp only [Option.some.injEq] at hk2
  subst hk2
  refine ⟨⟨keep1, hk1, ?_⟩, ?_⟩
  · rw [hl1]
  · rw [hl1, hl2]

theorem GetPaginated_total_count_witness :
    (∃ keep, (postrepo.searchFilter "").compile postrepo.fragmentEngine = some keep ∧
      (15 : Int) = ((postrepo.fifteenPosts.filter keep).length : Int)) ∧
    (15 : Int) = 15 :=
  GetPaginated_total_count postrepo.fragmentEngine postrepo.fifteenPosts ""
    postrepo.Faults.healthy postrepo.Faults.healthy 1 10 7 10
    ⟨postrepo.pageWindow (fun _ => true) postrepo.fifteenPosts 0 10, 15, 1, 10⟩
    ⟨[], 15, 7, 10⟩ (by rfl) (by rfl)

/-! ## MongoRepository.GetRecent -/

theorem GetRecent_returned (faults : postrepo.Faults) (engine : postrepo.RegexEngine)
    (docs : postrepo.Collection) (limit : Int) (posts : List Post)
    (h : postrepo.MongoRepository.GetRecent faults engine docs limit = (some posts, none)) :
    posts = postrepo.applyLimit (if limit < 1 then 5 else limit)
      (postrepo.sortCreatedAtDesc docs) := by
  obtain ⟨fc, ff, fa⟩ := faults
  unfold postrepo.MongoRepository.GetRecent postrepo.Find postrepo.All at h
  cases ff with
  | some e => simp at h
  | none =>
    cases fa with
    | some e => simp [postrepo.Filter.compile] at h
    | none =>
      simp [postrepo.Filter.compile] at h
      exact h.symm

theorem GetRecent_healthy (engine : postrepo.RegexEngine) (docs : postrepo.Collection)
    (limit : Int) :
    postrepo.MongoRepository.GetRecent postrepo.Faults.healthy engine docs limit
      = (some (postrepo.applyLimit (if limit < 1 then 5 else limit)
          (postrepo.sortCreatedAtDesc docs)), none) := by
  unfold postrepo.MongoRepository.GetRecent postrepo.Find postrepo.All
  simp [postrepo.Faults.healthy, postrepo.Filter.compile]

theorem sortCreatedAtDesc_sorted (docs : postrepo.Collection) :
    (postrepo.sortCreatedAtDesc docs).Pairwise (fun a b => b.CreatedAt ≤ a.CreatedAt) := by
  haveI : IsTotal Post (fun a b => b.CreatedAt ≤ a.CreatedAt) :=
    ⟨fun a b => le_total b.CreatedAt a.CreatedAt⟩
  haveI : IsTrans Post (fun a b => b.CreatedAt ≤ a.CreatedAt) :=
    ⟨fun _ _ _ hab hbc => le_trans hbc hab⟩
  exact List.sorted_insertionSort (fun a b : Post => b.CreatedAt ≤ a.CreatedAt) docs

theorem sortCreatedAtDesc_perm (docs : postrepo.Collection) :
    (postrepo.sortCreatedAtDesc docs).Perm docs :=
  List.perm_insertionSort _ docs

/-- C19: for `limit ≥ 1`, `MongoRepository.GetRecent` on a healthy store
returns posts, and every list it returns, whatever the driver faults, has exactly
min(limit, N) posts for a store of N posts, is ordered by created_at descending
(no post is older than a post after it), and holds the posts with the greatest
created_at: together with some `rest` it is a rearrangement of the store, and no
post of `rest` is newer than a returned post. -/
theorem GetRecent_newest_first (engine : postrepo.RegexEngine) (docs : postrepo.Collection)
    (limit : Int) (hl : 1 ≤ limit) :
    (∃ posts, postrepo.MongoRepository.GetRecent postrepo.Faults.healthy engine docs limit
      = (some posts, none)) ∧
    (∀ faults posts,
      postrepo.MongoRepository.GetRecent faults engine docs limit = (some posts, none) →
      (posts.length : Int) = min limit (docs.length : Int) ∧
      posts.Pairwise (fun a b => b.CreatedAt ≤ a.CreatedAt) ∧
      ∃ rest, (posts ++ rest).Perm docs ∧
        ∀ a ∈ posts, ∀ b ∈ rest, b.CreatedAt ≤ a.CreatedAt) := by
  have hlim : (if limit < 1 then 5 else limit) = limit := by
    split_ifs <;> omega
  refine ⟨⟨_, GetRecent_healthy engine docs limit⟩, ?_⟩
  intro faults posts h
  have hp := GetRecent_returned faults engine docs limit posts h
  rw [hlim, applyLimit_of_pos _ _ hl] at hp
  have hsorted := sortCreatedAtDesc_sorted docs
  refine ⟨?_, ?_, (postrepo.sortCreatedAtDesc docs).drop limit.toNat, ?_, ?_⟩
  · rw [hp, List.length_take, (sortCreatedAtDesc_perm docs).length_eq]
    omega
  · rw [hp]
    exact hsorted.sublist (List.take_sublist _ _)
  · rw [hp, List.take_append_drop]
    exact sortCreatedAtDesc_perm docs
  · rw [hp]
    rw [← List.take_append_drop limit.toNat (postrepo.sortCreatedAtDesc docs)] at hsorted
    exact (List.pairwise_append.mp hsorted).2.2

theorem GetRecent_newest_first_witness :
    (∃ posts, postrepo.MongoRepository.GetRecent postrepo.Faults.healthy
      postrepo.fragmentEngine postrepo.fifteenPosts 5 = (some posts, none)) ∧
    ((postrepo.MongoRepository.GetRecent postrepo.Faults.healthy postrepo.fragmentEngine
        postrepo.fifteenPosts 5).1.map (fun posts => posts.map (fun p => p.CreatedAt)))
      = some [14, 13, 12, 11, 10] :=
  ⟨(GetRecent_newest_first postrepo.fragmentEngine postrepo.fifteenPosts 5 (by decide)).1,
   by rfl⟩

/-- C20: a limit of 0 or less behaves as 5 at both layers: `Service.GetRecent`
then calls `Repository.GetRecent` with 5 and returns what it returns for 5, and
`MongoRepository.GetRecent` returns what it returns for 5; for `limit ≥ 1` the
service calls the repository with `limit` itself and the MongoDB repository
returns the first `limit` posts of the newest-first order. -/
theorem GetRecent_default_limit {σ : Type} (s : post.Service σ) (st : σ)
    (faults : postrepo.Faults) (engine : postrepo.RegexEngine) (docs : postrepo.Collection)
    (limit : Int) :
    (limit ≤ 0 →
      ((post.NewService s.repo.recording).GetRecent (st, []) limit).1.2 = [Call.GetRecent 5] ∧
      s.GetRecent st limit = s.GetRecent st 5 ∧
      postrepo.MongoRepository.GetRecent faults engine docs limit
        = postrepo.MongoRepository.GetRecent faults engine docs 5) ∧
    (1 ≤ limit →
      ((post.NewService s.repo.recording).GetRecent (st, []) limit).1.2
        = [Call.GetRecent limit] ∧
      postrepo.MongoRepository.GetRecent postrepo.Faults.healthy engine docs limit
        = (some ((postrepo.sortCreatedAtDesc docs).take limit.toNat), none)) := by
  constructor
  · intro h
    have h1 : limit < 1 := by omega
    refine ⟨?_, Service_GetRecent_nonpositive s st limit h, ?_⟩
    · rw [Service_GetRecent_calls, if_pos h1]
    · unfold postrepo.MongoRepository.GetRecent
      simp [h1]
  · intro h
    have h1 : ¬ limit < 1 := by omega
    refine ⟨?_, ?_⟩
    · rw [Service_GetRecent_calls, if_neg h1]
    · rw [GetRecent_healthy, if_neg h1, applyLimit_of_pos _ _ h]

theorem GetRecent_default_limit_witness :
    (((post.NewService (post.NewService post.echoingMock.toRepository).repo.recording).GetRecent
        ((), []) 0).1.2 = [Call.GetRecent 5] ∧
      (post.NewService post.echoingMock.toRepository).GetRecent () 0
        = (post.NewService post.echoingMock.toRepository).GetRecent () 5 ∧
      postrepo.MongoRepository.GetRecent postrepo.Faults.healthy postrepo.fragmentEngine
          postrepo.fifteenPosts 0
        = postrepo.MongoRepository.GetRecent postrepo.Faults.healthy postrepo.fragmentEngine
          postrepo.fifteenPosts 5) ∧
    (((post.NewService (post.NewService post.echoingMock.toRepository).repo.recording).GetRecent
        ((), []) 3).1.2 = [Call.GetRecent 3] ∧
      postrepo.MongoRepository.GetRecent postrepo.Faults.healthy postrepo.fragmentEngine
          postrepo.fifteenPosts 3
        = (some ((postrepo.sortCreatedAtDesc postrepo.fifteenPosts).take (3 : Int).toNat),
            none)) :=
  ⟨(GetRecent_default_limit (post.NewService post.echoingMock.toRepository) ()
      postrepo.Faults.healthy postrepo.fragmentEngine postrepo.fifteenPosts 0).1 (by decide),
   (GetRecent_default_limit (post.NewService post.echoingMock.toRepository) ()
      postrepo.Faults.healthy postrepo.fragmentEngine postrepo.fifteenPosts 3).2 (by decide)⟩

/-! ## The search filter -/

theorem tokens_of_literal (cs : List Char) (h : ∀ c ∈ cs, c ∉ postrepo.metacharacters) :
    postrepo.tokens cs = some (cs.map (fun c => postrepo.Token.atom (postrepo.Atom.lit c))) := by
  induction cs with
  | nil => rfl
  | cons c rest ih =>
    have hc : c ∉ postrepo.metacharacters := h c (List.mem_cons_self _ _)
    have hrest := ih (fun d hd => h d (List.mem_cons_of_mem _ hd))
    have h1 : c ≠ '\\' := fun e => hc (by rw [e]; decide)
    have h2 : c ≠ '.' := fun e => hc (by rw [e]; decide)
    have h3 : c ≠ '*' := fun e => hc (by rw [e]; decide)
    unfold postrepo.tokens
    simp [h1, h2, h3, hc, hrest]

theorem pieces_of_literal (cs : List Char) :
    postrepo.pieces (cs.map (fun c => postrepo.Token.atom (postrepo.Atom.lit c)))
      = some (cs.map (fun c => (⟨postrepo.Atom.lit c, false⟩ : postrepo.Piece))) := by
  induction cs with
  | nil => rfl
  | cons c rest ih =>
    cases rest with
    | nil => rfl
    | cons d rest1 =>
      simp only [List.map_cons] at ih ⊢
      simp [postrepo.pieces, ih]

theorem matchHere_of_literal (cs : List Char) :
    ∀ ts, postrepo.matchHere (cs.map (fun c => (⟨postrepo.Atom.lit c, false⟩ : postrepo.Piece))) ts
      = postrepo.hasPrefixFold cs ts := by
  induction cs with
  | nil => intro ts; cases ts <;> rfl
  | cons c rest ih =>
    intro ts
    cases ts with
    | nil => rfl
    | cons t ts1 =>
      simp [postrepo.matchHere, postrepo.hasPrefixFold, postrepo.Atom.accepts, ih]

theorem matchAnywhere_of_literal (cs ts : List Char) :
    postrepo.matchAnywhere (cs.map (fun c => (⟨postrepo.Atom.lit c, false⟩ : postrepo.Piece))) ts
      = postrepo.containsFoldList cs ts := by
  induction ts with
  | nil => simp [postrepo.matchAnywhere, postrepo.containsFoldList, matchHere_of_literal]
  | cons t ts1 ih =>
    simp [postrepo.matchAnywhere, postrepo.containsFoldList, matchHere_of_literal, ih]

theorem fragmentEngine_of_literal (s : String)
    (h : ∀ c ∈ s.toList, c ∉ postrepo.metacharacters) :
    postrepo.fragmentEngine s = some (fun text => postrepo.containsFold s text) := by
  unfold postrepo.fragmentEngine
  rw [tokens_of_literal s.toList h]
  simp only [Option.some_bind, pieces_of_literal]
  congr 1
  funext text
  exact matchAnywhere_of_literal s.toList text.toList

/-- C18, the code at failing inputs: the search "." is read as a pattern that
accepts any character, so a post whose title and content hold no "." is matched
and returned; the search "t\.c" is read as the pattern for "t.c", so a post
whose content holds "t\.c" itself is not matched. -/
theorem search_is_read_as_a_pattern :
    (postrepo.containsFold "." "Test Title" = false ∧
      postrepo.containsFold "." "Test content" = false ∧
      postrepo.MongoRepository.GetPaginated postrepo.Faults.healthy postrepo.fragmentEngine
          [⟨1, "Test Title", "Test content", 1, 1⟩] 1 10 "."
        = (some ⟨[⟨1, "Test Title", "Test content", 1, 1⟩], 1, 1, 10⟩, none)) ∧
    (postrepo.containsFold "t\\.c" "Test\\.content" = true ∧
      postrepo.MongoRepository.GetPaginated postrepo.Faults.healthy postrepo.fragmentEngine
          [⟨1, "Test Title", "Test\\.content", 1, 1⟩] 1 10 "t\\.c"
        = (some ⟨[], 0, 1, 10⟩, none)) :=
  ⟨⟨by decide, by decide, rfl⟩, by decide, rfl⟩

/-! ## The skip offset -/

theorem skipOffset_eq (page pageSize : Int) :
    postrepo.skipOffset page pageSize
      = postrepo.wrapInt ((postrepo.normalPage page - 1) * postrepo.normalPageSize pageSize) := by
  unfold postrepo.skipOffset
  rw [normalPage_eq, normalPageSize_eq]

theorem GetPaginated_uses_skipOffset (faults : postrepo.Faults) (engine : postrepo.RegexEngine)
    (docs : postrepo.Collection) (page pageSize : Int) (search : String) (l : PostList)
    (h : postrepo.MongoRepository.GetPaginated faults engine docs page pageSize search
      = (some l, none)) :
    ∃ keep, (postrepo.searchFilter search).compile engine = some keep ∧
      0 ≤ postrepo.skipOffset page pageSize ∧
      l.Posts = postrepo.pageWindow keep docs (postrepo.skipOffset page pageSize)
        (postrepo.normalPageSize pageSize) := by
  obtain ⟨keep, hk, h0, hl⟩ := GetPaginated_returned faults engine docs page pageSize search l h
  refine ⟨keep, hk, ?_, ?_⟩
  · rw [skipOffset_eq]
    exact h0
  · rw [skipOffset_eq, hl]

/-- C30, counterexample: page 2^61 + 1 and page size 4 are values of a 64-bit
`int`; the exact product (page - 1) * pageSize is 2^63, the skip offset the code
computes is -2^63, negative, and `GetPaginated` fails on the store's refusal of
a negative skip. -/
theorem skipOffset_wraps_to_negative :
    (-(2 : Int) ^ 63 ≤ 2 ^ 61 + 1 ∧ (2 : Int) ^ 61 + 1 < 2 ^ 63) ∧
    (postrepo.normalPage (2 ^ 61 + 1) - 1) * postrepo.normalPageSize 4 = 2 ^ 63 ∧
    postrepo.skipOffset (2 ^ 61 + 1) 4 = -(2 ^ 63) ∧
    postrepo.MongoRepository.GetPaginated postrepo.Faults.healthy postrepo.fragmentEngine
        [⟨1, "Test Title", "Test content", 1, 1⟩] (2 ^ 61 + 1) 4 ""
      = (none, some (fmt.Errorf "failed to find posts"
          (Error.errorString "Skip value must be non-negative"))) :=
  ⟨by decide, by decide, by decide, rfl⟩

/-- C30, amended: for every page and page size whose exact product
(page' - 1) * pageSize' on the normalised values is below 2^63, the skip offset
`GetPaginated` computes is non-negative and equals that product. -/
theorem skipOffset_exact_in_range (page pageSize : Int)
    (hrange : (postrepo.normalPage page - 1) * postrepo.normalPageSize pageSize < 2 ^ 63) :
    0 ≤ postrepo.skipOffset page pageSize ∧
    postrepo.skipOffset page pageSize
      = (postrepo.normalPage page - 1) * postrepo.normalPageSize pageSize := by
  have hp := normalPage_pos page
  have hz := normalPageSize_pos pageSize
  have h0 : 0 ≤ (postrepo.normalPage page - 1) * postrepo.normalPageSize pageSize :=
    mul_nonneg (by omega) (by omega)
  rw [skipOffset_eq, wrapInt_of_range _ h0 hrange]
  exact ⟨h0, rfl⟩

theorem skipOffset_exact_in_range_witness :
    0 ≤ postrepo.skipOffset 2 10 ∧
    postrepo.skipOffset 2 10 = (postrepo.normalPage 2 - 1) * postrepo.normalPageSize 10 :=
  skipOffset_exact_in_range 2 10 (by decide)

/-! ## The two normalisations -/

theorem normalize_page_twice (x : Int) :
    (if (if x < 1 then 1 else x) < 1 then 1 else (if x < 1 then 1 else x))
      = (if x < 1 then 1 else x) := by
  split_ifs <;> omega

theorem normalize_pageSize_twice (x : Int) :
    (if (if x < 1 then 9 else x) < 1 then 9 else (if x < 1 then 9 else x))
      = (if x < 1 then 9 else x) := by
  split_ifs <;> omega

theorem normalize_limit_twice (x : Int) :
    (if (if x < 1 then 5 else x) < 1 then 5 else (if x < 1 then 5 else x))
      = (if x < 1 then 5 else x) := by
  split_ifs <;> omega

theorem GetPaginated_normalized_args (faults : postrepo.Faults) (engine : postrepo.RegexEngine)
    (docs : postrepo.Collection) (page pageSize : Int) (search : String) :
    postrepo.MongoRepository.GetPaginated faults engine docs (if page < 1 then 1 else page)
        (if pageSize < 1 then 9 else pageSize) search
      = postrepo.MongoRepository.GetPaginated faults engine docs page pageSize search := by
  unfold postrepo.MongoRepository.GetPaginated
  simp only [normalize_page_twice, normalize_pageSize_twice]

theorem GetRecent_normalized_args (faults : postrepo.Faults) (engine : postrepo.RegexEngine)
    (docs : postrepo.Collection) (limit : Int) :
    postrepo.MongoRepository.GetRecent faults engine docs (if limit < 1 then 5 else limit)
      = postrepo.MongoRepository.GetRecent faults engine docs limit := by
  unfold postrepo.MongoRepository.GetRecent
  simp only [normalize_limit_twice]

theorem GetPaginated_list_or_error (faults : postrepo.Faults) (engine : postrepo.RegexEngine)
    (docs : postrepo.Collection) (page pageSize : Int) (search : String) :
    (∃ l, postrepo.MongoRepository.GetPaginated faults engine docs page pageSize search
      = (some l, none)) ∨
    (∃ e, postrepo.MongoRepository.GetPaginated faults engine docs page pageSize search
      = (none, some e)) := by
  unfold postrepo.MongoRepository.GetPaginated
  simp only
  split
  · exact Or.inr ⟨_, rfl⟩
  · split
    · exact Or.inr ⟨_, rfl⟩
    · split
      · exact Or.inr ⟨_, rfl⟩
      · exact Or.inl ⟨_, rfl⟩

theorem GetRecent_list_or_error (faults : postrepo.Faults) (engine : postrepo.RegexEngine)
    (docs : postrepo.Collection) (limit : Int) :
    (∃ l, postrepo.MongoRepository.GetRecent faults engine docs limit = (some l, none)) ∨
    (∃ e, postrepo.MongoRepository.GetRecent faults engine docs limit = (none, some e)) := by
  unfold postrepo.MongoRepository.GetRecent
  simp only
  split
  · exact Or.inr ⟨_, rfl⟩
  · split
    · exact Or.inr ⟨_, rfl⟩
    · exact Or.inl ⟨_, rfl⟩

/-- C29: through `Service.GetPaginated` over the MongoDB repository the caller
gets the same `PostList` (or the same absence of one) as from
`MongoRepository.GetPaginated` called with the raw page and page size; the
repository gives the same result for the raw and for the normalised values; and
likewise for `GetRecent` with its default 5. The collection is left as it was. -/
theorem Service_over_Mongo_same_list (d : postrepo.Driver) (docs : postrepo.Collection)
    (page pageSize limit : Int) (search : String) :
    ((post.NewService (postrepo.MongoRepository.toRepository d)).GetPaginated docs page pageSize
        search).2.1
      = (postrepo.MongoRepository.GetPaginated d.reads d.engine docs page pageSize search).1 ∧
    postrepo.MongoRepository.GetPaginated d.reads d.engine docs (if page ≥ 1 then page else 1)
        (if pageSize ≥ 1 then pageSize else 9) search
      = postrepo.MongoRepository.GetPaginated d.reads d.engine docs page pageSize search ∧
    ((post.NewService (postrepo.MongoRepository.toRepository d)).GetRecent docs limit).2.1
      = (postrepo.MongoRepository.GetRecent d.reads d.engine docs limit).1 ∧
    postrepo.MongoRepository.GetRecent d.reads d.engine docs (if limit ≥ 1 then limit else 5)
      = postrepo.MongoRepository.GetRecent d.reads d.engine docs limit ∧
    ((post.NewService (postrepo.MongoRepository.toRepository d)).GetPaginated docs page pageSize
        search).1 = docs ∧
    ((post.NewService (postrepo.MongoRepository.toRepository d)).GetRecent docs limit).1
      = docs := by
  have hp : (if page ≥ 1 then page else 1) = (if page < 1 then 1 else page) := by
    split_ifs <;> omega
  have hs : (if pageSize ≥ 1 then pageSize else 9) = (if pageSize < 1 then 9 else pageSize) := by
    split_ifs <;> omega
  have hl : (if limit ≥ 1 then limit else 5) = (if limit < 1 then 5 else limit) := by
    split_ifs <;> omega
  rw [hp, hs, hl]
  have e1 := GetPaginated_normalized_args d.reads d.engine docs page pageSize search
  have e2 := GetRecent_normalized_args d.reads d.engine docs limit
  refine ⟨?_, e1, ?_, e2, ?_, ?_⟩
  · rcases GetPaginated_list_or_error d.reads d.engine docs page pageSize search with
      ⟨l, h⟩ | ⟨e, h⟩ <;>
      simp [post.Service.GetPaginated, post.NewService, postrepo.MongoRepository.toRepository,
        e1, h]
  · rcases GetRecent_list_or_error d.reads d.engine docs limit with ⟨l, h⟩ | ⟨e, h⟩ <;>
      simp [post.Service.GetRecent, post.NewService, postrepo.MongoRepository.toRepository,
        e2, h]
  · rcases GetPaginated_list_or_error d.reads d.engine docs page pageSize search with
      ⟨l, h⟩ | ⟨e, h⟩ <;>
      simp [post.Service.GetPaginated, post.NewService, postrepo.MongoRepository.toRepository,
        e1, h]
  · rcases GetRecent_list_or_error d.reads d.engine docs limit with ⟨l, h⟩ | ⟨e, h⟩ <;>
      simp [post.Service.GetRecent, post.NewService, postrepo.MongoRepository.toRepository,
        e2, h]

/-! ## TotalPages in the Index handler -/

theorem ediv_add_one_eq_ceil (T p : Int) (hp : 1 ≤ p) :
    (if T % p > 0 then T / p + 1 else T / p) = ⌈(T : ℚ) / (p : ℚ)⌉ := by
  have hp0 : (0 : ℚ) < (p : ℚ) := by exact_mod_cast (by omega : (0 : Int) < p)
  have hdecomp : T % p + p * (T / p) = T := Int.emod_add_ediv T p
  have hr0 : 0 ≤ T % p := Int.emod_nonneg T (by omega)
  have hr1 : T % p < p := Int.emod_lt_of_pos T (by omega)
  have hq : ((T % p : Int) : ℚ) + (p : ℚ) * ((T / p : Int) : ℚ) = (T : ℚ) := by
    exact_mod_cast hdecomp
  symm
  rw [Int.ceil_eq_iff]
  have hr0q : (0 : ℚ) ≤ ((T % p : Int) : ℚ) := by exact_mod_cast hr0
  have hr1q : ((T % p : Int) : ℚ) < (p : ℚ) := by exact_mod_cast hr1
  split_ifs with h
  · have hrq : (0 : ℚ) < ((T % p : Int) : ℚ) := by exact_mod_cast h
    constructor
    · rw [lt_div_iff₀ hp0]
      push_cast
      nlinarith
    · rw [div_le_iff₀ hp0]
      push_cast
      nlinarith
  · have hr : T % p = 0 := by omega
    have hrq : ((T % p : Int) : ℚ) = 0 := by exact_mod_cast hr
    constructor
    · rw [lt_div_iff₀ hp0]
      nlinarith
    · rw [div_le_iff₀ hp0]
      nlinarith

theorem ediv_lt_of_emod_pos (T p : Int) (h0 : 0 ≤ T) (hp : 1 ≤ p) (h : T % p > 0) :
    T / p < T := by
  have hdecomp : T % p + p * (T / p) = T := Int.emod_add_ediv T p
  have hq0 : 0 ≤ T / p := Int.ediv_nonneg h0 (by omega)
  have hp2 : 2 ≤ p := by
    by_contra hlt
    have : p = 1 := by omega
    subst this
    simp at h
  nlinarith

theorem totalPages_eq_ceil (T p : Int) (h0 : 0 ≤ T) (h1 : T < 2 ^ 63) (hp : 1 ≤ p) :
    (if Int.tmod T p > 0 then postrepo.wrapInt (Int.tdiv T p + 1) else Int.tdiv T p)
      = ⌈(T : ℚ) / (p : ℚ)⌉ := by
  rw [Int.tdiv_eq_ediv h0 (by omega), Int.tmod_eq_emod h0 (by omega),
    ← ediv_add_one_eq_ceil T p hp]
  split_ifs with h
  · have hlt := ediv_lt_of_emod_pos T p h0 hp h
    have hq0 : 0 ≤ T / p := Int.ediv_nonneg h0 (by omega)
    exact wrapInt_of_range _ (by omega) (by omega)
  · rfl

theorem queryPageSize_pos (r : posthandler.Request) : 1 ≤ posthandler.queryPageSize r := by
  unfold posthandler.queryPageSize
  split_ifs with h
  · split
    · split_ifs <;> omega
    · omega
  · omega

theorem Index_executed {σ : Type} (svc : posthandler.PostService σ) (st st1 : σ)
    (r : posthandler.Request) (template : String) (data : posthandler.IndexData)
    (h : posthandler.Handler.Index svc st r
      = (st1, Outcome.returned (posthandler.IndexResult.executed template data))) :
    ∃ l, (svc.GetPaginated st (posthandler.queryPage r) (posthandler.queryPageSize r)
        (r.Query "search")).2 = (some l, none) ∧
      data.TotalCount = l.TotalCount ∧ data.PageSize = l.PageSize ∧
      data.TotalPages
        = (if Int.tmod l.TotalCount (posthandler.queryPageSize r) > 0 then
            postrepo.wrapInt (Int.tdiv l.TotalCount (posthandler.queryPageSize r) + 1)
          else Int.tdiv l.TotalCount (posthandler.queryPageSize r)) := by
  have hz : posthandler.queryPageSize r ≠ 0 := by
    have := queryPageSize_pos r
    omega
  unfold posthandler.Handler.Index at h
  rcases hg : svc.GetPaginated st (posthandler.queryPage r) (posthandler.queryPageSize r)
    (r.Query "search") with ⟨st2, l, e⟩
  rcases hrec : svc.GetRecent st2 5 with ⟨st3, recent, e2⟩
  cases e with
  | some err => simp [hg] at h
  | none =>
    cases l with
    | none => simp [hg, hrec] at h
    | some l =>
      refine ⟨l, rfl, ?_⟩
      simp only [hg, hrec, hz, if_false] at h
      by_cases hx : r.Header "HX-Request" = "true"
      · simp only [hx, if_true, Prod.mk.injEq, Outcome.returned.injEq,
          posthandler.IndexResult.executed.injEq] at h
        obtain ⟨_, _, hd⟩ := h
        rw [← hd]
        exact ⟨rfl, rfl, rfl⟩
      · simp only [hx, if_false, Prod.mk.injEq, Outcome.returned.injEq,
          posthandler.IndexResult.executed.injEq] at h
        obtain ⟨_, _, hd⟩ := h
        rw [← hd]
        exact ⟨rfl, rfl, rfl⟩

theorem Index_panicked {σ : Type} (svc : posthandler.PostService σ) (st st1 : σ)
    (r : posthandler.Request)
    (h : posthandler.Handler.Index svc st r = (st1, Outcome.panicked)) :
    (svc.GetPaginated st (posthandler.queryPage r) (posthandler.queryPageSize r)
        (r.Query "search")).2 = (none, none) := by
  have hz : posthandler.queryPageSize r ≠ 0 := by
    have := queryPageSize_pos r
    omega
  unfold posthandler.Handler.Index at h
  rcases hg : svc.GetPaginated st (posthandler.queryPage r) (posthandler.queryPageSize r)
    (r.Query "search") with ⟨st2, l, e⟩
  rcases hrec : svc.GetRecent st2 5 with ⟨st3, recent, e2⟩
  cases e with
  | some err => simp [hg] at h
  | none =>
    cases l with
    | none => rfl
    | some l =>
      simp only [hg, hrec, hz, if_false] at h
      split_ifs at h <;> simp at h

theorem Service_GetPaginated_over_Mongo (d : postrepo.Driver) (docs : postrepo.Collection)
    (page pageSize : Int) (search : String) (l : PostList)
    (h : ((post.NewService (postrepo.MongoRepository.toRepository d)).GetPaginated docs page
      pageSize search).2 = (some l, none)) :
    postrepo.MongoRepository.GetPaginated d.reads d.engine docs page pageSize search
      = (some l, none) := by
  have e1 := GetPaginated_normalized_args d.reads d.engine docs page pageSize search
  rcases GetPaginated_list_or_error d.reads d.engine docs page pageSize search with
    ⟨l1, h1⟩ | ⟨e, h1⟩
  · simp [post.Service.GetPaginated, post.NewService, postrepo.MongoRepository.toRepository,
      e1, h1] at h
    rw [h1, h]
  · simp [post.Service.GetPaginated, post.NewService, postrepo.MongoRepository.toRepository,
      e1, h1] at h

/-- C21, counterexample: a service that returns `TotalCount` 10 and `PageSize`
10, asked without a `page_size` query value: the handler divides by its own page
size 9 and computes `TotalPages` 2, while the ceiling of 10 / 10, with the
`PageSize` of the returned list as divisor, is 1. -/
theorem Index_divides_by_its_own_page_size :
    posthandler.Handler.Index posthandler.tenPerPageMock.toPostService ()
        (posthandler.getRequest "1" "" "")
      = ((), Outcome.returned (posthandler.IndexResult.executed "index"
          ⟨[⟨1, "Test Post", "Test content", 0, 0⟩], 10, 1, 10, 2, "", none⟩)) ∧
    ⌈((10 : Int) : ℚ) / ((10 : Int) : ℚ)⌉ = 1 ∧
    ⌈((10 : Int) : ℚ) / ((9 : Int) : ℚ)⌉ = 2 := by
  refine ⟨rfl, ?_, ?_⟩
  · norm_num
  · rw [Int.ceil_eq_iff]
    norm_num

/-- C21, amended: whenever `Index` computes `TotalPages` from a total count `T`
with `0 ≤ T < 2^63`, the value is the ceiling of `T / pageSize`, where `pageSize`
is the handler's own page size (the `page_size` query value when it reads as a
positive `int`, otherwise 9); that divisor is at least 1, so `Index` never
divides by zero (it panics only on a nil list with a nil error); and when the
service is `Service` over the MongoDB repository, the handler's page size is the
`PageSize` of the returned list. -/
theorem Index_total_pages :
    (∀ (σ : Type) (svc : posthandler.PostService σ) (st st1 : σ) (r : posthandler.Request)
        (template : String) (data : posthandler.IndexData),
      posthandler.Handler.Index svc st r
        = (st1, Outcome.returned (posthandler.IndexResult.executed template data)) →
      0 ≤ data.TotalCount → data.TotalCount < 2 ^ 63 →
      1 ≤ posthandler.queryPageSize r ∧
      data.TotalPages = ⌈(data.TotalCount : ℚ) / (posthandler.queryPageSize r : ℚ)⌉) ∧
    (∀ (σ : Type) (svc : posthandler.PostService σ) (st st1 : σ) (r : posthandler.Request),
      posthandler.Handler.Index svc st r = (st1, Outcome.panicked) →
      (svc.GetPaginated st (posthandler.queryPage r) (posthandler.queryPageSize r)
        (r.Query "search")).2 = (none, none)) ∧
    (∀ (d : postrepo.Driver) (now : Time) (newID : ObjectID) (docs docs1 : postrepo.Collection)
        (r : posthandler.Request) (template : String) (data : posthandler.IndexData),
      posthandler.Handler.Index
          (posthandler.ofService (post.NewService (postrepo.MongoRepository.toRepository d))
            now newID) docs r
        = (docs1, Outcome.returned (posthandler.IndexResult.executed template data)) →
      data.PageSize = posthandler.queryPageSize r) := by
  refine ⟨?_, ?_, ?_⟩
  · intro σ svc st st1 r template data h h0 h1
    obtain ⟨l, _, hT, _, hP⟩ := Index_executed svc st st1 r template data h
    refine ⟨queryPageSize_pos r, ?_⟩
    rw [hP, hT]
    rw [hT] at h0 h1
    exact totalPages_eq_ceil l.TotalCount _ h0 h1 (queryPageSize_pos r)
  · intro σ svc st st1 r h
    exact Index_panicked svc st st1 r h
  · intro d now newID docs docs1 r template data h
    obtain ⟨l, hg, _, hS, _⟩ := Index_executed _ docs docs1 r template data h
    have hm := Service_GetPaginated_over_Mongo d docs (posthandler.queryPage r)
      (posthandler.queryPageSize r) (r.Query "search") l hg
    obtain ⟨keep, _, _, hl⟩ := GetPaginated_returned _ _ _ _ _ _ l hm
    have hpos := queryPageSize_pos r
    rw [hS, hl]
    show postrepo.normalPageSize (posthandler.queryPageSize r) = posthandler.queryPageSize r
    unfold postrepo.normalPageSize
    split_ifs <;> omega

set_option maxRecDepth 100000 in
theorem Index_total_pages_witness :
    posthandler.Handler.Index posthandler.healthyStack postrepo.fifteenPosts
        (posthandler.getRequest "2" "10" "")
      = (postrepo.fifteenPosts, Outcome.returned
          (posthandler.IndexResult.executed "index" posthandler.secondPageData)) ∧
    (1 ≤ posthandler.queryPageSize (posthandler.getRequest "2" "10" "") ∧
      posthandler.secondPageData.TotalPages
        = ⌈(posthandler.secondPageData.TotalCount : ℚ) /
            (posthandler.queryPageSize (posthandler.getRequest "2" "10" "") : ℚ)⌉) ∧
    posthandler.secondPageData.PageSize
      = posthandler.queryPageSize (posthandler.getRequest "2" "10" "") :=
  ⟨by rfl,
   Index_total_pages.1 postrepo.Collection posthandler.healthyStack postrepo.fifteenPosts
     postrepo.fifteenPosts (posthandler.getRequest "2" "10" "") "index"
     posthandler.secondPageData (by rfl) (by decide) (by decide),
   Index_total_pages.2.2 (postrepo.Driver.healthy 20 99 postrepo.fragmentEngine) 20 99
     postrepo.fifteenPosts postrepo.fifteenPosts (posthandler.getRequest "2" "10" "") "index"
     posthandler.secondPageData (by rfl)⟩

/-! ## Identifiers in hexadecimal -/

theorem hexValue_hexDigit (n : Nat) (h : n < 16) :
    primitive.hexValue (primitive.hexDigit n) = some n := by
  interval_cases n <;> rfl

theorem utf8Size_hexDigit (n : Nat) (h : n < 16) : (primitive.hexDigit n).utf8Size = 1 := by
  interval_cases n <;> rfl

theorem hexDecode_append_singleton (cs : List Char) (c : Char) :
    primitive.hexDecode (cs ++ [c])
      = (primitive.hexDecode cs).bind
          (fun a => (primitive.hexValue c).map (fun v => a * 16 + v)) := by
  unfold primitive.hexDecode
  rw [List.foldl_append]
  rfl

theorem hexDecode_hexDigits (width n : Nat) :
    primitive.hexDecode (primitive.hexDigits width n) = some (n % 16 ^ width) := by
  induction width generalizing n with
  | zero => simp [primitive.hexDigits, primitive.hexDecode, Nat.mod_one]
  | succ w ih =>
    rw [primitive.hexDigits, hexDecode_append_singleton, ih,
      hexValue_hexDigit _ (Nat.mod_lt _ (by decide))]
    simp only [Option.some_bind, Option.map_some', Option.some.injEq]
    rw [pow_succ, Nat.mul_comm (16 ^ w) 16, Nat.mod_mul]
    omega

theorem utf8ByteSize_go_append (xs ys : List Char) :
    String.utf8ByteSize.go (xs ++ ys) = String.utf8ByteSize.go xs + String.utf8ByteSize.go ys := by
  induction xs with
  | nil => simp [String.utf8ByteSize.go]
  | cons x xs ih =>
    show String.utf8ByteSize.go (xs ++ ys) + x.utf8Size
      = String.utf8ByteSize.go xs + x.utf8Size + String.utf8ByteSize.go ys
    rw [ih]
    omega

theorem utf8ByteSize_go_hexDigits (width n : Nat) :
    String.utf8ByteSize.go (primitive.hexDigits width n) = width := by
  induction width generalizing n with
  | zero => rfl
  | succ w ih =>
    rw [primitive.hexDigits, utf8ByteSize_go_append, ih]
    simp [String.utf8ByteSize.go, utf8Size_hexDigit _ (Nat.mod_lt n (by decide : 16 > 0))]

theorem len_Hex (id : ObjectID) : len (primitive.Hex id) = 24 :=
  utf8ByteSize_go_hexDigits 24 id

theorem ObjectIDFromHex_Hex (id : ObjectID) (h : id < 2 ^ 96) :
    primitive.ObjectIDFromHex (primitive.Hex id) = Except.ok id := by
  unfold primitive.ObjectIDFromHex
  rw [len_Hex]
  have hd : primitive.hexDecode (primitive.Hex id).toList = some id := by
    show primitive.hexDecode (primitive.hexDigits 24 id) = some id
    have hpow : (16 : Nat) ^ 24 = 2 ^ 96 := by norm_num
    rw [hexDecode_hexDigits, hpow, Nat.mod_eq_of_lt h]
  simp only [ne_eq, not_true_eq_false, if_false]
  rw [hd]

theorem hexValue_isSome_iff (c : Char) :
    (primitive.hexValue c).isSome = primitive.isHexDigit c := by
  unfold primitive.hexValue primitive.isHexDigit
  split_ifs with h1 h2 h3 <;> simp_all

theorem utf8Size_of_isHexDigit (c : Char) (h : primitive.isHexDigit c = true) :
    c.utf8Size = 1 := by
  have hle : c ≤ 'f' := by
    unfold primitive.isHexDigit at h
    simp only [Bool.or_eq_true, Bool.and_eq_true, decide_eq_true_eq] at h
    rcases h with (⟨_, h⟩ | ⟨_, h⟩) | ⟨_, h⟩
    · exact le_trans h (by decide)
    · exact h
    · exact le_trans h (by decide)
  have hv : c.val ≤ 0x7F := by
    have h1 : c.val.toNat ≤ 102 := hle
    show c.val.toNat ≤ 127
    omega
  simp [Char.utf8Size, hv]

theorem hexDecode_fold_isSome (cs : List Char) :
    ∀ acc : Option Nat,
      (cs.foldl (fun acc c => acc.bind (fun a => (primitive.hexValue c).map (fun v => a * 16 + v)))
        acc).isSome = (acc.isSome && cs.all primitive.isHexDigit) := by
  induction cs with
  | nil => intro acc; simp
  | cons c cs ih =>
    intro acc
    rw [List.foldl_cons, ih, List.all_cons, ← hexValue_isSome_iff]
    cases acc <;> cases primitive.hexValue c <;> simp

theorem hexDecode_isSome (cs : List Char) :
    (primitive.hexDecode cs).isSome = cs.all primitive.isHexDigit := by
  unfold primitive.hexDecode
  rw [hexDecode_fold_isSome]
  simp

theorem utf8ByteSize_go_of_hex (cs : List Char) (h : cs.all primitive.isHexDigit = true) :
    String.utf8ByteSize.go cs = cs.length := by
  induction cs with
  | nil => rfl
  | cons c cs ih =>
    simp only [List.all_cons, Bool.and_eq_true] at h
    simp only [String.utf8ByteSize.go, List.length_cons, ih h.2, utf8Size_of_isHexDigit c h.1]

theorem ObjectIDFromHex_ok_iff (id : String) :
    (∃ objID, primitive.ObjectIDFromHex id = Except.ok objID) ↔
      primitive.wellFormedID id = true := by
  unfold primitive.ObjectIDFromHex primitive.wellFormedID
  have hsome := hexDecode_isSome id.toList
  constructor
  · rintro ⟨objID, h⟩
    by_cases hl : len id = 24
    · rw [if_neg (not_not.mpr hl)] at h
      cases hd : primitive.hexDecode id.toList with
      | none => rw [hd] at h; cases h
      | some v =>
        rw [hd] at hsome
        have hall : id.toList.all primitive.isHexDigit = true := by simpa using hsome.symm
        have hlen := utf8ByteSize_go_of_hex id.toList hall
        have : id.length = 24 := by
          have h2 : len id = String.utf8ByteSize.go id.toList := rfl
          have h3 : id.length = id.toList.length := rfl
          omega
        rw [this, hall]
        rfl
    · rw [if_pos hl] at h
      cases h
  · intro h
    simp only [Bool.and_eq_true, beq_iff_eq] at h
    obtain ⟨hlen, hall⟩ := h
    have hgo := utf8ByteSize_go_of_hex id.toList hall
    have hl : len id = 24 := by
      have h2 : len id = String.utf8ByteSize.go id.toList := rfl
      have h3 : id.length = id.toList.length := rfl
      omega
    rw [hall] at hsome
    cases hd : primitive.hexDecode id.toList with
    | none => rw [hd] at hsome; simp at hsome
    | some v => exact ⟨v, by rw [if_neg (not_not.mpr hl)]⟩

/-! ## Deleting and fetching one document -/

theorem deleteFirst_of_absent (id : ObjectID) (docs : postrepo.Collection)
    (h : ∀ d ∈ docs, d.ID ≠ id) : postrepo.deleteFirst id docs = (docs, 0) := by
  induction docs with
  | nil => rfl
  | cons d ds ih =>
    have hd : d.ID ≠ id := h d (List.mem_cons_self _ _)
    have hds := ih (fun x hx => h x (List.mem_cons_of_mem _ hx))
    simp [postrepo.deleteFirst, hd, hds]

theorem deleteFirst_of_present (id : ObjectID) (docs : postrepo.Collection)
    (hu : (docs.map Post.ID).Nodup) (h : ∃ d ∈ docs, d.ID = id) :
    postrepo.deleteFirst id docs = (docs.filter (fun d => decide (d.ID ≠ id)), 1) := by
  induction docs with
  | nil => simp at h
  | cons d ds ih =>
    simp only [List.map_cons, List.nodup_cons, List.mem_map, not_exists, not_and] at hu
    by_cases hd : d.ID = id
    · have hrest : ∀ x ∈ ds, x.ID ≠ id := fun x hx hxid => hu.1 x hx (hxid.trans hd.symm)
      have hf : ds.filter (fun d => decide (d.ID ≠ id)) = ds :=
        List.filter_eq_self.mpr (fun x hx => by simpa using hrest x hx)
      have hfd : (d :: ds).filter (fun d => decide (d.ID ≠ id)) = ds := by
        rw [List.filter_cons_of_neg (by simp [hd]), hf]
      rw [hfd]
      simp [postrepo.deleteFirst, hd]
    · have hin : ∃ x ∈ ds, x.ID = id := by
        obtain ⟨x, hx, hxid⟩ := h
        rcases List.mem_cons.mp hx with rfl | hx
        · exact absurd hxid hd
        · exact ⟨x, hx, hxid⟩
      simp [postrepo.deleteFirst, hd, ih hu.2 hin]

theorem deleteFirst_count (id : ObjectID) (docs : postrepo.Collection) :
    ((postrepo.deleteFirst id docs).2 = 0 ∧ ∀ d ∈ docs, d.ID ≠ id) ∨
    ((postrepo.deleteFirst id docs).2 = 1 ∧ ∃ d ∈ docs, d.ID = id) := by
  induction docs with
  | nil => left; simp [postrepo.deleteFirst]
  | cons d ds ih =>
    by_cases hd : d.ID = id
    · right
      exact ⟨by simp [postrepo.deleteFirst, hd], d, List.mem_cons_self _ _, hd⟩
    · rcases ih with ⟨h0, hall⟩ | ⟨h1, x, hx, hxid⟩
      · left
        refine ⟨by simp [postrepo.deleteFirst, hd, h0], ?_⟩
        intro x hx
        rcases List.mem_cons.mp hx with rfl | hx
        · exact hd
        · exact hall x hx
      · right
        exact ⟨by simp [postrepo.deleteFirst, hd, h1], x, List.mem_cons_of_mem _ hx, hxid⟩

theorem find_of_absent (id : ObjectID) (docs : postrepo.Collection)
    (h : ∀ d ∈ docs, d.ID ≠ id) : docs.find? (fun d => d.ID == id) = none := by
  rw [List.find?_eq_none]
  intro x hx
  simpa using h x hx

theorem GetByID_of_malformed (fault : Option Error) (docs : postrepo.Collection) (id : String)
    (e : Error) (h : primitive.ObjectIDFromHex id = Except.error e) :
    postrepo.MongoRepository.GetByID fault docs id
      = (none, some (fmt.Errorf "invalid id format" e)) := by
  simp [postrepo.MongoRepository.GetByID, h]

theorem Delete_of_malformed (fault : Option Error) (docs : postrepo.Collection) (id : String)
    (e : Error) (h : primitive.ObjectIDFromHex id = Except.error e) :
    postrepo.MongoRepository.Delete fault docs id
      = (docs, some (fmt.Errorf "invalid id format" e)) := by
  simp [postrepo.MongoRepository.Delete, h]

theorem GetByID_of_absent (docs : postrepo.Collection) (id : String) (objID : ObjectID)
    (h : primitive.ObjectIDFromHex id = Except.ok objID) (ha : ∀ d ∈ docs, d.ID ≠ objID) :
    postrepo.MongoRepository.GetByID none docs id
      = (none, some (Error.errorString "post not found")) := by
  simp [postrepo.MongoRepository.GetByID, h, postrepo.FindOne, find_of_absent objID docs ha]

theorem Delete_of_absent (docs : postrepo.Collection) (id : String) (objID : ObjectID)
    (h : primitive.ObjectIDFromHex id = Except.ok objID) (ha : ∀ d ∈ docs, d.ID ≠ objID) :
    postrepo.MongoRepository.Delete none docs id
      = (docs, some (Error.errorString "post not found")) := by
  simp [postrepo.MongoRepository.Delete, h, postrepo.DeleteOne,
    deleteFirst_of_absent objID docs ha]

theorem Delete_succeeded (fault : Option Error) (docs docs1 : postrepo.Collection) (id : String)
    (h : postrepo.MongoRepository.Delete fault docs id = (docs1, none)) :
    fault = none ∧ ∃ objID, primitive.ObjectIDFromHex id = Except.ok objID ∧
      (∃ d ∈ docs, d.ID = objID) ∧ docs1 = (postrepo.deleteFirst objID docs).1 := by
  unfold postrepo.MongoRepository.Delete at h
  cases hx : primitive.ObjectIDFromHex id with
  | error e => simp [hx] at h
  | ok objID =>
    cases fault with
    | some e => simp [hx, postrepo.DeleteOne] at h
    | none =>
      refine ⟨rfl, objID, rfl, ?_⟩
      rcases deleteFirst_count objID docs with ⟨h0, _⟩ | ⟨h1, hex⟩
      · simp [hx, postrepo.DeleteOne, h0] at h
      · refine ⟨hex, ?_⟩
        rcases hdf : postrepo.deleteFirst objID docs with ⟨ds, n⟩
        rw [hdf] at h1
        simp only at h1
        subst h1
        simp [hx, postrepo.DeleteOne, hdf] at h
        exact h.symm

/-- C22: with the stored identifiers pairwise distinct (the store is a map
from identifier to post), after `MongoRepository.Delete(id)` has returned nil,
`GetByID(id)` and a second `Delete(id)` on a healthy store both fail with the
error "post not found", and under any driver fault they fail as well; the
collection after the delete is the collection before it without the post of that
identifier, every other post as it was. -/
theorem Delete_then_not_found (fault : Option Error) (docs docs1 : postrepo.Collection)
    (id : String) (hu : (docs.map Post.ID).Nodup)
    (h : postrepo.MongoRepository.Delete fault docs id = (docs1, none)) :
    postrepo.MongoRepository.GetByID none docs1 id
      = (none, some (Error.errorString "post not found")) ∧
    postrepo.MongoRepository.Delete none docs1 id
      = (docs1, some (Error.errorString "post not found")) ∧
    (∀ fault2, (postrepo.MongoRepository.GetByID fault2 docs1 id).1 = none ∧
      (postrepo.MongoRepository.GetByID fault2 docs1 id).2 ≠ none ∧
      (postrepo.MongoRepository.Delete fault2 docs1 id).1 = docs1 ∧
      (postrepo.MongoRepository.Delete fault2 docs1 id).2 ≠ none) ∧
    ∃ objID, primitive.ObjectIDFromHex id = Except.ok objID ∧
      (∃ d ∈ docs, d.ID = objID) ∧
      docs1 = docs.filter (fun d => decide (d.ID ≠ objID)) := by
  obtain ⟨_, objID, hx, hex, hd⟩ := Delete_succeeded fault docs docs1 id h
  rw [deleteFirst_of_present objID docs hu hex] at hd
  simp only at hd
  have habs : ∀ d ∈ docs1, d.ID ≠ objID := by
    intro d hdm
    rw [hd] at hdm
    simpa using (List.mem_filter.mp hdm).2
  refine ⟨GetByID_of_absent docs1 id objID hx habs, Delete_of_absent docs1 id objID hx habs,
    ?_, objID, hx, hex, hd⟩
  intro fault2
  cases fault2 with
  | none =>
    rw [GetByID_of_absent docs1 id objID hx habs, Delete_of_absent docs1 id objID hx habs]
    simp
  | some e =>
    refine ⟨?_, ?_, ?_, ?_⟩
    · simp only [postrepo.MongoRepository.GetByID, hx, postrepo.FindOne]
      split_ifs <;> rfl
    · simp only [postrepo.MongoRepository.GetByID, hx, postrepo.FindOne]
      split_ifs <;> simp
    · simp [postrepo.MongoRepository.Delete, hx, postrepo.DeleteOne]
    · simp [postrepo.MongoRepository.Delete, hx, postrepo.DeleteOne]

theorem Delete_then_not_found_witness :
    postrepo.MongoRepository.GetByID none [⟨254, "Other Title", "Other content", 1, 1⟩]
        "0000000000000000000000ff"
      = (none, some (Error.errorString "post not found")) ∧
    postrepo.MongoRepository.Delete none [⟨254, "Other Title", "Other content", 1, 1⟩]
        "0000000000000000000000ff"
      = ([⟨254, "Other Title", "Other content", 1, 1⟩],
          some (Error.errorString "post not found")) :=
  have h := Delete_then_not_found none
    [⟨254, "Other Title", "Other content", 1, 1⟩, ⟨255, "Test Title", "Test content", 2, 2⟩]
    [⟨254, "Other Title", "Other content", 1, 1⟩] "0000000000000000000000ff"
    (by decide) (by rfl)
  ⟨h.1, h.2.1⟩

/-! ## MongoRepository.Create -/

theorem Create_of_invalid (fault : Option Error) (generated : ObjectID)
    (docs : postrepo.Collection) (p : Post) (e : Error) (h : p.Validate = some e) :
    postrepo.MongoRepository.Create fault generated docs p
      = (docs, p, some (fmt.Errorf "invalid post" e)) := by
  simp [postrepo.MongoRepository.Create, h]

theorem Create_of_duplicate (generated : ObjectID) (docs : postrepo.Collection) (p : Post)
    (hv : p.Validate = none)
    (hdup : ∃ d ∈ docs, d.ID = (if primitive.IsZero p.ID then generated else p.ID)) :
    postrepo.MongoRepository.Create none generated docs p
      = (docs, p, some (fmt.Errorf "failed to insert post"
          (Error.errorString "E11000 duplicate key error"))) := by
  have hany : docs.any (fun d => d.ID == (if primitive.IsZero p.ID then generated else p.ID))
      = true := by
    rw [List.any_eq_true]
    obtain ⟨d, hd, hid⟩ := hdup
    exact ⟨d, hd, by simpa using hid⟩
  simp only [postrepo.MongoRepository.Create, hv, postrepo.InsertOne, hany, if_true]

theorem Create_of_fresh (generated : ObjectID) (docs : postrepo.Collection) (p : Post)
    (hv : p.Validate = none)
    (hfresh : ∀ d ∈ docs, d.ID ≠ (if primitive.IsZero p.ID then generated else p.ID)) :
    postrepo.MongoRepository.Create none generated docs p
      = (docs ++ [{ p with ID := (if primitive.IsZero p.ID then generated else p.ID) }],
          { p with ID := (if primitive.IsZero p.ID then generated else p.ID) }, none) := by
  have hany : docs.any (fun d => d.ID == (if primitive.IsZero p.ID then generated else p.ID))
      = false := by
    rw [List.any_eq_false]
    intro d hd
    simpa using hfresh d hd
  simp only [postrepo.MongoRepository.Create, hv, postrepo.InsertOne, hany]
  rfl

theorem Create_of_fault (fault : Error) (generated : ObjectID) (docs : postrepo.Collection)
    (p : Post) (hv : p.Validate = none) :
    postrepo.MongoRepository.Create (some fault) generated docs p
      = (docs, p, some (fmt.Errorf "failed to insert post" fault)) := by
  simp only [postrepo.MongoRepository.Create, hv, postrepo.InsertOne]

/-- C26: `MongoRepository.Create(post)` with a post that fails `Validate`
returns the validation error wrapped and leaves the collection as it was; on a
healthy store, when a document already has the identifier the post is to be
stored under (its own, or the generated one when its own is zero) it fails and
leaves the collection as it was; otherwise it adds exactly one document, the post
under that identifier, and sets `post.ID` to it, which is the post's own
identifier when that was not zero; creating the returned post a second time
fails and leaves the collection as it was, generated identifiers being
non-zero. -/
theorem Create_inserts_once (generated generated2 : ObjectID) (docs : postrepo.Collection)
    (p : Post) (hgen : generated ≠ 0) :
    (∀ fault e, p.Validate = some e →
      postrepo.MongoRepository.Create fault generated docs p
        = (docs, p, some (fmt.Errorf "invalid post" e)) ∧
      errors.Is (fmt.Errorf "invalid post" e) e = true) ∧
    (p.Validate = none →
      (∃ d ∈ docs, d.ID = (if primitive.IsZero p.ID then generated else p.ID)) →
      (postrepo.MongoRepository.Create none generated docs p).1 = docs ∧
      (postrepo.MongoRepository.Create none generated docs p).2.2 ≠ none) ∧
    (p.Validate = none →
      (∀ d ∈ docs, d.ID ≠ (if primitive.IsZero p.ID then generated else p.ID)) →
      ∃ stored : Post,
        postrepo.MongoRepository.Create none generated docs p = (docs ++ [stored], stored, none) ∧
        stored.Title = p.Title ∧ stored.Content = p.Content ∧
        stored.CreatedAt = p.CreatedAt ∧ stored.UpdatedAt = p.UpdatedAt ∧
        (p.ID ≠ 0 → stored.ID = p.ID) ∧ (p.ID = 0 → stored.ID = generated) ∧
        (postrepo.MongoRepository.Create none generated2 (docs ++ [stored]) stored).1
          = docs ++ [stored] ∧
        (postrepo.MongoRepository.Create none generated2 (docs ++ [stored]) stored).2.2
          ≠ none) := by
  refine ⟨?_, ?_, ?_⟩
  · intro fault e he
    exact ⟨Create_of_invalid fault generated docs p e he, errors_Is_Errorf _ _⟩
  · intro hv hdup
    rw [Create_of_duplicate generated docs p hv hdup]
    simp
  · intro hv hfresh
    refine ⟨{ p with ID := (if primitive.IsZero p.ID then generated else p.ID) },
      Create_of_fresh generated docs p hv hfresh, rfl, rfl, rfl, rfl, ?_, ?_, ?_⟩
    · intro hne
      simp [primitive.IsZero, hne]
    · intro h0
      simp [primitive.IsZero, h0]
    · have hnz : (if primitive.IsZero p.ID then generated else p.ID) ≠ 0 := by
        unfold primitive.IsZero
        by_cases h0 : p.ID = 0
        · simp [h0, hgen]
        · simp [h0]
      have hz : primitive.IsZero (if primitive.IsZero p.ID then generated else p.ID) = false := by
        simpa [primitive.IsZero] using hnz
      have hv2 : Post.Validate
          { p with ID := (if primitive.IsZero p.ID then generated else p.ID) } = none := hv
      have hdup : ∃ d ∈ docs ++ [{ p with ID := (if primitive.IsZero p.ID then generated else p.ID) }],
          d.ID = (if primitive.IsZero
              ({ p with ID := (if primitive.IsZero p.ID then generated else p.ID) } : Post).ID
            then generated2
            else ({ p with ID := (if primitive.IsZero p.ID then generated else p.ID) } : Post).ID) := by
        refine ⟨_, List.mem_append_right _ (List.mem_singleton_self _), ?_⟩
        show _ = (if primitive.IsZero (if primitive.IsZero p.ID then generated else p.ID)
          then generated2 else (if primitive.IsZero p.ID then generated else p.ID))
        rw [hz]
        rfl
      rw [Create_of_duplicate generated2 _ _ hv2 hdup]
      simp

theorem Create_inserts_once_witness :
    ∃ stored : Post,
      postrepo.MongoRepository.Create none 99 [⟨254, "Other Title", "Other content", 1, 1⟩]
          ⟨255, "Test Title", "Test content", 2, 2⟩
        = ([⟨254, "Other Title", "Other content", 1, 1⟩] ++ [stored], stored, none) ∧
      stored.Title = "Test Title" ∧ stored.Content = "Test content" ∧
      stored.CreatedAt = 2 ∧ stored.UpdatedAt = 2 ∧
      ((255 : ObjectID) ≠ 0 → stored.ID = 255) ∧ ((255 : ObjectID) = 0 → stored.ID = 99) ∧
      (postrepo.MongoRepository.Create none 100
          ([⟨254, "Other Title", "Other content", 1, 1⟩] ++ [stored]) stored).1
        = [⟨254, "Other Title", "Other content", 1, 1⟩] ++ [stored] ∧
      (postrepo.MongoRepository.Create none 100
          ([⟨254, "Other Title", "Other content", 1, 1⟩] ++ [stored]) stored).2.2 ≠ none :=
  (Create_inserts_once 99 100 [⟨254, "Other Title", "Other content", 1, 1⟩]
    ⟨255, "Test Title", "Test content", 2, 2⟩ (by decide)).2.2 (by rfl) (by decide)

/-! ## Malformed and missing identifiers -/

theorem ObjectIDFromHex_error_cases (id : String) (e : Error)
    (h : primitive.ObjectIDFromHex id = Except.error e) :
    e = primitive.ErrInvalidHex ∨ e = primitive.InvalidByteError := by
  unfold primitive.ObjectIDFromHex at h
  split_ifs at h with hl
  · left
    cases h
    rfl
  · split at h
    · right
      cases h
      rfl
    · cases h

theorem ObjectIDFromHex_of_malformed (id : String) (h : primitive.wellFormedID id = false) :
    ∃ e, primitive.ObjectIDFromHex id = Except.error e := by
  cases hx : primitive.ObjectIDFromHex id with
  | error e => exact ⟨e, rfl⟩
  | ok objID =>
    have := (ObjectIDFromHex_ok_iff id).mp ⟨objID, hx⟩
    rw [this] at h
    cases h

/-- C24: for an identifier that is not 24 hexadecimal characters, `GetByID`
and `Delete` fail with the error "invalid id format" wrapping the parse error,
whatever the state of the driver and with the collection untouched; for an
identifier of 24 hexadecimal characters under which no post is stored they fail,
on a healthy store, with the error "post not found"; the two errors are
different values, the parse error is found by `errors.Is` in the first and not
in the second. -/
theorem malformed_and_missing_ids_differ (docs : postrepo.Collection) (id : String) :
    (primitive.wellFormedID id = false →
      ∃ e, primitive.ObjectIDFromHex id = Except.error e ∧
        (∀ fault, postrepo.MongoRepository.GetByID fault docs id
            = (none, some (fmt.Errorf "invalid id format" e)) ∧
          postrepo.MongoRepository.Delete fault docs id
            = (docs, some (fmt.Errorf "invalid id format" e))) ∧
        fmt.Errorf "invalid id format" e ≠ Error.errorString "post not found" ∧
        errors.Is (fmt.Errorf "invalid id format" e) e = true ∧
        errors.Is (Error.errorString "post not found") e = false ∧
        errors.Is (fmt.Errorf "invalid id format" e) (Error.errorString "post not found")
          = false) ∧
    (primitive.wellFormedID id = true →
      ∃ objID, primitive.ObjectIDFromHex id = Except.ok objID ∧
        ((∀ d ∈ docs, d.ID ≠ objID) →
          postrepo.MongoRepository.GetByID none docs id
            = (none, some (Error.errorString "post not found")) ∧
          postrepo.MongoRepository.Delete none docs id
            = (docs, some (Error.errorString "post not found")))) := by
  constructor
  · intro h
    obtain ⟨e, he⟩ := ObjectIDFromHex_of_malformed id h
    refine ⟨e, he, fun fault => ⟨GetByID_of_malformed fault docs id e he,
      Delete_of_malformed fault docs id e he⟩, ?_, errors_Is_Errorf _ _, ?_, ?_⟩
    · simp [fmt.Errorf]
    · rcases ObjectIDFromHex_error_cases id e he with rfl | rfl <;> decide
    · rcases ObjectIDFromHex_error_cases id e he with rfl | rfl <;> decide
  · intro h
    obtain ⟨objID, hx⟩ := (ObjectIDFromHex_ok_iff id).mpr h
    exact ⟨objID, hx, fun ha => ⟨GetByID_of_absent docs id objID hx ha,
      Delete_of_absent docs id objID hx ha⟩⟩

theorem malformed_and_missing_ids_differ_witness :
    (∃ e, primitive.ObjectIDFromHex "nonexistent" = Except.error e ∧
        (∀ fault, postrepo.MongoRepository.GetByID fault
              [⟨254, "Other Title", "Other content", 1, 1⟩] "nonexistent"
            = (none, some (fmt.Errorf "invalid id format" e)) ∧
          postrepo.MongoRepository.Delete fault
              [⟨254, "Other Title", "Other content", 1, 1⟩] "nonexistent"
            = ([⟨254, "Other Title", "Other content", 1, 1⟩],
                some (fmt.Errorf "invalid id format" e))) ∧
        fmt.Errorf "invalid id format" e ≠ Error.errorString "post not found" ∧
        errors.Is (fmt.Errorf "invalid id format" e) e = true ∧
        errors.Is (Error.errorString "post not found") e = false ∧
        errors.Is (fmt.Errorf "invalid id format" e) (Error.errorString "post not found")
          = false) ∧
    postrepo.MongoRepository.GetByID none [⟨254, "Other Title", "Other content", 1, 1⟩]
        "0000000000000000000000ff"
      = (none, some (Error.errorString "post not found")) :=
  ⟨(malformed_and_missing_ids_differ [⟨254, "Other Title", "Other content", 1, 1⟩]
      "nonexistent").1 (by decide),
   by rfl⟩

/-! ## Round trip -/

theorem find_after_append (docs : postrepo.Collection) (p : Post)
    (hfresh : ∀ d ∈ docs, d.ID ≠ p.ID) :
    (docs ++ [p]).find? (fun d => d.ID == p.ID) = some p := by
  rw [List.find?_append, find_of_absent p.ID docs hfresh]
  simp

/-- For a title and content whose lengths in bytes pass the rules, a fresh
non-zero identifier below 2^96 from `primitive.NewObjectID()` and a healthy
driver, `Service.Create` over the MongoDB repository returns a post, and
`GetByID` with the hex form of that post's ID returns a post with the same ID,
the supplied title and content, and `CreatedAt = UpdatedAt`. -/
theorem Create_then_GetByID (d : postrepo.Driver) (now : Time) (newID : ObjectID)
    (docs : postrepo.Collection) (title content : String)
    (ht : 3 ≤ len title ∧ len title ≤ 200) (hc : 10 ≤ len content)
    (hid : newID < 2 ^ 96) (hnz : newID ≠ 0) (hfresh : ∀ x ∈ docs, x.ID ≠ newID)
    (hins : d.InsertOne = none) (hfind : d.FindOne = none) :
    ∃ docs1 created found,
      (post.NewService (postrepo.MongoRepository.toRepository d)).Create now newID docs
          title content = (docs1, some created, none) ∧
      ((post.NewService (postrepo.MongoRepository.toRepository d)).GetByID docs1
          (primitive.Hex created.ID)).2 = (some found, none) ∧
      found.ID = created.ID ∧ found.Title = title ∧ found.Content = content ∧
      found.CreatedAt = found.UpdatedAt := by
  have hv := validatePostData_valid title content ht hc
  have hz : primitive.IsZero newID = false := by simpa [primitive.IsZero] using hnz
  have hpv : Post.Validate ⟨newID, title, content, now, now⟩ = none := hv
  have hfr : ∀ x ∈ docs, x.ID ≠
      (if primitive.IsZero (⟨newID, title, content, now, now⟩ : Post).ID then d.generated
        else (⟨newID, title, content, now, now⟩ : Post).ID) := by
    intro x hx
    show x.ID ≠ (if primitive.IsZero newID then d.generated else newID)
    rw [hz]
    exact hfresh x hx
  have hcreate := Create_of_fresh d.generated docs ⟨newID, title, content, now, now⟩ hpv hfr
  have hstored : ({ (⟨newID, title, content, now, now⟩ : Post) with
      ID := (if primitive.IsZero (⟨newID, title, content, now, now⟩ : Post).ID then d.generated
        else (⟨newID, title, content, now, now⟩ : Post).ID) } : Post)
      = ⟨newID, title, content, now, now⟩ := by
    show (⟨if primitive.IsZero newID then d.generated else newID, title, content, now, now⟩ : Post)
      = _
    rw [hz]
    rfl
  rw [hstored] at hcreate
  refine ⟨docs ++ [⟨newID, title, content, now, now⟩], ⟨newID, title, content, now, now⟩,
    ⟨newID, title, content, now, now⟩, ?_, ?_, rfl, rfl, rfl, rfl⟩
  · simp [post.Service.Create, post.NewService, postrepo.MongoRepository.toRepository,
      NewPost_eq_of_valid now newID title content hv, hins, hcreate]
  · have hf := find_after_append docs ⟨newID, title, content, now, now⟩ hfresh
    simp [post.Service.GetByID, post.NewService, postrepo.MongoRepository.toRepository,
      postrepo.MongoRepository.GetByID, ObjectIDFromHex_Hex newID hid, hfind,
      postrepo.FindOne, hf]

theorem Create_then_GetByID_witness :
    ∃ docs1 created found,
      (post.NewService (postrepo.MongoRepository.toRepository
          (postrepo.Driver.healthy 20 99 postrepo.fragmentEngine))).Create 5 255
          [⟨254, "Other Title", "Other content", 1, 1⟩] "Test Title" "Test content"
        = (docs1, some created, none) ∧
      ((post.NewService (postrepo.MongoRepository.toRepository
          (postrepo.Driver.healthy 20 99 postrepo.fragmentEngine))).GetByID docs1
          (primitive.Hex created.ID)).2 = (some found, none) ∧
      found.ID = created.ID ∧ found.Title = "Test Title" ∧ found.Content = "Test content" ∧
      found.CreatedAt = found.UpdatedAt :=
  Create_then_GetByID (postrepo.Driver.healthy 20 99 postrepo.fragmentEngine) 5 255
    [⟨254, "Other Title", "Other content", 1, 1⟩] "Test Title" "Test content"
    (by decide) (by decide) (by decide) (by decide) (by decide) rfl rfl

/-- C23, the code at a failing input: a title of 101 letters "é" has between 3
and 200 characters but 202 bytes; with a content of 13 characters, a healthy
driver and an empty collection, `Service.Create` returns no post and the error
"failed to create post" wrapping `ErrInvalidTitle`, and stores nothing, so
there is no created post to read back. -/
theorem Create_fails_for_title_valid_in_characters :
    (String.mk (List.replicate 101 'é')).length = 101 ∧
    len (String.mk (List.replicate 101 'é')) = 202 ∧
    "Valid content".length = 13 ∧
    (post.NewService (postrepo.MongoRepository.toRepository
        (postrepo.Driver.healthy 20 99 postrepo.fragmentEngine))).Create 5 255 []
        (String.mk (List.replicate 101 'é')) "Valid content" =
      ([], none, some (fmt.Errorf "failed to create post" Error.ErrInvalidTitle)) :=
  ⟨by decide, by decide, by decide, rfl⟩

/-! ## MongoRepository.Update -/

theorem setFirst_of_absent (id : ObjectID) (title content : String) (updatedAt : Time)
    (docs : postrepo.Collection) (h : ∀ d ∈ docs, d.ID ≠ id) :
    postrepo.setFirst id title content updatedAt docs = (docs, 0) := by
  induction docs with
  | nil => rfl
  | cons d ds ih =>
    have hd : d.ID ≠ id := h d (List.mem_cons_self _ _)
    have hds := ih (fun x hx => h x (List.mem_cons_of_mem _ hx))
    simp [postrepo.setFirst, hd, hds]

theorem setFirst_of_present (id : ObjectID) (title content : String) (updatedAt : Time)
    (docs : postrepo.Collection) (hu : (docs.map Post.ID).Nodup) (h : ∃ d ∈ docs, d.ID = id) :
    postrepo.setFirst id title content updatedAt docs
      = (docs.map (fun d =>
          if d.ID = id then ⟨d.ID, title, content, d.CreatedAt, updatedAt⟩ else d), 1) := by
  induction docs with
  | nil => simp at h
  | cons d ds ih =>
    simp only [List.map_cons, List.nodup_cons, List.mem_map, not_exists, not_and] at hu
    by_cases hd : d.ID = id
    · have hrest : ∀ x ∈ ds, x.ID ≠ id := fun x hx hxid => hu.1 x hx (hxid.trans hd.symm)
      have hm : ds.map (fun d =>
          if d.ID = id then (⟨d.ID, title, content, d.CreatedAt, updatedAt⟩ : Post) else d) = ds := by
        conv_rhs => rw [← List.map_id ds]
        apply List.map_congr_left
        intro x hx
        simp [hrest x hx]
      rw [List.map_cons, hm]
      simp [postrepo.setFirst, hd]
    · have hin : ∃ x ∈ ds, x.ID = id := by
        obtain ⟨x, hx, hxid⟩ := h
        rcases List.mem_cons.mp hx with rfl | hx
        · exact absurd hxid hd
        · exact ⟨x, hx, hxid⟩
      rw [List.map_cons]
      simp [postrepo.setFirst, hd, ih hu.2 hin]

/-- C25: `MongoRepository.Update(post)` with a post that fails `Validate`
returns the validation error wrapped, with the collection and the post
(UpdatedAt included) as they were. Otherwise it stamps `post.UpdatedAt = now`;
on a healthy store with pairwise distinct identifiers it then replaces title,
content and updated_at of the document with `post.ID`, leaving that document's
_id and created_at and every other document as they were, and returns nil; and
when no document has that ID it returns "post not found" with the collection as
it was. -/
theorem Update_writes_three_fields (now : Time) (docs : postrepo.Collection) (p : Post)
    (hu : (docs.map Post.ID).Nodup) :
    (∀ fault e, p.Validate = some e →
      postrepo.MongoRepository.Update now fault docs p
        = (docs, p, some (fmt.Errorf "invalid post" e)) ∧
      errors.Is (fmt.Errorf "invalid post" e) e = true) ∧
    (p.Validate = none → ∀ fault,
      (postrepo.MongoRepository.Update now fault docs p).2.1
        = ⟨p.ID, p.Title, p.Content, p.CreatedAt, now⟩) ∧
    (p.Validate = none → (∃ d ∈ docs, d.ID = p.ID) →
      postrepo.MongoRepository.Update now none docs p
        = (docs.map (fun d =>
            if d.ID = p.ID then ⟨d.ID, p.Title, p.Content, d.CreatedAt, now⟩ else d),
          ⟨p.ID, p.Title, p.Content, p.CreatedAt, now⟩, none)) ∧
    (p.Validate = none → (∀ d ∈ docs, d.ID ≠ p.ID) →
      postrepo.MongoRepository.Update now none docs p
        = (docs, ⟨p.ID, p.Title, p.Content, p.CreatedAt, now⟩,
            some (Error.errorString "post not found"))) := by
  refine ⟨?_, ?_, ?_, ?_⟩
  · intro fault e he
    exact ⟨by simp [postrepo.MongoRepository.Update, he], errors_Is_Errorf _ _⟩
  · intro hv fault
    unfold postrepo.MongoRepository.Update
    simp only [hv]
    split
    · rfl
    · split <;> rfl
  · intro hv hex
    simp [postrepo.MongoRepository.Update, hv, postrepo.UpdateOne,
      setFirst_of_present p.ID p.Title p.Content now docs hu hex]
  · intro hv habs
    simp [postrepo.MongoRepository.Update, hv, postrepo.UpdateOne,
      setFirst_of_absent p.ID p.Title p.Content now docs habs]

theorem Update_writes_three_fields_witness :
    postrepo.MongoRepository.Update 9 none
        [⟨254, "Other Title", "Other content", 1, 1⟩, ⟨255, "Test Title", "Test content", 2, 2⟩]
        ⟨255, "Updated Title", "Updated content", 7, 7⟩
      = ([⟨254, "Other Title", "Other content", 1, 1⟩,
            ⟨255, "Updated Title", "Updated content", 2, 9⟩],
          ⟨255, "Updated Title", "Updated content", 7, 9⟩, none) ∧
    postrepo.MongoRepository.Update 9 none [⟨254, "Other Title", "Other content", 1, 1⟩]
        ⟨255, "Updated Title", "Updated content", 7, 7⟩
      = ([⟨254, "Other Title", "Other content", 1, 1⟩],
          ⟨255, "Updated Title", "Updated content", 7, 9⟩,
          some (Error.errorString "post not found")) :=
  ⟨(Update_writes_three_fields 9
      [⟨254, "Other Title", "Other content", 1, 1⟩, ⟨255, "Test Title", "Test content", 2, 2⟩]
      ⟨255, "Updated Title", "Updated content", 7, 7⟩ (by decide)).2.2.1 (by rfl)
      ⟨⟨255, "Test Title", "Test content", 2, 2⟩, by decide, rfl⟩,
   (Update_writes_three_fields 9 [⟨254, "Other Title", "Other content", 1, 1⟩]
      ⟨255, "Updated Title", "Updated content", 7, 7⟩ (by decide)).2.2.2 (by rfl)
      (by decide)⟩

/-! ## An expired deadline -/

theorem errors_Is_wrap (msg : String) (inner target : Error)
    (h : errors.Is inner target = true) : errors.Is (fmt.Errorf msg inner) target = true := by
  simp [fmt.Errorf, errors.Is, h]

theorem expired_Create_eq (now : Time) (generated : ObjectID) (engine : postrepo.RegexEngine)
    (docs : postrepo.Collection) (p : Post) :
    (postrepo.expiredRepository now generated engine).Create docs p
      = (docs, p, some (match p.Validate with
          | some e => fmt.Errorf "invalid post" e
          | none => fmt.Errorf "failed to insert post" postrepo.DeadlineExceeded)) := by
  cases hv : p.Validate <;>
    simp [postrepo.expiredRepository, postrepo.MongoRepository.toRepository,
      postrepo.Driver.expired, postrepo.MongoRepository.Create, postrepo.InsertOne, hv]

theorem expired_Update_eq (now : Time) (generated : ObjectID) (engine : postrepo.RegexEngine)
    (docs : postrepo.Collection) (p : Post) :
    (postrepo.expiredRepository now generated engine).Update docs p
      = (match p.Validate with
          | some e => (docs, p, some (fmt.Errorf "invalid post" e))
          | none => (docs, ⟨p.ID, p.Title, p.Content, p.CreatedAt, now⟩,
              some (fmt.Errorf "failed to update post" postrepo.DeadlineExceeded))) := by
  cases hv : p.Validate <;>
    simp [postrepo.expiredRepository, postrepo.MongoRepository.toRepository,
      postrepo.Driver.expired, postrepo.MongoRepository.Update, postrepo.UpdateOne, hv]

theorem expired_GetByID_eq (now : Time) (generated : ObjectID) (engine : postrepo.RegexEngine)
    (docs : postrepo.Collection) (id : String) :
    (postrepo.expiredRepository now generated engine).GetByID docs id
      = (docs, none, some (match primitive.ObjectIDFromHex id with
          | Except.error e => fmt.Errorf "invalid id format" e
          | Except.ok _ => fmt.Errorf "failed to find post" postrepo.DeadlineExceeded)) := by
  have hne : postrepo.DeadlineExceeded ≠ Error.ErrNoDocuments := by decide
  cases hx : primitive.ObjectIDFromHex id <;>
    simp [postrepo.expiredRepository, postrepo.MongoRepository.toRepository,
      postrepo.Driver.expired, postrepo.MongoRepository.GetByID, postrepo.FindOne, hx, hne]

theorem expired_Delete_eq (now : Time) (generated : ObjectID) (engine : postrepo.RegexEngine)
    (docs : postrepo.Collection) (id : String) :
    (postrepo.expiredRepository now generated engine).Delete docs id
      = (docs, some (match primitive.ObjectIDFromHex id with
          | Except.error e => fmt.Errorf "invalid id format" e
          | Except.ok _ => fmt.Errorf "failed to delete post" postrepo.DeadlineExceeded)) := by
  cases hx : primitive.ObjectIDFromHex id <;>
    simp [postrepo.expiredRepository, postrepo.MongoRepository.toRepository,
      postrepo.Driver.expired, postrepo.MongoRepository.Delete, postrepo.DeleteOne, hx]

theorem expired_reads_eq (now : Time) (generated : ObjectID) (engine : postrepo.RegexEngine)
    (docs : postrepo.Collection) (page pageSize limit : Int) (search : String) :
    (postrepo.expiredRepository now generated engine).GetAll docs
      = (docs, none, some (fmt.Errorf "failed to find posts" postrepo.DeadlineExceeded)) ∧
    (postrepo.expiredRepository now generated engine).GetPaginated docs page pageSize search
      = (docs, none, some (fmt.Errorf "failed to count documents" postrepo.DeadlineExceeded)) ∧
    (postrepo.expiredRepository now generated engine).GetRecent docs limit
      = (docs, none,
          some (fmt.Errorf "failed to find recent posts" postrepo.DeadlineExceeded)) := by
  refine ⟨?_, ?_, ?_⟩
  · simp [postrepo.expiredRepository, postrepo.MongoRepository.toRepository,
      postrepo.Driver.expired, postrepo.MongoRepository.GetAll, postrepo.Find]
  · simp [postrepo.expiredRepository, postrepo.MongoRepository.toRepository,
      postrepo.Driver.expired, postrepo.MongoRepository.GetPaginated, postrepo.CountDocuments]
  · simp [postrepo.expiredRepository, postrepo.MongoRepository.toRepository,
      postrepo.Driver.expired, postrepo.MongoRepository.GetRecent, postrepo.Find]

theorem timedOut_Errorf (msg : String) :
    postrepo.timedOut (some (fmt.Errorf msg postrepo.DeadlineExceeded)) :=
  ⟨_, rfl, errors_Is_Errorf msg _⟩

theorem timedOut_Errorf_Errorf (msg1 msg2 : String) :
    postrepo.timedOut
      (some (fmt.Errorf msg1 (fmt.Errorf msg2 postrepo.DeadlineExceeded))) :=
  ⟨_, rfl, errors_Is_wrap msg1 _ _ (errors_Is_Errorf msg2 _)⟩

/-- C27, counterexample: with an expired deadline, `GetByID` of the identifier
"test" (the one the repository's own timeout test uses) fails with the error
"invalid id format", which has no `context.DeadlineExceeded` in its chain; and
`Service.Create` of the title "A" fails with `ErrInvalidTitle` wrapped, likewise
no timeout. -/
theorem expired_deadline_invalid_input_error :
    (postrepo.expiredRepository 9 99 postrepo.fragmentEngine).GetByID
        [⟨255, "Test Title", "Test content", 1, 1⟩] "test"
      = ([⟨255, "Test Title", "Test content", 1, 1⟩], none,
          some (fmt.Errorf "invalid id format" primitive.ErrInvalidHex)) ∧
    errors.Is (fmt.Errorf "invalid id format" primitive.ErrInvalidHex)
      postrepo.DeadlineExceeded = false ∧
    (postrepo.expiredService 9 99 postrepo.fragmentEngine).Create 5 7
        [⟨255, "Test Title", "Test content", 1, 1⟩] "A" "Test content"
      = ([⟨255, "Test Title", "Test content", 1, 1⟩], none,
          some (fmt.Errorf "failed to create post" Error.ErrInvalidTitle)) ∧
    errors.Is (fmt.Errorf "failed to create post" Error.ErrInvalidTitle)
      postrepo.DeadlineExceeded = false :=
  ⟨rfl, by decide, rfl, by decide⟩

/-- C27, amended: with an already-expired deadline every repository and
service operation fails and leaves the stored posts as they were; the error has
`context.DeadlineExceeded` in its chain, except when the operation rejects its
input before it reaches the store: a post, or a title and content, that fails
validation (`Create`, `Update` of the repository, `Create` of the service) gives
the validation error, and an identifier that is not 24 hexadecimal characters
(`GetByID`, `Delete`, and `Update` of the service) gives the invalid-id
error. -/
theorem expired_deadline_fails_without_writing (now : Time) (generated : ObjectID)
    (engine : postrepo.RegexEngine) (docs : postrepo.Collection) (p : Post)
    (id title content search : String) (page pageSize limit : Int) (clock : Time)
    (newID : ObjectID) :
    (((postrepo.expiredRepository now generated engine).Create docs p).1 = docs ∧
      (p.Validate = none →
        postrepo.timedOut ((postrepo.expiredRepository now generated engine).Create docs p).2.2) ∧
      (∀ e, p.Validate = some e →
        ((postrepo.expiredRepository now generated engine).Create docs p).2.2
          = some (fmt.Errorf "invalid post" e))) ∧
    (((postrepo.expiredRepository now generated engine).GetAll docs).1 = docs ∧
      ((postrepo.expiredRepository now generated engine).GetAll docs).2.1 = none ∧
      postrepo.timedOut ((postrepo.expiredRepository now generated engine).GetAll docs).2.2) ∧
    (((postrepo.expiredRepository now generated engine).GetByID docs id).1 = docs ∧
      ((postrepo.expiredRepository now generated engine).GetByID docs id).2.1 = none ∧
      (primitive.wellFormedID id = true →
        postrepo.timedOut
          ((postrepo.expiredRepository now generated engine).GetByID docs id).2.2) ∧
      (primitive.wellFormedID id = false →
        ∃ e, primitive.ObjectIDFromHex id = Except.error e ∧
          ((postrepo.expiredRepository now generated engine).GetByID docs id).2.2
            = some (fmt.Errorf "invalid id format" e))) ∧
    (((postrepo.expiredRepository now generated engine).Update docs p).1 = docs ∧
      (p.Validate = none →
        postrepo.timedOut ((postrepo.expiredRepository now generated engine).Update docs p).2.2) ∧
      (∀ e, p.Validate = some e →
        ((postrepo.expiredRepository now generated engine).Update docs p).2.2
          = some (fmt.Errorf "invalid post" e))) ∧
    (((postrepo.expiredRepository now generated engine).Delete docs id).1 = docs ∧
      (primitive.wellFormedID id = true →
        postrepo.timedOut ((postrepo.expiredRepository now generated engine).Delete docs id).2) ∧
      (primitive.wellFormedID id = false →
        ∃ e, primitive.ObjectIDFromHex id = Except.error e ∧
          ((postrepo.expiredRepository now generated engine).Delete docs id).2
            = some (fmt.Errorf "invalid id format" e))) ∧
    (((postrepo.expiredRepository now generated engine).GetPaginated docs page pageSize
          search).1 = docs ∧
      ((postrepo.expiredRepository now generated engine).GetPaginated docs page pageSize
          search).2.1 = none ∧
      postrepo.timedOut ((postrepo.expiredRepository now generated engine).GetPaginated docs
          page pageSize search).2.2) ∧
    (((postrepo.expiredRepository now generated engine).GetRecent docs limit).1 = docs ∧
      ((postrepo.expiredRepository now generated engine).GetRecent docs limit).2.1 = none ∧
      postrepo.timedOut
        ((postrepo.expiredRepository now generated engine).GetRecent docs limit).2.2) ∧
    (((postrepo.expiredService now generated engine).Create clock newID docs title content).1
        = docs ∧
      ((postrepo.expiredService now generated engine).Create clock newID docs title
          content).2.1 = none ∧
      (validatePostData title content = none →
        postrepo.timedOut ((postrepo.expiredService now generated engine).Create clock newID
          docs title content).2.2) ∧
      (∀ e, validatePostData title content = some e →
        ((postrepo.expiredService now generated engine).Create clock newID docs title
          content).2.2 = some (fmt.Errorf "failed to create post" e))) ∧
    (((postrepo.expiredService now generated engine).GetAll docs).1 = docs ∧
      ((postrepo.expiredService now generated engine).GetAll docs).2.1 = none ∧
      postrepo.timedOut ((postrepo.expiredService now generated engine).GetAll docs).2.2) ∧
    (((postrepo.expiredService now generated engine).GetByID docs id).1 = docs ∧
      ((postrepo.expiredService now generated engine).GetByID docs id).2.1 = none ∧
      (primitive.wellFormedID id = true →
        postrepo.timedOut ((postrepo.expiredService now generated engine).GetByID docs id).2.2) ∧
      (primitive.wellFormedID id = false →
        ∃ e, primitive.ObjectIDFromHex id = Except.error e ∧
          ((postrepo.expiredService now generated engine).GetByID docs id).2.2
            = some (fmt.Errorf "failed to get post" (fmt.Errorf "invalid id format" e)))) ∧
    (((postrepo.expiredService now generated engine).Update clock docs id title content).1
        = docs ∧
      (primitive.wellFormedID id = true →
        ∃ r, ((postrepo.expiredService now generated engine).Update clock docs id title
            content).2 = Outcome.returned (some r) ∧
          errors.Is r postrepo.DeadlineExceeded = true) ∧
      (primitive.wellFormedID id = false →
        ∃ e, primitive.ObjectIDFromHex id = Except.error e ∧
          ((postrepo.expiredService now generated engine).Update clock docs id title
            content).2 = Outcome.returned (some (fmt.Errorf "failed to get post for update"
              (fmt.Errorf "invalid id format" e))))) ∧
    (((postrepo.expiredService now generated engine).Delete docs id).1 = docs ∧
      (primitive.wellFormedID id = true →
        postrepo.timedOut ((postrepo.expiredService now generated engine).Delete docs id).2) ∧
      (primitive.wellFormedID id = false →
        ∃ e, primitive.ObjectIDFromHex id = Except.error e ∧
          ((postrepo.expiredService now generated engine).Delete docs id).2
            = some (fmt.Errorf "failed to delete post" (fmt.Errorf "invalid id format" e)))) ∧
    (((postrepo.expiredService now generated engine).GetPaginated docs page pageSize
          search).1 = docs ∧
      ((postrepo.expiredService now generated engine).GetPaginated docs page pageSize
          search).2.1 = none ∧
      postrepo.timedOut ((postrepo.expiredService now generated engine).GetPaginated docs page
          pageSize search).2.2) ∧
    (((postrepo.expiredService now generated engine).GetRecent docs limit).1 = docs ∧
      ((postrepo.expiredService now generated engine).GetRecent docs limit).2.1 = none ∧
      postrepo.timedOut
        ((postrepo.expiredService now generated engine).GetRecent docs limit).2.2) := by
  have hreads := fun pg ps lim =>
    expired_reads_eq now generated engine docs pg ps lim search
  have hwf : primitive.wellFormedID id = true →
      ∃ objID, primitive.ObjectIDFromHex id = Except.ok objID :=
    fun h => (ObjectIDFromHex_ok_iff id).mpr h
  have hmal := ObjectIDFromHex_of_malformed id
  refine ⟨⟨?_, ?_, ?_⟩, ⟨?_, ?_, ?_⟩, ⟨?_, ?_, ?_, ?_⟩, ⟨?_, ?_, ?_⟩, ⟨?_, ?_, ?_⟩,
    ⟨?_, ?_, ?_⟩, ⟨?_, ?_, ?_⟩, ⟨?_, ?_, ?_, ?_⟩, ⟨?_, ?_, ?_⟩, ⟨?_, ?_, ?_, ?_⟩,
    ⟨?_, ?_, ?_⟩, ⟨?_, ?_, ?_⟩, ⟨?_, ?_, ?_⟩, ⟨?_, ?_, ?_⟩⟩
  -- repository Create
  · rw [expired_Create_eq]
  · intro hv
    rw [expired_Create_eq, hv]
    exact timedOut_Errorf _
  · intro e hv
    rw [expired_Create_eq, hv]
  -- repository GetAll
  · rw [(hreads page pageSize limit).1]
  · rw [(hreads page pageSize limit).1]
  · rw [(hreads page pageSize limit).1]
    exact timedOut_Errorf _
  -- repository GetByID
  · rw [expired_GetByID_eq]
  · rw [expired_GetByID_eq]
  · intro h
    obtain ⟨objID, hx⟩ := hwf h
    rw [expired_GetByID_eq, hx]
    exact timedOut_Errorf _
  · intro h
    obtain ⟨e, hx⟩ := hmal h
    exact ⟨e, hx, by rw [expired_GetByID_eq, hx]⟩
  -- repository Update
  · rw [expired_Update_eq]
    cases p.Validate <;> rfl
  · intro hv
    rw [expired_Update_eq, hv]
    exact timedOut_Errorf _
  · intro e hv
    rw [expired_Update_eq, hv]
  -- repository Delete
  · rw [expired_Delete_eq]
  · intro h
    obtain ⟨objID, hx⟩ := hwf h
    rw [expired_Delete_eq, hx]
    exact timedOut_Errorf _
  · intro h
    obtain ⟨e, hx⟩ := hmal h
    exact ⟨e, hx, by rw [expired_Delete_eq, hx]⟩
  -- repository GetPaginated
  · rw [(hreads page pageSize limit).2.1]
  · rw [(hreads page pageSize limit).2.1]
  · rw [(hreads page pageSize limit).2.1]
    exact timedOut_Errorf _
  -- repository GetRecent
  · rw [(hreads page pageSize limit).2.2]
  · rw [(hreads page pageSize limit).2.2]
  · rw [(hreads page pageSize limit).2.2]
    exact timedOut_Errorf _
  -- service Create
  · cases hv : validatePostData title content with
    | some e =>
      simp [postrepo.expiredService, post.NewService, post.Service.Create,
        NewPost_eq_of_invalid clock newID title content e hv]
    | none =>
      have hp : Post.Validate ⟨newID, title, content, clock, clock⟩ = none := hv
      simp [postrepo.expiredService, post.NewService, post.Service.Create,
        NewPost_eq_of_valid clock newID title content hv, expired_Create_eq, hp]
  · cases hv : validatePostData title content with
    | some e =>
      simp [postrepo.expiredService, post.NewService, post.Service.Create,
        NewPost_eq_of_invalid clock newID title content e hv]
    | none =>
      have hp : Post.Validate ⟨newID, title, content, clock, clock⟩ = none := hv
      simp [postrepo.expiredService, post.NewService, post.Service.Create,
        NewPost_eq_of_valid clock newID title content hv, expired_Create_eq, hp]
  · intro hv
    have hp : Post.Validate ⟨newID, title, content, clock, clock⟩ = none := hv
    simp only [postrepo.expiredService, post.NewService, post.Service.Create,
      NewPost_eq_of_valid clock newID title content hv, expired_Create_eq, hp]
    exact timedOut_Errorf_Errorf _ _
  · intro e hv
    simp [postrepo.expiredService, post.NewService, post.Service.Create,
      NewPost_eq_of_invalid clock newID title content e hv]
  -- service GetAll
  · simp [postrepo.expiredService, post.NewService, post.Service.GetAll,
      (hreads page pageSize limit).1]
  · simp [postrepo.expiredService, post.NewService, post.Service.GetAll,
      (hreads page pageSize limit).1]
  · simp only [postrepo.expiredService, post.NewService, post.Service.GetAll,
      (hreads page pageSize limit).1]
    exact timedOut_Errorf_Errorf _ _
  -- service GetByID
  · simp [postrepo.expiredService, post.NewService, post.Service.GetByID, expired_GetByID_eq]
  · simp [postrepo.expiredService, post.NewService, post.Service.GetByID, expired_GetByID_eq]
  · intro h
    obtain ⟨objID, hx⟩ := hwf h
    simp only [postrepo.expiredService, post.NewService, post.Service.GetByID,
      expired_GetByID_eq, hx]
    exact timedOut_Errorf_Errorf _ _
  · intro h
    obtain ⟨e, hx⟩ := hmal h
    exact ⟨e, hx, by simp [postrepo.expiredService, post.NewService, post.Service.GetByID,
      expired_GetByID_eq, hx]⟩
  -- service Update
  · simp [postrepo.expiredService, post.NewService, post.Service.Update, expired_GetByID_eq]
  · intro h
    obtain ⟨objID, hx⟩ := hwf h
    simp only [postrepo.expiredService, post.NewService, post.Service.Update,
      expired_GetByID_eq, hx]
    exact ⟨_, rfl, errors_Is_wrap _ _ _ (errors_Is_Errorf _ _)⟩
  · intro h
    obtain ⟨e, hx⟩ := hmal h
    exact ⟨e, hx, by simp [postrepo.expiredService, post.NewService, post.Service.Update,
      expired_GetByID_eq, hx]⟩
  -- service Delete
  · simp [postrepo.expiredService, post.NewService, post.Service.Delete, expired_Delete_eq]
  · intro h
    obtain ⟨objID, hx⟩ := hwf h
    simp only [postrepo.expiredService, post.NewService, post.Service.Delete,
      expired_Delete_eq, hx]
    exact timedOut_Errorf_Errorf _ _
  · intro h
    obtain ⟨e, hx⟩ := hmal h
    exact ⟨e, hx, by simp [postrepo.expiredService, post.NewService, post.Service.Delete,
      expired_Delete_eq, hx]⟩
  -- service GetPaginated
  · simp [postrepo.expiredService, post.NewService, post.Service.GetPaginated,
      (hreads _ _ limit).2.1]
  · simp [postrepo.expiredService, post.NewService, post.Service.GetPaginated,
      (hreads _ _ limit).2.1]
  · simp only [postrepo.expiredService, post.NewService, post.Service.GetPaginated,
      (hreads _ _ limit).2.1]
    exact timedOut_Errorf_Errorf _ _
  -- service GetRecent
  · simp [postrepo.expiredService, post.NewService, post.Service.GetRecent,
      (hreads page pageSize _).2.2]
  · simp [postrepo.expiredService, post.NewService, post.Service.GetRecent,
      (hreads page pageSize _).2.2]
  · simp only [postrepo.expiredService, post.NewService, post.Service.GetRecent,
      (hreads page pageSize _).2.2]
    exact timedOut_Errorf_Errorf _ _

theorem expired_deadline_fails_without_writing_witness :
    postrepo.timedOut ((postrepo.expiredRepository 9 99 postrepo.fragmentEngine).GetAll
      [⟨255, "Test Title", "Test content", 1, 1⟩]).2.2 ∧
    postrepo.timedOut ((postrepo.expiredService 9 99 postrepo.fragmentEngine).Create 5 7
      [⟨255, "Test Title", "Test content", 1, 1⟩] "New Title" "New content").2.2 ∧
    ((postrepo.expiredService 9 99 postrepo.fragmentEngine).Create 5 7
      [⟨255, "Test Title", "Test content", 1, 1⟩] "New Title" "New content").1
      = [⟨255, "Test Title", "Test content", 1, 1⟩] :=
  have h := expired_deadline_fails_without_writing 9 99 postrepo.fragmentEngine
    [⟨255, "Test Title", "Test content", 1, 1⟩] ⟨255, "Test Title", "Test content", 1, 1⟩
    "test" "New Title" "New content" "" 1 10 5 5 7
  ⟨h.2.1.2.2, h.2.2.2.2.2.2.2.1.2.2.1 (by decide), h.2.2.2.2.2.2.2.1.1⟩

/-! ## The create and update handlers -/

theorem Handler_Create_of_empty {σ : Type} (svc : posthandler.PostService σ) (st : σ)
    (r : posthandler.Request) (hp : r.ParseForm = none)
    (he : r.FormValue "title" = "" ∨ r.FormValue "content" = "") :
    posthandler.Handler.Create svc st r
      = (st, posthandler.handleError posthandler.ErrEmptyFields 400) := by
  simp [posthandler.Handler.Create, hp, he]

theorem Handler_Update_of_empty {σ : Type} (svc : posthandler.PostService σ) (st : σ)
    (r : posthandler.Request) (hp : r.ParseForm = none)
    (he : r.FormValue "title" = "" ∨ r.FormValue "content" = "") :
    posthandler.Handler.Update svc st r
      = (st, Outcome.returned (posthandler.handleError posthandler.ErrEmptyFields 400)) := by
  simp [posthandler.Handler.Update, hp, he]

theorem Handler_Create_of_parse_error {σ : Type} (svc : posthandler.PostService σ) (st : σ)
    (r : posthandler.Request) (e : Error) (hp : r.ParseForm = some e) :
    posthandler.Handler.Create svc st r
      = (st, posthandler.handleError posthandler.ErrInvalidFormData 400) := by
  simp [posthandler.Handler.Create, hp]

theorem Handler_Update_of_parse_error {σ : Type} (svc : posthandler.PostService σ) (st : σ)
    (r : posthandler.Request) (e : Error) (hp : r.ParseForm = some e) :
    posthandler.Handler.Update svc st r
      = (st, Outcome.returned (posthandler.handleError posthandler.ErrInvalidFormData 400)) := by
  simp [posthandler.Handler.Update, hp]

theorem Handler_Create_of_filled {σ : Type} (svc : posthandler.PostService σ) (st : σ)
    (r : posthandler.Request) (hp : r.ParseForm = none)
    (ht : r.FormValue "title" ≠ "") (hc : r.FormValue "content" ≠ "") :
    (posthandler.Handler.Create svc st r).2
      = (match (svc.Create st (r.FormValue "title") (r.FormValue "content")).2.2 with
          | some err => posthandler.handleError err.text 400
          | none => posthandler.handleHTMXSuccess posthandler.TriggerPostCreated) := by
  rcases hs : svc.Create st (r.FormValue "title") (r.FormValue "content") with ⟨st1, p, _ | e⟩ <;>
    simp [posthandler.Handler.Create, hp, ht, hc, hs]

theorem Handler_Update_of_filled {σ : Type} (svc : posthandler.PostService σ) (st : σ)
    (r : posthandler.Request) (hp : r.ParseForm = none)
    (ht : r.FormValue "title" ≠ "") (hc : r.FormValue "content" ≠ "") :
    (posthandler.Handler.Update svc st r).2
      = (match (svc.Update st (r.URLParam "id") (r.FormValue "title")
            (r.FormValue "content")).2 with
          | Outcome.panicked => Outcome.panicked
          | Outcome.returned (some err) =>
            Outcome.returned (posthandler.handleError err.text 400)
          | Outcome.returned none =>
            Outcome.returned (posthandler.handleHTMXSuccess posthandler.TriggerPostUpdated)) := by
  rcases hs : svc.Update st (r.URLParam "id") (r.FormValue "title") (r.FormValue "content")
    with ⟨st1, o⟩
  cases o with
  | panicked => simp [posthandler.Handler.Update, hp, ht, hc, hs]
  | returned v => cases v <;> simp [posthandler.Handler.Update, hp, ht, hc, hs]

theorem handleError_Get (message : String) (status : Nat) :
    (posthandler.handleError message status).Get "HX-Error-Message" = message := by
  simp [posthandler.handleError, posthandler.Response.Get, posthandler.HXErrorHeader]

theorem handleHTMXSuccess_Get (trigger : String) :
    (posthandler.handleHTMXSuccess trigger).Get "HX-Trigger" = trigger := by
  simp [posthandler.handleHTMXSuccess, posthandler.Response.Get, posthandler.HXTriggerHeader]

/-- C28: for a request whose form parsed, `Handler.Create` and
`Handler.Update` answer an empty title or an empty content with status 400 and
the header HX-Error-Message "Title and content are required", and a service that
logs its calls has logged none; with both fields non-empty they answer 204 with
HX-Trigger "postCreated" or "postUpdated" when the service returns a nil error
and 400 when it returns an error. A request whose form did not parse is answered
400 as well, with no service call. -/
theorem handlers_check_form_fields {σ : Type} (svc : posthandler.PostService σ) (st : σ)
    (r : posthandler.Request) :
    (r.ParseForm = none → (r.FormValue "title" = "" ∨ r.FormValue "content" = "") →
      (posthandler.Handler.Create svc st r).2.Status = 400 ∧
      (posthandler.Handler.Create svc st r).2.Get "HX-Error-Message"
        = "Title and content are required" ∧
      (posthandler.Handler.Create svc.recording (st, []) r).1 = (st, []) ∧
      (∃ w, (posthandler.Handler.Update svc st r).2 = Outcome.returned w ∧ w.Status = 400 ∧
        w.Get "HX-Error-Message" = "Title and content are required") ∧
      (posthandler.Handler.Update svc.recording (st, []) r).1 = (st, [])) ∧
    (r.ParseForm = none → r.FormValue "title" ≠ "" → r.FormValue "content" ≠ "" →
      ((svc.Create st (r.FormValue "title") (r.FormValue "content")).2.2 = none →
        (posthandler.Handler.Create svc st r).2.Status = 204 ∧
        (posthandler.Handler.Create svc st r).2.Get "HX-Trigger" = "postCreated") ∧
      ((svc.Create st (r.FormValue "title") (r.FormValue "content")).2.2 ≠ none →
        (posthandler.Handler.Create svc st r).2.Status = 400) ∧
      ((svc.Update st (r.URLParam "id") (r.FormValue "title") (r.FormValue "content")).2
          = Outcome.returned none →
        ∃ w, (posthandler.Handler.Update svc st r).2 = Outcome.returned w ∧ w.Status = 204 ∧
          w.Get "HX-Trigger" = "postUpdated") ∧
      (∀ err, (svc.Update st (r.URLParam "id") (r.FormValue "title") (r.FormValue "content")).2
          = Outcome.returned (some err) →
        ∃ w, (posthandler.Handler.Update svc st r).2 = Outcome.returned w ∧ w.Status = 400)) ∧
    (r.ParseForm ≠ none →
      (posthandler.Handler.Create svc st r).2.Status = 400 ∧
      (posthandler.Handler.Create svc.recording (st, []) r).1 = (st, []) ∧
      (∃ w, (posthandler.Handler.Update svc st r).2 = Outcome.returned w ∧ w.Status = 400) ∧
      (posthandler.Handler.Update svc.recording (st, []) r).1 = (st, [])) := by
  refine ⟨?_, ?_, ?_⟩
  · intro hp he
    rw [Handler_Create_of_empty svc st r hp he, Handler_Update_of_empty svc st r hp he,
      Handler_Create_of_empty svc.recording (st, []) r hp he,
      Handler_Update_of_empty svc.recording (st, []) r hp he]
    exact ⟨rfl, handleError_Get _ _, rfl, ⟨_, rfl, rfl, handleError_Get _ _⟩, rfl⟩
  · intro hp ht hc
    rw [Handler_Create_of_filled svc st r hp ht hc, Handler_Update_of_filled svc st r hp ht hc]
    refine ⟨?_, ?_, ?_, ?_⟩
    · intro h
      rw [h]
      exact ⟨rfl, handleHTMXSuccess_Get _⟩
    · intro h
      cases hs : (svc.Create st (r.FormValue "title") (r.FormValue "content")).2.2 with
      | none => exact absurd hs h
      | some e => rfl
    · intro h
      rw [h]
      exact ⟨_, rfl, rfl, handleHTMXSuccess_Get _⟩
    · intro err h
      rw [h]
      exact ⟨_, rfl, rfl⟩
  · intro hp
    cases hpe : r.ParseForm with
    | none => exact absurd hpe hp
    | some e =>
      rw [Handler_Create_of_parse_error svc st r e hpe,
        Handler_Update_of_parse_error svc st r e hpe,
        Handler_Create_of_parse_error svc.recording (st, []) r e hpe,
        Handler_Update_of_parse_error svc.recording (st, []) r e hpe]
      exact ⟨rfl, rfl, ⟨_, rfl, rfl⟩, rfl⟩

theorem Handler_Create_records_call {σ : Type} (svc : posthandler.PostService σ) (st : σ)
    (r : posthandler.Request) (hp : r.ParseForm = none)
    (ht : r.FormValue "title" ≠ "") (hc : r.FormValue "content" ≠ "") :
    (posthandler.Handler.Create svc.recording (st, []) r).1.2
      = [posthandler.ServiceCall.Create (r.FormValue "title") (r.FormValue "content")] := by
  rcases hs : svc.Create st (r.FormValue "title") (r.FormValue "content") with ⟨st1, p, _ | e⟩ <;>
    simp [posthandler.Handler.Create, posthandler.PostService.recording, hp, ht, hc, hs]

theorem handlers_check_form_fields_witness :
    ((posthandler.Handler.Create posthandler.emptyService.toPostService ()
        (posthandler.formRequest "" "" "Content")).2.Status = 400 ∧
      (posthandler.Handler.Create posthandler.emptyService.toPostService ()
        (posthandler.formRequest "" "" "Content")).2.Get "HX-Error-Message"
        = "Title and content are required" ∧
      (posthandler.Handler.Create posthandler.emptyService.toPostService.recording ((), [])
        (posthandler.formRequest "" "" "Content")).1 = ((), []) ∧
      (∃ w, (posthandler.Handler.Update posthandler.emptyService.toPostService ()
          (posthandler.formRequest "" "" "Content")).2 = Outcome.returned w ∧ w.Status = 400 ∧
        w.Get "HX-Error-Message" = "Title and content are required") ∧
      (posthandler.Handler.Update posthandler.emptyService.toPostService.recording ((), [])
        (posthandler.formRequest "" "" "Content")).1 = ((), [])) ∧
    ((posthandler.Handler.Create posthandler.emptyService.toPostService ()
        (posthandler.formRequest "" "Test" "Content")).2.Status = 204 ∧
      (posthandler.Handler.Create posthandler.emptyService.toPostService ()
        (posthandler.formRequest "" "Test" "Content")).2.Get "HX-Trigger" = "postCreated") ∧
    (posthandler.Handler.Create posthandler.failingService.toPostService ()
        (posthandler.formRequest "" "Test" "Content")).2.Status = 400 :=
  ⟨(handlers_check_form_fields posthandler.emptyService.toPostService ()
      (posthandler.formRequest "" "" "Content")).1 rfl (Or.inl rfl),
   ((handlers_check_form_fields posthandler.emptyService.toPostService ()
      (posthandler.formRequest "" "Test" "Content")).2.1 rfl (by decide) (by decide)).1 rfl,
   ((handlers_check_form_fields posthandler.failingService.toPostService ()
      (posthandler.formRequest "" "Test" "Content")).2.1 rfl (by decide) (by decide)).2.1
      (by decide)⟩
